import Mathlib

/-!
# spica renderer: bidirectional path tracing, render loop and discrete BSSRDF

Shallow embedding of `src/renderer/bdpt.cc` and `src/renderer/bssrdf.cc`.

* A C++ `double` is a value of `Double`: a finite value carried as a rational number
  (rounding, overflow to infinity and the sign of zero are not modelled), one of the
  two infinities, or NaN.  The arithmetic follows IEEE 754 on the special values, so
  `isnan` tests and comparisons against NaN behave as in the program.
* Classes whose code is outside the translated files (`Vector3D`, `Scene`,
  `DoFCamera`, helper routines) enter as records of functions; every theorem holds for
  all of them.
* `std::vector` buffers indexed by the loops of `calcMISWeight` are maps from the
  index to the stored value together with their size.
-/

namespace spica

/-! ## Doubles -/

/-- Value of a C++ double in exact arithmetic. -/
inductive Double where
  | nan : Double
  | ninf : Double
  | fin (q : ℚ) : Double
  | pinf : Double
  deriving DecidableEq

namespace Double

instance : Inhabited Double := ⟨fin 0⟩
instance : Zero Double := ⟨fin 0⟩
instance : One Double := ⟨fin 1⟩

/-- IEEE addition without rounding. -/
def add : Double → Double → Double
  | fin a, fin b => fin (a + b)
  | fin _, pinf => pinf
  | fin _, ninf => ninf
  | fin _, nan => nan
  | pinf, fin _ => pinf
  | pinf, pinf => pinf
  | pinf, ninf => nan
  | pinf, nan => nan
  | ninf, fin _ => ninf
  | ninf, pinf => nan
  | ninf, ninf => ninf
  | ninf, nan => nan
  | nan, _ => nan

/-- Unary minus. -/
def neg : Double → Double
  | fin a => fin (-a)
  | pinf => ninf
  | ninf => pinf
  | nan => nan

/-- Infinity times a finite value: NaN at zero, otherwise an infinity whose sign is the
product of the signs. -/
def mulInf (positive : Bool) (b : ℚ) : Double :=
  if b = 0 then nan else if (decide (0 < b)) = positive then pinf else ninf

/-- IEEE multiplication without rounding. -/
def mul : Double → Double → Double
  | fin a, fin b => fin (a * b)
  | fin a, pinf => mulInf true a
  | fin a, ninf => mulInf false a
  | fin _, nan => nan
  | pinf, fin b => mulInf true b
  | pinf, pinf => pinf
  | pinf, ninf => ninf
  | pinf, nan => nan
  | ninf, fin b => mulInf false b
  | ninf, pinf => ninf
  | ninf, ninf => pinf
  | ninf, nan => nan
  | nan, _ => nan

/-- IEEE division without rounding; a zero divisor counts as `+0`. -/
def div : Double → Double → Double
  | fin a, fin b =>
      if b = 0 then (if a = 0 then nan else if 0 < a then pinf else ninf) else fin (a / b)
  | fin _, pinf => fin 0
  | fin _, ninf => fin 0
  | fin _, nan => nan
  | pinf, fin b => if 0 ≤ b then pinf else ninf
  | pinf, pinf => nan
  | pinf, ninf => nan
  | pinf, nan => nan
  | ninf, fin b => if 0 ≤ b then ninf else pinf
  | ninf, pinf => nan
  | ninf, ninf => nan
  | ninf, nan => nan
  | nan, _ => nan

instance : Add Double := ⟨add⟩
instance : Neg Double := ⟨neg⟩
instance : Sub Double := ⟨fun a b => add a (neg b)⟩
instance : Mul Double := ⟨mul⟩
instance : Div Double := ⟨div⟩

/-- The C++ test `a < b`: false as soon as one side is NaN. -/
def lt : Double → Double → Bool
  | fin a, fin b => decide (a < b)
  | fin _, pinf => true
  | ninf, fin _ => true
  | ninf, pinf => true
  | _, _ => false

/-- The C++ test `a <= b`. -/
def le : Double → Double → Bool
  | fin a, fin b => decide (a ≤ b)
  | fin _, pinf => true
  | ninf, fin _ => true
  | ninf, pinf => true
  | ninf, ninf => true
  | pinf, pinf => true
  | _, _ => false

/-- The C++ test `a == b`: NaN is equal to nothing. -/
def eq : Double → Double → Bool
  | fin a, fin b => decide (a = b)
  | pinf, pinf => true
  | ninf, ninf => true
  | _, _ => false

/-- The C++ `isnan`. -/
def isnan : Double → Bool
  | nan => true
  | _ => false

/-- The C++ `std::max(a, b)`, which is `(a < b) ? b : a`. -/
def max (a b : Double) : Double := if lt a b then b else a

/-- The C++ `std::min(a, b)`, which is `(b < a) ? b : a`. -/
def min (a b : Double) : Double := if lt b a then b else a

/-- A finite value, the image of a real number. -/
def isFinite : Double → Bool
  | fin _ => true
  | _ => false

/-- The real number a finite value stands for (0 for the special values). -/
def toRat : Double → ℚ
  | fin q => q
  | _ => 0

end Double

/-! ## Colours, vectors and the records standing for classes outside the translated files -/

/-- RGB colour with `double` channels (`Color`). -/
structure Color where
  red : Double
  green : Double
  blue : Double
  deriving DecidableEq

namespace Color

instance : Inhabited Color := ⟨⟨0, 0, 0⟩⟩

/-- Modelled from the spec: class `Color` (core/color.h) is not among the translated files;
`Color(0.0, 0.0, 0.0)`, also the value of the default constructor `Color()`. -/
def black : Color := ⟨0, 0, 0⟩

/-- Modelled from the spec: class `Color` (core/color.h) is not among the translated files;
`a + b` and `a += b` add channel by channel. -/
def add (a b : Color) : Color := ⟨a.red + b.red, a.green + b.green, a.blue + b.blue⟩

/-- Modelled from the spec: class `Color` (core/color.h) is not among the translated files;
`a * b` multiplies channel by channel. -/
def mul (a b : Color) : Color := ⟨a.red * b.red, a.green * b.green, a.blue * b.blue⟩

/-- Modelled from the spec: class `Color` (core/color.h) is not among the translated files;
`a * s`, `s * a` and `a *= s` scale every channel by the double `s`. -/
def scale (a : Color) (s : Double) : Color := ⟨a.red * s, a.green * s, a.blue * s⟩

/-- Modelled from the spec: class `Color` (core/color.h) is not among the translated files;
`a / s` divides every channel by the double `s`. -/
def divide (a : Color) (s : Double) : Color := ⟨a.red / s, a.green / s, a.blue / s⟩

instance : Add Color := ⟨add⟩
instance : Mul Color := ⟨mul⟩

end Color

/-- Three-dimensional vector (`Vector3D`); its operations are fields of `Lib`. -/
structure Vector3D where
  x : Double
  y : Double
  z : Double
  deriving DecidableEq

instance : Inhabited Vector3D := ⟨⟨0, 0, 0⟩⟩

/-- Ray: origin and direction. -/
structure Ray where
  origin : Vector3D
  direction : Vector3D

/-- Result record of `Scene::intersect`. -/
structure Intersection where
  distance : Double
  position : Vector3D
  normal : Vector3D
  objectID : Int

/-- The values of `BsdfType` the tracer distinguishes; `Other` stands for every further
enumerant. -/
inductive BsdfType where
  | Lambertian
  | Specular
  | Reflactive
  | Other
  deriving DecidableEq

/-- What the tracer reads of a `BSDF`: `type()` and `reflectance()`. -/
structure BSDF where
  type : BsdfType
  reflectance : Color

/-- Sample on a light source (`LightSample`). -/
structure LightSample where
  position : Vector3D
  normal : Vector3D
  Le : Color

/-- Sample on the camera (`CameraSample`). -/
structure CameraSample where
  posLens : Vector3D
  posSensor : Vector3D
  posObjplane : Vector3D
  ray : Ray

/-- Return value and output arguments of `DoFCamera::intersectLens`. -/
structure LensHit where
  lensT : Double
  positionOnLens : Vector3D
  positionOnObjplane : Vector3D
  positionOnSensor : Vector3D
  uvOnSensor : Vector3D

/-- Outputs of `helper::checkTotalReflection`. -/
structure TotalReflection where
  totalReflection : Bool
  reflectdir : Vector3D
  transdir : Vector3D
  fresnelRe : Double
  fresnelTr : Double

/-- Random numbers handed to one pixel sample (`Stack<double>`): the stream of values
that successive `pop()` calls return. -/
def Stack : Type := Nat → Double

/-- One `rstk.pop()`: the value popped and the remaining stack. -/
def Stack.pop (s : Stack) : Double × Stack := (s 0, fun n => s (n + 1))

/-- Constants and helper routines declared in headers outside the translated files. -/
structure Lib where
  EPS : Double
  INV_PI : Double
  INFTY : Double
  kReflectProbability : Double
  kIorVaccum : Double
  kIorObject : Double
  sub : Vector3D → Vector3D → Vector3D
  neg : Vector3D → Vector3D
  smul : Double → Vector3D → Vector3D
  normalized : Vector3D → Vector3D
  dot : Vector3D → Vector3D → Double
  squaredNorm : Vector3D → Double
  norm : Vector3D → Double
  reflect : Vector3D → Vector3D → Vector3D
  colorNorm : Color → Double
  max3 : Double → Double → Double → Double
  toInt : Double → Int
  onHemisphere : Vector3D → Double → Double → Vector3D
  checkTotalReflection : Bool → Vector3D → Vector3D → Vector3D → TotalReflection

/-- The queries the tracer makes to a finalized `Scene`. -/
structure Scene where
  lightArea : Double
  getBsdf : Int → BSDF
  isLightCheck : Int → Bool
  intersect : Ray → Bool × Intersection
  directLight : Vector3D → Color
  sampleLight : Stack → LightSample × Stack

/-- The queries the tracer makes to a `DoFCamera`. -/
structure DoFCamera where
  imageW : Int
  imageH : Int
  lensArea : Double
  sensorW : Double
  sensorH : Double
  cellW : Double
  cellH : Double
  direction : Vector3D
  lensNormal : Vector3D
  intersectLens : Ray → LensHit
  PImageToPAx1 : Double → Vector3D → Vector3D → Vector3D → Double
  contribSensitivity : Vector3D → Vector3D → Vector3D → Double
  sample : Int → Int → Stack → CameraSample × Stack

/-! ## Path vertices -/

/-- The enumeration `HitObjectType`. -/
inductive HitObjectType where
  | HIT_ON_LIGHT
  | HIT_ON_LENS
  | HIT_ON_OBJECT
  deriving DecidableEq

/-- The struct `TraceResult`. -/
structure TraceResult where
  value : Color
  imageX : Int
  imageY : Int
  hitObjType : HitObjectType

/-- The enumeration `Vertex::ObjectType`. -/
inductive ObjectType where
  | OBJECT_TYPE_LIGHT
  | OBJECT_TYPE_LENS
  | OBJECT_TYPE_DIFFUSE
  | OBJECT_TYPE_SPECULAR
  deriving DecidableEq

/-- The struct `Vertex` storing a traced vertex. -/
structure Vertex where
  totalPdfA : Double
  throughput : Color
  position : Vector3D
  objectId : Int
  emission : Color
  orientNormal : Vector3D
  objectNormal : Vector3D
  objtype : ObjectType
  deriving DecidableEq

instance : Inhabited Vertex :=
  ⟨⟨0, default, default, 0, default, default, default, ObjectType.OBJECT_TYPE_LIGHT⟩⟩

/-- Element `i` of a `std::vector<Vertex>`; an index outside the vector (undefined
behaviour in C++) reads the default vertex. -/
def vertexAt (verts : List Vertex) (i : Nat) : Vertex := verts.getD i default

/-! ## Multiple importance sampling -/

/-- The function `sample_hemisphere_pdf_omega`. -/
def sample_hemisphere_pdf_omega (lib : Lib) (normal direction : Vector3D) : Double :=
  Double.max (lib.dot normal direction) 0 * lib.INV_PI

/-- The function `calcPdfA`: area density of generating `verts[nextIdx]` from
`verts[fromIdx]`, the vertex before being `verts[prevFromIdx]` when that index is in
range. -/
def calcPdfA (lib : Lib) (scene : Scene) (camera : DoFCamera) (verts : List Vertex)
    (prevFromIdx : Int) (fromIdx nextIdx : Nat) : Double :=
  let reflectProb : Double := Double.fin (1 / 2)
  let fromVert := vertexAt verts fromIdx
  let nextVert := vertexAt verts nextIdx
  let prevFromVertex : Option Vertex :=
    if 0 ≤ prevFromIdx ∧ prevFromIdx < (verts.length : Int) then
      some (vertexAt verts prevFromIdx.toNat)
    else none
  let toVec := lib.sub nextVert.position fromVert.position
  let normalizedTo := lib.normalized toVec
  let finish (pdf : Double) : Double :=
    let nextNewOrientNormal :=
      if (lib.dot toVec nextVert.objectNormal).lt 0 then nextVert.objectNormal
      else lib.neg nextVert.objectNormal
    pdf * lib.dot (lib.smul (Double.fin (-1)) normalizedTo) nextNewOrientNormal / lib.dot toVec toVec
  match fromVert.objtype with
  | ObjectType.OBJECT_TYPE_LIGHT =>
      finish (sample_hemisphere_pdf_omega lib fromVert.orientNormal normalizedTo)
  | ObjectType.OBJECT_TYPE_DIFFUSE =>
      finish (sample_hemisphere_pdf_omega lib fromVert.orientNormal normalizedTo)
  | ObjectType.OBJECT_TYPE_LENS =>
      let testRay : Ray := ⟨nextVert.position, lib.neg normalizedTo⟩
      let hit := camera.intersectLens testRay
      if lib.EPS.lt hit.lensT then
        let x0xV := lib.sub hit.positionOnObjplane hit.positionOnLens
        let x0x1 := lib.sub testRay.origin hit.positionOnLens
        let PImage : Double := 1 / (camera.sensorW * camera.sensorH)
        camera.PImageToPAx1 PImage x0xV x0x1 nextVert.orientNormal
      else 0
  | ObjectType.OBJECT_TYPE_SPECULAR =>
      let bsdf := scene.getBsdf fromVert.objectId
      if bsdf.type = BsdfType.Reflactive then
        match prevFromVertex with
        | some prevVert =>
            let intoFromVertexDir := lib.normalized (lib.sub fromVert.position prevVert.position)
            let isIncoming := (lib.dot intoFromVertexDir fromVert.objectNormal).lt 0
            let fromNewOrientNormal :=
              if isIncoming then fromVert.objectNormal else lib.neg fromVert.objectNormal
            let tr := lib.checkTotalReflection isIncoming intoFromVertexDir
              fromVert.objectNormal fromNewOrientNormal
            if tr.totalReflection then finish 1
            else if Double.lt 0 (lib.dot fromNewOrientNormal normalizedTo) then finish reflectProb
            else finish (1 - reflectProb)
        | none => finish 0
      else finish 1

/-- The chain `verts` of `calcMISWeight`: the first `nLightVerts` light vertices in
order, then the first `nEyeVerts` eye vertices in reverse order. -/
def misChain (eyeVerts lightVerts : List Vertex) (nEyeVerts nLightVerts : Nat) : List Vertex :=
  (List.range (nEyeVerts + nLightVerts)).map fun j =>
    if j < nLightVerts then vertexAt lightVerts j
    else vertexAt eyeVerts (nLightVerts + nEyeVerts - j - 1)

/-- Russian roulette probability of the first chain vertex, as `calcMISWeight` computes
it. -/
def misRoulette (lib : Lib) (scene : Scene) (verts : List Vertex) : Double :=
  if Double.lt 0 (lib.colorNorm (vertexAt verts 0).emission) then 1
  else if 0 ≤ (vertexAt verts 0).objectId then
    let refl := (scene.getBsdf (vertexAt verts 0).objectId).reflectance
    Double.min 1 (lib.max3 refl.red refl.green refl.blue)
  else 0

/-- The array `pi1pi` of `calcMISWeight` once its three assignments have run; `k` is
the last index of the chain. -/
def misRatios (lib : Lib) (scene : Scene) (camera : DoFCamera) (verts : List Vertex) :
    Nat → Double :=
  let k := verts.length - 1
  let PAy0 : Double := 1 / scene.lightArea
  let first : Nat → Double := Function.update (fun _ => 0) 0
    (PAy0 / (calcPdfA lib scene camera verts 2 1 0 * misRoulette lib scene verts))
  let inner := (List.range' 1 (k - 1)).foldl (fun (pi1pi : Nat → Double) (i : Nat) =>
    let a := calcPdfA lib scene camera verts ((i : Int) - 2) (i - 1) i
    let b := calcPdfA lib scene camera verts ((i : Int) + 2) (i + 1) i
    Function.update pi1pi i (a / b)) first
  Function.update inner k 0

/-- The assignment `p[i + 1] = p[i] * pi1pi[i]`. -/
def misForwardStep (pi1pi : Nat → Double) (p : Nat → Double) (i : Nat) : Nat → Double :=
  Function.update p (i + 1) (p i * pi1pi i)

/-- The loop `for (i = nLightVerts; i <= k; i++) p[i + 1] = p[i] * pi1pi[i]`, the chain
having `n = k + 1` vertices. -/
def misForward (pi1pi : Nat → Double) (n nLightVerts : Nat) (p : Nat → Double) : Nat → Double :=
  (List.range' nLightVerts (n - nLightVerts)).foldl (misForwardStep pi1pi) p

/-- The assignment `p[i] = p[i + 1] / pi1pi[i]`. -/
def misBackwardStep (pi1pi : Nat → Double) (p : Nat → Double) (i : Nat) : Nat → Double :=
  Function.update p i (p (i + 1) / pi1pi i)

/-- The loop `for (i = nLightVerts - 1; i >= 0; i--) p[i] = p[i + 1] / pi1pi[i]`. -/
def misBackward (pi1pi : Nat → Double) (nLightVerts : Nat) (p : Nat → Double) : Nat → Double :=
  (List.range nLightVerts).reverse.foldl (misBackwardStep pi1pi) p

/-- The statement `if (verts[i]->objtype == OBJECT_TYPE_SPECULAR) { p[i] = 0.0;
p[i + 1] = 0.0; }`. -/
def misSpecularStep (verts : List Vertex) (p : Nat → Double) (i : Nat) : Nat → Double :=
  if (vertexAt verts i).objtype = ObjectType.OBJECT_TYPE_SPECULAR then
    Function.update (Function.update p i 0) (i + 1) 0
  else p

/-- The loop that zeroes `p[i]` and `p[i + 1]` for every Specular chain vertex `i`. -/
def misSpecular (verts : List Vertex) (p : Nat → Double) : Nat → Double :=
  (List.range verts.length).foldl (misSpecularStep verts) p

/-- The array `p` of strategy densities that enters the power heuristic. -/
def misDensities (pi1pi : Nat → Double) (verts : List Vertex) (totalPdfA : Double)
    (nLightVerts : Nat) : Nat → Double :=
  misSpecular verts
    (misBackward pi1pi nLightVerts
      (misForward pi1pi verts.length nLightVerts
        (Function.update (fun _ => 0) nLightVerts totalPdfA)))

/-- The power-heuristic loop over the `size` entries of `p`. -/
def misPowerSum (p : Nat → Double) (size nLightVerts : Nat) : Double :=
  (List.range size).foldl (fun MIS i => MIS + (p i / p nLightVerts) * (p i / p nLightVerts)) 0

/-- The power heuristic in the spec's words: the square of the density of the strategy
used over the sum of the squares of all `size` strategy densities. -/
def powerHeuristic (p : Nat → Double) (size nLightVerts : Nat) : Double :=
  (p nLightVerts * p nLightVerts) / (List.range size).foldl (fun acc i => acc + p i * p i) 0

/-- The function `calcMISWeight`. -/
def calcMISWeight (lib : Lib) (scene : Scene) (camera : DoFCamera) (totalPdfA : Double)
    (eyeVerts lightVerts : List Vertex) (nEyeVerts nLightVerts : Nat) : Double :=
  let verts := misChain eyeVerts lightVerts nEyeVerts nLightVerts
  let pi1pi := misRatios lib scene camera verts
  let p := misDensities pi1pi verts totalPdfA nLightVerts
  1 / misPowerSum p (nEyeVerts + nLightVerts + 1) nLightVerts

/-! ## Light and path tracer -/

/-- The local variables of the tracing loops of `lightTrace` and `pathTrace` together
with the vertex list and the random stack they update. -/
structure TraceState where
  totalPdfA : Double
  throughput : Color
  ray : Ray
  pdfOmega : Double
  prevNormal : Vector3D
  rstk : Stack
  vertices : List Vertex

/-- How one iteration of a tracing loop ends: with `return`, with `break`, or by going
on to the next bounce. -/
inductive BounceOutcome where
  | returned (result : TraceResult) (st : TraceState)
  | stopped (st : TraceState)
  | continued (st : TraceState)

/-- The clamp `v < 0 ? 0 : v >= size ? size - 1 : v` applied to raster coordinates. -/
def clampPixel (v size : Int) : Int :=
  if v < 0 then 0 else if v ≥ size then size - 1 else v

/-- Russian roulette probability at a hit, the same expression in both tracers. -/
def rouletteProb (lib : Lib) (scene : Scene) (objectID : Int) : Double :=
  let refl := (scene.getBsdf objectID).reflectance
  if scene.isLightCheck objectID then 1
  else Double.min 1 (lib.max3 refl.red refl.green refl.blue)

/-- The tag of a recorded surface vertex: Diffuse for a Lambertian BSDF, Specular
otherwise. -/
def surfaceType (bsdf : BSDF) : ObjectType :=
  if bsdf.type = BsdfType.Lambertian then ObjectType.OBJECT_TYPE_DIFFUSE
  else ObjectType.OBJECT_TYPE_SPECULAR

/-- The part of an iteration of `lightTrace` after the Russian roulette test: the
vertex at the hit `isect` is recorded and the next ray is sampled according to the type
of the BSDF. `st` is the state with the three random numbers of the iteration popped,
`rands1` and `rands2` the second and third of them. -/
def lightTraceScatter (lib : Lib) (scene : Scene) (st : TraceState) (isect : Intersection)
    (rands1 rands2 : Double) : TraceState :=
  let currentRay := st.ray
  let triangleID := isect.objectID
  let bsdf := scene.getBsdf triangleID
  let orientNormal :=
    if (lib.dot isect.normal currentRay.direction).lt 0 then isect.normal
    else lib.neg isect.normal
  let roulette := rouletteProb lib scene triangleID
  let totalPdfA1 := st.totalPdfA * roulette
  let toNextVertex := lib.sub currentRay.origin isect.position
  let cosNext := lib.dot (lib.normalized toNextVertex) orientNormal
  let nowSampledPdfArea := st.pdfOmega * (cosNext / lib.dot toNextVertex toNextVertex)
  let totalPdfA := totalPdfA1 * nowSampledPdfArea
  let G := cosNext *
    lib.dot (lib.normalized (lib.smul (Double.fin (-1)) toNextVertex)) st.prevNormal /
    lib.dot toNextVertex toNextVertex
  let throughput := st.throughput.scale G
  let emission :=
    if scene.isLightCheck triangleID then scene.directLight currentRay.direction
    else Color.black
  let vertex : Vertex := ⟨totalPdfA, throughput, isect.position, isect.objectID, emission,
    orientNormal, isect.normal, surfaceType bsdf⟩
  let vertices := st.vertices ++ [vertex]
  match bsdf.type with
  | BsdfType.Lambertian =>
      let nextDir := lib.onHemisphere orientNormal rands1 rands2
      { totalPdfA := totalPdfA,
        throughput := (bsdf.reflectance * throughput).scale lib.INV_PI,
        ray := ⟨isect.position, nextDir⟩,
        pdfOmega := sample_hemisphere_pdf_omega lib orientNormal nextDir,
        prevNormal := orientNormal, rstk := st.rstk, vertices := vertices }
  | BsdfType.Specular =>
      let nextDir := lib.reflect currentRay.direction isect.normal
      { totalPdfA := totalPdfA,
        throughput := (bsdf.reflectance * throughput).divide cosNext,
        ray := ⟨isect.position, nextDir⟩,
        pdfOmega := 1,
        prevNormal := orientNormal, rstk := st.rstk, vertices := vertices }
  | BsdfType.Reflactive =>
      let isIncoming := Double.lt 0 (lib.dot isect.normal orientNormal)
      let tr := lib.checkTotalReflection isIncoming currentRay.direction isect.normal
        orientNormal
      if tr.totalReflection then
        { totalPdfA := totalPdfA,
          throughput := (bsdf.reflectance * throughput).divide cosNext,
          ray := ⟨isect.position, tr.reflectdir⟩,
          pdfOmega := 1,
          prevNormal := orientNormal, rstk := st.rstk, vertices := vertices }
      else
        let probability := Double.fin (1 / 4) + Double.fin (1 / 2) * lib.kReflectProbability
        if rands1.lt probability then
          { totalPdfA := totalPdfA * probability,
            throughput :=
              ((bsdf.reflectance * throughput).scale tr.fresnelRe).divide cosNext,
            ray := ⟨isect.position, tr.reflectdir⟩,
            pdfOmega := 1,
            prevNormal := orientNormal, rstk := st.rstk, vertices := vertices }
        else
          let ratio :=
            if isIncoming then lib.kIorVaccum / lib.kIorObject
            else lib.kIorObject / lib.kIorVaccum
          let nnt2 := ratio * ratio
          { totalPdfA := totalPdfA * (1 - probability),
            throughput :=
              ((bsdf.reflectance * throughput).scale (nnt2 * tr.fresnelTr)).divide cosNext,
            ray := ⟨isect.position, tr.transdir⟩,
            pdfOmega := 1,
            prevNormal := orientNormal, rstk := st.rstk, vertices := vertices }
  | BsdfType.Other =>
      { totalPdfA := totalPdfA, throughput := throughput, ray := currentRay,
        pdfOmega := st.pdfOmega,
        prevNormal := orientNormal, rstk := st.rstk, vertices := vertices }

/-- The part of an iteration of `lightTrace` that runs when the ray reaches the lens:
the lens vertex is recorded and the sample for the raster pixel under the hit is
returned. -/
def lightTraceLens (lib : Lib) (camera : DoFCamera) (st : TraceState) (hit : LensHit) :
    TraceResult × TraceState :=
  let currentRay := st.ray
  let x0xI := lib.sub hit.positionOnSensor hit.positionOnLens
  let x0xV := lib.sub hit.positionOnObjplane hit.positionOnLens
  let x0x1 := lib.sub currentRay.origin hit.positionOnLens
  let x := clampPixel (lib.toInt hit.uvOnSensor.x) camera.imageW
  let y := clampPixel (lib.toInt hit.uvOnSensor.y) camera.imageH
  let camDir := lib.normalized camera.direction
  let nowSamplePdfArea :=
    st.pdfOmega * (lib.dot (lib.normalized x0x1) camDir / lib.dot x0x1 x0x1)
  let totalPdfA := st.totalPdfA * nowSamplePdfArea
  let G := lib.dot (lib.normalized x0x1) camDir * Double.fin (-1) *
    (lib.dot (lib.normalized x0x1) st.prevNormal / lib.dot x0x1 x0x1)
  let throughput := st.throughput.scale G
  let vertex : Vertex := ⟨totalPdfA, throughput, hit.positionOnLens, -1, Color.black,
    camDir, camDir, ObjectType.OBJECT_TYPE_LENS⟩
  let result := (throughput.scale (camera.contribSensitivity x0xV x0xI x0x1)).divide totalPdfA
  (⟨result, x, y, HitObjectType.HIT_ON_LENS⟩,
    { st with totalPdfA := totalPdfA, throughput := throughput,
              vertices := st.vertices ++ [vertex] })

/-- One iteration of the loop of `lightTrace`. -/
def lightTraceBounce (lib : Lib) (scene : Scene) (camera : DoFCamera) (s0 : TraceState) :
    BounceOutcome :=
  let (rands0, rstk1) := s0.rstk.pop
  let (rands1, rstk2) := rstk1.pop
  let (rands2, rstk3) := rstk2.pop
  let st : TraceState := { s0 with rstk := rstk3 }
  let (isHitScene, isect) := scene.intersect st.ray
  let hit := camera.intersectLens st.ray
  if lib.EPS.lt hit.lensT && hit.lensT.lt isect.distance then
    BounceOutcome.returned (lightTraceLens lib camera st hit).1 (lightTraceLens lib camera st hit).2
  else if !isHitScene then BounceOutcome.stopped st
  else if Double.le (rouletteProb lib scene isect.objectID) rands0 then BounceOutcome.stopped st
  else BounceOutcome.continued (lightTraceScatter lib scene st isect rands1 rands2)

/-- The loop `for (bounce = 0; bounce < bounceLimit; bounce++)` of `lightTrace` with
`remaining` iterations left, followed by the final `return` of the function. -/
def lightTraceLoop (lib : Lib) (scene : Scene) (camera : DoFCamera) :
    Nat → TraceState → TraceResult × TraceState
  | 0, st => (⟨Color.black, 0, 0, HitObjectType.HIT_ON_OBJECT⟩, st)
  | remaining + 1, st =>
      match lightTraceBounce lib scene camera st with
      | BounceOutcome.returned result st1 => (result, st1)
      | BounceOutcome.stopped st1 => (⟨Color.black, 0, 0, HitObjectType.HIT_ON_OBJECT⟩, st1)
      | BounceOutcome.continued st1 => lightTraceLoop lib scene camera remaining st1

/-- The function `lightTrace`; `vertices` is the list the caller passes in, the final
state carries the extended list and the stack after the pops. -/
def lightTrace (lib : Lib) (scene : Scene) (camera : DoFCamera) (rstk : Stack)
    (vertices : List Vertex) (bounceLimit : Nat) : TraceResult × TraceState :=
  let (ls, rstk1) := scene.sampleLight rstk
  let totalPdfA : Double := 1 / scene.lightArea
  let vertex : Vertex := ⟨totalPdfA, Color.black, ls.position, -1, ls.Le, ls.normal, ls.normal,
    ObjectType.OBJECT_TYPE_LIGHT⟩
  let (r1, rstk2) := rstk1.pop
  let (r2, rstk3) := rstk2.pop
  let nextDir := lib.onHemisphere ls.normal r1 r2
  lightTraceLoop lib scene camera bounceLimit
    { totalPdfA := totalPdfA, throughput := ls.Le, ray := ⟨ls.position, nextDir⟩,
      pdfOmega := sample_hemisphere_pdf_omega lib ls.normal nextDir,
      prevNormal := ls.normal, rstk := rstk3, vertices := vertices ++ [vertex] }

/-- The cumulative density and the throughput of `pathTrace` at the hit `isect`, after
the Russian roulette test and the geometry term. -/
def pathTraceArrive (lib : Lib) (scene : Scene) (camera : DoFCamera)
    (camSample : CameraSample) (bounce : Nat) (st : TraceState) (isect : Intersection) :
    Double × Color :=
  let nowRay := st.ray
  let orientNormal :=
    if (lib.dot isect.normal nowRay.direction).lt 0 then isect.normal
    else lib.neg isect.normal
  let roulette := rouletteProb lib scene isect.objectID
  let totalPdfA1 := st.totalPdfA * roulette
  let toNextVertex := lib.sub nowRay.origin isect.position
  let cosNext := lib.dot (lib.normalized toNextVertex) orientNormal
  let x0xI := lib.sub camSample.posSensor camSample.posLens
  let x0xV := lib.sub camSample.posObjplane camSample.posLens
  let x0x1 := lib.sub isect.position camSample.posLens
  let pdfImage : Double := 1 / (camera.cellW * camera.cellH)
  let totalPdfA :=
    if bounce = 0 then totalPdfA1 * camera.PImageToPAx1 pdfImage x0xV x0x1 orientNormal
    else totalPdfA1 * (st.pdfOmega * cosNext / lib.squaredNorm toNextVertex)
  let throughput0 :=
    if bounce = 0 then st.throughput.scale (camera.contribSensitivity x0xV x0xI x0x1)
    else st.throughput
  let G := cosNext *
    lib.dot (lib.normalized (lib.smul (Double.fin (-1)) toNextVertex)) st.prevNormal /
    lib.squaredNorm toNextVertex
  (totalPdfA, throughput0.scale G)

/-- The part of an iteration of `pathTrace` that runs at a hit on a light: the light
vertex is recorded and the sample for the requested pixel is returned. -/
def pathTraceLight (lib : Lib) (scene : Scene) (camera : DoFCamera) (x y : Int)
    (camSample : CameraSample) (bounce : Nat) (st : TraceState) (isect : Intersection) :
    TraceResult × TraceState :=
  let nowRay := st.ray
  let orientNormal :=
    if (lib.dot isect.normal nowRay.direction).lt 0 then isect.normal
    else lib.neg isect.normal
  let totalPdfA := (pathTraceArrive lib scene camera camSample bounce st isect).1
  let throughput := (pathTraceArrive lib scene camera camSample bounce st isect).2
  let emittance := scene.directLight nowRay.direction
  let result := (throughput * emittance).divide totalPdfA
  let vertex : Vertex := ⟨totalPdfA, throughput, isect.position, isect.objectID,
    emittance, orientNormal, isect.normal, ObjectType.OBJECT_TYPE_LIGHT⟩
  (⟨result, x, y, HitObjectType.HIT_ON_LIGHT⟩,
    { st with totalPdfA := totalPdfA, throughput := throughput,
              vertices := st.vertices ++ [vertex] })

/-- The part of an iteration of `pathTrace` at a hit that is not on a light: the vertex
is recorded and the next ray is sampled according to the type of the BSDF. -/
def pathTraceScatter (lib : Lib) (scene : Scene) (camera : DoFCamera)
    (camSample : CameraSample) (bounce : Nat) (st : TraceState) (isect : Intersection)
    (rands1 rands2 : Double) : TraceState :=
  let nowRay := st.ray
  let bsdf := scene.getBsdf isect.objectID
  let orientNormal :=
    if (lib.dot isect.normal nowRay.direction).lt 0 then isect.normal
    else lib.neg isect.normal
  let toNextVertex := lib.sub nowRay.origin isect.position
  let cosNext := lib.dot (lib.normalized toNextVertex) orientNormal
  let totalPdfA := (pathTraceArrive lib scene camera camSample bounce st isect).1
  let throughput := (pathTraceArrive lib scene camera camSample bounce st isect).2
  let vertex : Vertex := ⟨totalPdfA, throughput, isect.position, isect.objectID,
    Color.black, orientNormal, isect.normal, surfaceType bsdf⟩
  let vertices := st.vertices ++ [vertex]
  match bsdf.type with
  | BsdfType.Lambertian =>
      let nextDir := lib.onHemisphere orientNormal rands1 rands2
      { totalPdfA := totalPdfA,
        throughput := (bsdf.reflectance * throughput).scale lib.INV_PI,
        ray := ⟨isect.position, nextDir⟩,
        pdfOmega := sample_hemisphere_pdf_omega lib orientNormal nextDir,
        prevNormal := orientNormal, rstk := st.rstk, vertices := vertices }
  | BsdfType.Specular =>
      let nextDir := lib.reflect nowRay.direction isect.normal
      { totalPdfA := totalPdfA,
        throughput := (bsdf.reflectance * throughput).divide cosNext,
        ray := ⟨isect.position, nextDir⟩,
        pdfOmega := 1,
        prevNormal := orientNormal, rstk := st.rstk, vertices := vertices }
  | BsdfType.Reflactive =>
      let isIncoming := Double.lt 0 (lib.dot isect.normal orientNormal)
      let tr := lib.checkTotalReflection isIncoming nowRay.direction isect.normal
        orientNormal
      if tr.totalReflection then
        { totalPdfA := totalPdfA,
          throughput := (bsdf.reflectance * throughput).divide cosNext,
          ray := ⟨isect.position, tr.reflectdir⟩,
          pdfOmega := 1,
          prevNormal := orientNormal, rstk := st.rstk, vertices := vertices }
      else
        let probability := Double.fin (1 / 4) + Double.fin (1 / 2) * lib.kReflectProbability
        if rands1.lt probability then
          { totalPdfA := totalPdfA * probability,
            throughput :=
              ((bsdf.reflectance.scale tr.fresnelRe) * throughput).divide cosNext,
            ray := ⟨isect.position, tr.reflectdir⟩,
            pdfOmega := 1,
            prevNormal := orientNormal, rstk := st.rstk, vertices := vertices }
        else
          let ratio :=
            if isIncoming then lib.kIorVaccum / lib.kIorObject
            else lib.kIorObject / lib.kIorVaccum
          let nnt2 := ratio * ratio
          { totalPdfA := totalPdfA * (1 - probability),
            throughput :=
              ((bsdf.reflectance * throughput).scale (nnt2 * tr.fresnelTr)).divide cosNext,
            ray := ⟨isect.position, tr.transdir⟩,
            pdfOmega := 1,
            prevNormal := orientNormal, rstk := st.rstk, vertices := vertices }
  | BsdfType.Other =>
      { totalPdfA := totalPdfA, throughput := throughput, ray := nowRay,
        pdfOmega := st.pdfOmega,
        prevNormal := orientNormal, rstk := st.rstk, vertices := vertices }

/-- One iteration of the loop of `pathTrace`; `x`, `y` is the requested pixel and
`bounce` the loop counter. -/
def pathTraceBounce (lib : Lib) (scene : Scene) (camera : DoFCamera) (x y : Int)
    (camSample : CameraSample) (bounce : Nat) (s0 : TraceState) : BounceOutcome :=
  let (rands0, rstk1) := s0.rstk.pop
  let (rands1, rstk2) := rstk1.pop
  let (rands2, rstk3) := rstk2.pop
  let st : TraceState := { s0 with rstk := rstk3 }
  let (isHitScene, isect) := scene.intersect st.ray
  if !isHitScene then BounceOutcome.stopped st
  else if Double.lt (rouletteProb lib scene isect.objectID) rands0 then BounceOutcome.stopped st
  else if scene.isLightCheck isect.objectID then
    BounceOutcome.returned (pathTraceLight lib scene camera x y camSample bounce st isect).1
      (pathTraceLight lib scene camera x y camSample bounce st isect).2
  else
    BounceOutcome.continued
      (pathTraceScatter lib scene camera camSample bounce st isect rands1 rands2)

/-- The loop of `pathTrace` from counter value `bounce` with `remaining` iterations
left, followed by the final `return` of the function. -/
def pathTraceLoop (lib : Lib) (scene : Scene) (camera : DoFCamera) (x y : Int)
    (camSample : CameraSample) : Nat → Nat → TraceState → TraceResult × TraceState
  | 0, _, st => (⟨Color.black, 0, 0, HitObjectType.HIT_ON_OBJECT⟩, st)
  | remaining + 1, bounce, st =>
      match pathTraceBounce lib scene camera x y camSample bounce st with
      | BounceOutcome.returned result st1 => (result, st1)
      | BounceOutcome.stopped st1 => (⟨Color.black, 0, 0, HitObjectType.HIT_ON_OBJECT⟩, st1)
      | BounceOutcome.continued st1 =>
          pathTraceLoop lib scene camera x y camSample remaining (bounce + 1) st1

/-- The function `pathTrace`. -/
def pathTrace (lib : Lib) (scene : Scene) (camera : DoFCamera) (x y : Int) (rstk : Stack)
    (vertices : List Vertex) (bounceLimit : Nat) : TraceResult × TraceState :=
  let (camSample, rstk1) := camera.sample x y rstk
  let totalPdfA : Double := 1 / camera.lensArea
  let throughput : Color := ⟨1, 1, 1⟩
  let vertex : Vertex := ⟨totalPdfA, throughput, camSample.posLens, -1, Color.black,
    camera.lensNormal, camera.lensNormal, ObjectType.OBJECT_TYPE_LENS⟩
  pathTraceLoop lib scene camera x y camSample bounceLimit 0
    { totalPdfA := totalPdfA, throughput := throughput, ray := camSample.ray,
      pdfOmega := 1, prevNormal := camera.lensNormal, rstk := rstk1,
      vertices := vertices ++ [vertex] }

/-! ## Connecting the two subpaths -/

/-- The struct `Sample`. -/
structure Sample where
  imageX : Int
  imageY : Int
  value : Color
  startFromPixel : Bool

/-- The branch of the connection loop on the type of the eye end point. `none` stands
for `continue`; otherwise the target pixel and the connection throughput so far. -/
def connectEyeSide (lib : Lib) (scene : Scene) (camera : DoFCamera) (x y : Int)
    (eyeEnd : Vertex) (testRay : Ray) : Option (Int × Int × Color) :=
  let isect := (scene.intersect testRay).2
  match eyeEnd.objtype with
  | ObjectType.OBJECT_TYPE_DIFFUSE =>
      let dist := lib.norm (lib.sub isect.position eyeEnd.position)
      if Double.le lib.EPS dist then none
      else
        some (x, y, ((⟨1, 1, 1⟩ : Color) * (scene.getBsdf eyeEnd.objectId).reflectance).scale
          lib.INV_PI)
  | ObjectType.OBJECT_TYPE_LENS =>
      let hit := camera.intersectLens testRay
      if lib.EPS.lt hit.lensT && hit.lensT.lt isect.distance then
        let x0xI := lib.sub hit.positionOnSensor hit.positionOnLens
        let x0xV := lib.sub hit.positionOnObjplane hit.positionOnLens
        let x0x1 := lib.sub testRay.origin hit.positionOnLens
        some (clampPixel (lib.toInt hit.uvOnSensor.x) camera.imageW,
              clampPixel (lib.toInt hit.uvOnSensor.y) camera.imageH,
              (⟨1, 1, 1⟩ : Color).scale (camera.contribSensitivity x0xV x0xI x0x1))
      else none
  | ObjectType.OBJECT_TYPE_LIGHT => none
  | ObjectType.OBJECT_TYPE_SPECULAR => none

/-- The branch of the connection loop on the type of the light end point. `none` stands
for `continue`; otherwise the updated connection throughput. -/
def connectLightSide (lib : Lib) (scene : Scene) (lightEnd : Vertex)
    (connectedThroughput : Color) : Option Color :=
  match lightEnd.objtype with
  | ObjectType.OBJECT_TYPE_DIFFUSE =>
      some ((connectedThroughput * (scene.getBsdf lightEnd.objectId).reflectance).scale
        lib.INV_PI)
  | ObjectType.OBJECT_TYPE_LIGHT => some connectedThroughput
  | ObjectType.OBJECT_TYPE_LENS => none
  | ObjectType.OBJECT_TYPE_SPECULAR => none

/-- The body of the double loop of `executeBPT` for the pair `(eyeVertId, lightVertId)`:
the sample it pushes, or `none` when the iteration ends with `continue`. -/
def connectVertices (lib : Lib) (scene : Scene) (camera : DoFCamera) (x y : Int)
    (eyeVerts lightVerts : List Vertex) (eyeVertId lightVertId : Nat) : Option Sample :=
  let eyeEnd := vertexAt eyeVerts (eyeVertId - 1)
  let lightEnd := vertexAt lightVerts (lightVertId - 1)
  let totalPdfA := eyeEnd.totalPdfA * lightEnd.totalPdfA
  if Double.eq totalPdfA 0 then none
  else
    let eyeThoughput := eyeEnd.throughput
    let lightThrouput :=
      if lightVertId = 1 then (vertexAt lightVerts 0).emission else lightEnd.throughput
    let lendToEend := lib.sub eyeEnd.position lightEnd.position
    let testRay : Ray := ⟨lightEnd.position, lib.normalized lendToEend⟩
    match connectEyeSide lib scene camera x y eyeEnd testRay with
    | none => none
    | some (targetX, targetY, connected1) =>
        match connectLightSide lib scene lightEnd connected1 with
        | none => none
        | some connected2 =>
            let G0 := Double.max 0
              (Double.fin (-1) * lib.dot (lib.normalized lendToEend) eyeEnd.orientNormal)
            let G1 := G0 * Double.max 0 (lib.dot (lib.normalized lendToEend) lightEnd.orientNormal)
            let G := G1 / lib.dot lendToEend lendToEend
            let connectedThroughput := connected2.scale G
            let weightMIS := calcMISWeight lib scene camera totalPdfA eyeVerts lightVerts
              eyeVertId lightVertId
            if weightMIS.isnan then none
            else
              let result :=
                (((connectedThroughput * eyeThoughput) * lightThrouput).scale weightMIS).divide
                  totalPdfA
              some ⟨targetX, targetY, result, decide (1 < eyeVertId)⟩

/-- The double loop of `executeBPT` over `1 <= eyeVertId <= eyeVerts.size()` and
`1 <= lightVertId <= lightVerts.size()`: the connection samples in the order they are
pushed. -/
def connectAll (lib : Lib) (scene : Scene) (camera : DoFCamera) (x y : Int)
    (eyeVerts lightVerts : List Vertex) : List Sample :=
  (List.range' 1 eyeVerts.length).flatMap fun eyeVertId =>
    (List.range' 1 lightVerts.length).filterMap fun lightVertId =>
      connectVertices lib scene camera x y eyeVerts lightVerts eyeVertId lightVertId

/-- The function `executeBPT`: the samples of `BPTResult` in the order they are pushed. -/
def executeBPT (lib : Lib) (scene : Scene) (camera : DoFCamera) (rstk : Stack) (x y : Int)
    (bounceLimit : Nat) : List Sample :=
  let pt := pathTrace lib scene camera x y rstk [] bounceLimit
  let ptResult := pt.1
  let eyeVerts := pt.2.vertices
  let lt := lightTrace lib scene camera pt.2.rstk [] bounceLimit
  let ltResult := lt.1
  let lightVerts := lt.2.vertices
  let eyeHit : List Sample :=
    if ptResult.hitObjType = HitObjectType.HIT_ON_LIGHT then
      let weightMIS := calcMISWeight lib scene camera
        (vertexAt eyeVerts (eyeVerts.length - 1)).totalPdfA eyeVerts lightVerts eyeVerts.length 0
      [⟨x, y, ptResult.value.scale weightMIS, true⟩]
    else []
  let lensHit : List Sample :=
    if ltResult.hitObjType = HitObjectType.HIT_ON_LENS then
      let weightMIS := calcMISWeight lib scene camera
        (vertexAt lightVerts (lightVerts.length - 1)).totalPdfA eyeVerts lightVerts 0
        lightVerts.length
      [⟨ltResult.imageX, ltResult.imageY, ltResult.value.scale weightMIS, false⟩]
    else []
  eyeHit ++ lensHit ++ connectAll lib scene camera x y eyeVerts lightVerts

/-! ## Render loop -/

/-- The function `isInvalidValue`. -/
def isInvalidValue (lib : Lib) (color : Color) : Bool :=
  if color.red.isnan || color.green.isnan || color.blue.isnan then true
  else if color.red.lt 0 || lib.INFTY.lt color.red then true
  else if color.green.lt 0 || lib.INFTY.lt color.green then true
  else if color.blue.lt 0 || lib.INFTY.lt color.blue then true
  else false

/-- The function `isValidValue`. -/
def isValidValue (lib : Lib) (color : Color) : Bool := !isInvalidValue lib color

/-- Modelled from the spec: class `Image` (core/image.h) is not among the translated
files; an image has a width, a height and one colour per pixel `(x, y)` with
`0 <= x < width` and `0 <= y < height`. -/
structure Image where
  width : Int
  height : Int
  data : Int → Int → Color

namespace Image

/-- Modelled from the spec: class `Image` is not among the translated files; the pixel
coordinates that exist in the image. -/
def inRange (img : Image) (x y : Int) : Bool :=
  decide (0 ≤ x) && decide (x < img.width) && decide (0 ≤ y) && decide (y < img.height)

/-- Modelled from the spec: class `Image` is not among the translated files;
`Image(width, height)` is black everywhere. -/
def create (width height : Int) : Image := ⟨width, height, fun _ _ => Color.black⟩

/-- Modelled from the spec: class `Image` is not among the translated files; reading
`img(x, y)` fails outside the image (test `DefaultInstance`). -/
def at? (img : Image) (x y : Int) : Option Color :=
  if img.inRange x y then some (img.data x y) else none

/-- Modelled from the spec: class `Image` is not among the translated files; the update
`img.pixel(x, y) += c`, which fails outside the image. -/
def addAt? (img : Image) (x y : Int) (c : Color) : Option Image :=
  if img.inRange x y then
    some { img with data := fun u v => if u = x ∧ v = y then img.data u v + c else img.data u v }
  else none

/-- Modelled from the spec: class `Image` is not among the translated files;
`img.fill(c)` stores `c` in every pixel. -/
def fill (img : Image) (c : Color) : Image := { img with data := fun _ _ => c }

end Image

/-- The body of the loop over `bptResult.samples` in `BDPTRenderer::render`: one
sample is added to the framebuffer `buffer[threadID]` of the worker; `none` when the
pixel access fails. -/
def accumulateSample (lib : Lib) (width height : Int) (buffer : Image) (s : Sample) :
    Option Image :=
  if isValidValue lib s.value then
    if s.startFromPixel then buffer.addAt? s.imageX s.imageY s.value
    else
      buffer.addAt? s.imageX s.imageY
        (s.value.divide (Double.fin (width : ℚ) * Double.fin (height : ℚ)))
  else some buffer

/-- A C++ `int` result: the value wrapped into 32 bits two's complement. -/
def wrapInt (z : Int) : Int := (z + 2 ^ 31) % 2 ^ 32 - 2 ^ 31

/-- The constant `taskPerThread = (height + kNumThreads - 1) / kNumThreads`. -/
def taskPerThread (height kNumThreads : Nat) : Int :=
  Int.tdiv (wrapInt (wrapInt ((height : Int) + (kNumThreads : Int)) - 1)) (kNumThreads : Int)

/-- The table `tasks` after the loop `tasks[y % kNumThreads].push_back(y)` over
`0 <= y < height`, as a map from the worker to its task list. -/
def distributeTasks (height kNumThreads : Nat) : Nat → List Nat :=
  (List.range height).foldl
    (fun tasks y => Function.update tasks (y % kNumThreads) (tasks (y % kNumThreads) ++ [y]))
    (fun _ => [])

/-- The pairs (worker, row) for which one pass of the rendering loops over
`t < taskPerThread` and `threadID < kNumThreads` runs the pixel loop, in loop order. -/
def passRows (height kNumThreads : Nat) : List (Nat × Nat) :=
  (List.range (taskPerThread height kNumThreads).toNat).flatMap fun t =>
    (List.range kNumThreads).filterMap fun threadID =>
      if t < (distributeTasks height kNumThreads threadID).length then
        some (threadID, (distributeTasks height kNumThreads threadID).getD t 0)
      else none

/-- The merge of pass `s` in `BDPTRenderer::render` before gamma correction: `_result`
is filled with black and then
`_result.pixel(width - x - 1, y) += buffer[k](x, y) / (s + 1)` runs for every worker
`k`, row `y` and column `x`; `none` when a pixel access fails. -/
def mergeBuffers (width height : Nat) (s : Nat) (buffer : List Image) (result : Image) :
    Option Image :=
  buffer.foldlM
    (fun acc bufferK =>
      (List.range height).foldlM
        (fun acc1 y =>
          (List.range width).foldlM
            (fun acc2 x =>
              match bufferK.at? (x : Int) (y : Int) with
              | none => none
              | some c =>
                  acc2.addAt? ((width : Int) - (x : Int) - 1) (y : Int)
                    (c.divide (Double.fin ((s : ℚ) + 1))))
            acc1)
        acc)
    (result.fill Color.black)

/-! ## Discrete BSSRDF -/

/-- The binary search of `std::lower_bound` over `xs[first .. first + len)`: the
remaining range is halved until it is empty. -/
def lowerBoundLoop (xs : List Double) (val : Double) (first len : Nat) : Nat :=
  if 0 < len then
    if (xs.getD (first + len / 2) default).lt val then
      lowerBoundLoop xs val (first + len / 2 + 1) (len - len / 2 - 1)
    else lowerBoundLoop xs val first (len / 2)
  else first
termination_by len
decreasing_by all_goals omega

/-- The call `std::lower_bound(xs.begin(), xs.end(), val) - xs.begin()`. -/
def lowerBound (xs : List Double) (val : Double) : Nat := lowerBoundLoop xs val 0 xs.length

/-- The data members of `DiscreteBSSRDF`. -/
structure DiscreteBSSRDF where
  distances : List Double
  colors : List Color

/-- The evaluation `DiscreteBSSRDF::operator()(d2)`; `none` when an element outside
`_colors` or `_distances` would be read. -/
def DiscreteBSSRDF.eval (b : DiscreteBSSRDF) (d2 : Double) : Option Color :=
  match b.distances.get? (b.distances.length - 1) with
  | none => none
  | some last =>
      if d2.lt 0 || last.lt d2 then some Color.black
      else b.colors.get? (lowerBound b.distances d2)

/-- The channels of a colour. -/
def Color.channels (c : Color) : List Double := [c.red, c.green, c.blue]

/-- A channel value the render loop refuses, in the spec's words: NaN, negative, or
greater than `INFTY`. -/
def invalidChannel (lib : Lib) (ch : Double) : Bool :=
  ch.isnan || ch.lt 0 || lib.INFTY.lt ch

/-- The value the render loop adds to the target pixel of a valid sample. -/
def sampleContribution (width height : Int) (s : Sample) : Color :=
  if s.startFromPixel then s.value
  else s.value.divide (Double.fin (width : ℚ) * Double.fin (height : ℚ))

/-- The merged value in the spec's words: the sum over all workers of their private
framebuffer value at `(x, y)`, divided by `s + 1`. -/
def workerSum (buffer : List Image) (s : Nat) (x y : Int) : Color :=
  (buffer.foldl (fun acc bufferK => acc + bufferK.data x y) Color.black).divide
    (Double.fin ((s : ℚ) + 1))

/-! ## Closed forms used in the proofs about the merge -/

/-- The image after the column loop has run over the first `m` columns of row `y`. -/
def colForm (width : Nat) (d : Double) (bufferK : Image) (y : Nat) (m : Nat) (acc : Image) :
    Image :=
  { acc with data := fun u v =>
      if v = (y : Int) ∧ (width : Int) - (m : Int) ≤ u ∧ u < (width : Int) then
        acc.data u v + (bufferK.data ((width : Int) - 1 - u) v).divide d
      else acc.data u v }

/-- The image after the row loop has merged the first `m` rows of one worker. -/
def rowForm (width : Nat) (d : Double) (bufferK : Image) (m : Nat) (acc : Image) : Image :=
  { acc with data := fun u v =>
      if 0 ≤ v ∧ v < (m : Int) ∧ 0 ≤ u ∧ u < (width : Int) then
        acc.data u v + (bufferK.data ((width : Int) - 1 - u) v).divide d
      else acc.data u v }

/-! ## Concrete inputs for the witnesses -/

/-- Helper routines that return their argument or the constant 1. -/
def unitLib : Lib :=
  { EPS := Double.fin (1 / 1000), INV_PI := 1, INFTY := Double.fin 1000000,
    kReflectProbability := Double.fin (1 / 2), kIorVaccum := 1,
    kIorObject := Double.fin (3 / 2),
    sub := fun _ _ => default, neg := fun v => v, smul := fun _ v => v,
    normalized := fun v => v, dot := fun _ _ => 1, squaredNorm := fun _ => 1,
    norm := fun _ => 1, reflect := fun v _ => v, colorNorm := fun _ => 1,
    max3 := fun a _ _ => a, toInt := fun _ => 0, onHemisphere := fun n _ _ => n,
    checkTotalReflection := fun _ _ _ _ => ⟨false, default, default, 1, 1⟩ }

/-- A scene of light area 1 in which no ray hits anything (hit distance 2). -/
def unitScene : Scene :=
  { lightArea := 1, getBsdf := fun _ => ⟨BsdfType.Lambertian, ⟨1, 1, 1⟩⟩,
    isLightCheck := fun _ => false,
    intersect := fun _ => (false, ⟨Double.fin 2, default, default, 0⟩),
    directLight := fun _ => default,
    sampleLight := fun s => (⟨default, default, default⟩, s) }

/-- A camera with a 2 x 2 image whose lens every ray hits at distance 1. -/
def unitCamera : DoFCamera :=
  { imageW := 2, imageH := 2, lensArea := 1, sensorW := 1, sensorH := 1, cellW := 1, cellH := 1,
    direction := default, lensNormal := default,
    intersectLens := fun _ => ⟨1, default, default, default, default⟩,
    PImageToPAx1 := fun _ _ _ _ => 1, contribSensitivity := fun _ _ _ => 1,
    sample := fun _ _ s => (⟨default, default, default, ⟨default, default⟩⟩, s) }

/-- A vertex of the given type and cumulative density at the origin. -/
def sampleVertex (objtype : ObjectType) (pdf : ℚ) : Vertex :=
  ⟨Double.fin pdf, ⟨1, 1, 1⟩, default, 0, default, default, default, objtype⟩

/-- A 2 x 1 framebuffer that is white at pixel (0, 0) and black at pixel (1, 0). -/
def leftWhiteBuffer : Image :=
  ⟨2, 1, fun u _ => if u = 0 then ⟨1, 1, 1⟩ else Color.black⟩

/-- The profile of the example: distances 1, 2, 3 with the colours red, green, blue. -/
def sampleProfile : DiscreteBSSRDF :=
  ⟨[Double.fin 1, Double.fin 2, Double.fin 3], [⟨1, 0, 0⟩, ⟨0, 1, 0⟩, ⟨0, 0, 1⟩]⟩

/-! ## Subsurface profiles (`bssrdf.cc`) -/

/-- How a call ends: with a value, with a fatal assertion, or with an access through a
null or dangling pointer (undefined behaviour in C++). -/
inductive Outcome (α : Type) where
  | ok (value : α)
  | assertionFailed (message : String)
  | invalidAccess

/-- Sequencing of calls: the first failure ends the computation. -/
def Outcome.bind {α β : Type} (x : Outcome α) (f : α → Outcome β) : Outcome β :=
  match x with
  | Outcome.ok a => f a
  | Outcome.assertionFailed message => Outcome.assertionFailed message
  | Outcome.invalidAccess => Outcome.invalidAccess

/-- The value of a call that returned. -/
def Outcome.value? {α : Type} : Outcome α → Option α
  | Outcome.ok a => some a
  | _ => none

/-- Modelled from the spec: the macro `msg_assert` (core/common.h) is not among the
translated files; a predicate that does not hold is a fatal assertion with the given
message. -/
def msg_assert (predicate : Bool) (message : String) : Outcome Unit :=
  if predicate then Outcome.ok () else Outcome.assertionFailed message

/-- Decimal literals, the comparison `<=`, the functions of `<cmath>` and the constant
`PI` over a number type `α`: doubles for the program, the real numbers for its reading
in real arithmetic. -/
structure Numerics (α : Type) where
  ofRat : ℚ → α
  le : α → α → Bool
  sqrt : α → α
  exp : α → α
  pow : α → α → α
  PI : α

/-- The numerics of doubles over given `<cmath>` functions. -/
def Double.numerics (sqrt exp : Double → Double) (pow : Double → Double → Double)
    (PI : Double) : Numerics Double :=
  ⟨Double.fin, Double.le, sqrt, exp, pow, PI⟩

/-- The numerics of an ordered field over given `sqrt`, `exp`, `pow` and `PI`. -/
def Numerics.ofField {α : Type} [DivisionRing α] [LE α] [DecidableRel (fun a b : α => a ≤ b)]
    (sqrt exp : α → α) (pow : α → α → α) (PI : α) : Numerics α :=
  ⟨fun q => (q : α), fun a b => decide (a ≤ b), sqrt, exp, pow, PI⟩

/-- The function `BSSRDFBase::Fdr` for the member `_eta`. -/
def BSSRDFBase.Fdr {α : Type} [Add α] [Sub α] [Mul α] [Div α] (m : Numerics α) (eta : α) : α :=
  if m.le (m.ofRat 1) eta then
    m.ofRat (-14399 / 10000) / (eta * eta) + m.ofRat (7099 / 10000) / eta
      + m.ofRat (6681 / 10000) + m.ofRat (636 / 10000) * eta
  else
    m.ofRat (-4399 / 10000) + m.ofRat (7099 / 10000) / eta
      - m.ofRat (3319 / 10000) / (eta * eta) + m.ofRat (636 / 10000) / (eta * eta * eta)

/-- The class `Vector3` and the refraction constants that `BSSRDFBase::Ft` uses, all
declared in headers outside the translated files. -/
structure Vector3Lib where
  IOR_OBJECT : Double
  IOR_VACCUM : Double
  dot : Vector3D → Vector3D → Double
  add : Vector3D → Vector3D → Vector3D
  scale : Vector3D → Double → Vector3D
  neg : Vector3D → Vector3D
  normalized : Vector3D → Vector3D

/-- The function `BSSRDFBase::Ft`. -/
def BSSRDFBase.Ft (v : Vector3Lib) (m : Numerics Double) (normal incoming : Vector3D) :
    Double :=
  let nnt := v.IOR_OBJECT / v.IOR_VACCUM
  let ddn := v.dot incoming normal
  let cos2t := 1 - nnt * nnt * (1 - ddn * ddn)
  if cos2t.lt 0 then 0
  else
    let refractDir := v.normalized
      (v.add (v.scale incoming nnt) (v.scale normal (ddn * nnt + m.sqrt cos2t)))
    let a := v.IOR_OBJECT - v.IOR_VACCUM
    let b := v.IOR_OBJECT + v.IOR_VACCUM
    let R0 := (a * a) / (b * b)
    let c := 1 - v.dot refractDir (v.neg normal)
    let Re := R0 + (1 - R0) * m.pow c (Double.fin 5)
    1 - Re

/-- The data members of `DiffusionBSSRDF`, `_eta` of the base class included. -/
structure DiffusionBSSRDF (α : Type) where
  eta : α
  A : α
  sigmap_t : α
  sigma_tr : α
  alphap : α
  zpos : α
  zneg : α

/-- The constructor `DiffusionBSSRDF::DiffusionBSSRDF(sigma_a, sigmap_s, eta)`. -/
def DiffusionBSSRDF.create {α : Type} [Add α] [Sub α] [Mul α] [Div α] (m : Numerics α)
    (sigma_a sigmap_s eta : α) : DiffusionBSSRDF α :=
  let A := (m.ofRat 1 + BSSRDFBase.Fdr m eta) / (m.ofRat 1 - BSSRDFBase.Fdr m eta)
  let sigmap_t := sigma_a + sigmap_s
  let sigma_tr := m.sqrt (m.ofRat 3 * sigma_a * sigmap_t)
  let alphap := sigmap_s / sigmap_t
  let zpos := m.ofRat 1 / sigmap_t
  let zneg := zpos * (m.ofRat 1 + (m.ofRat 4 / m.ofRat 3) * A)
  ⟨eta, A, sigmap_t, sigma_tr, alphap, zpos, zneg⟩

/-- The value `ret` of `DiffusionBSSRDF::operator()(d2)`, which the function returns in
all three colour channels. -/
def DiffusionBSSRDF.Rd {α : Type} [Add α] [Mul α] [Div α] [Neg α] (m : Numerics α)
    (b : DiffusionBSSRDF α) (d2 : α) : α :=
  let dpos := m.sqrt (d2 + b.zpos * b.zpos)
  let dneg := m.sqrt (d2 + b.zneg * b.zneg)
  let posTerm := b.zpos * (dpos * b.sigma_tr + m.ofRat 1) * m.exp (-b.sigma_tr * dpos)
    / (dpos * dpos * dpos)
  let negTerm := b.zneg * (dneg * b.sigma_tr + m.ofRat 1) * m.exp (-b.sigma_tr * dneg)
    / (dneg * dneg * dneg)
  (b.alphap / (m.ofRat 4 * m.PI * b.sigma_tr)) * (posTerm + negTerm)

/-- The function `DiffusionBSSRDF::operator()(d2)`. -/
def DiffusionBSSRDF.eval (m : Numerics Double) (b : DiffusionBSSRDF Double) (d2 : Double) :
    Color :=
  ⟨DiffusionBSSRDF.Rd m b d2, DiffusionBSSRDF.Rd m b d2, DiffusionBSSRDF.Rd m b d2⟩

/-- An object behind a `BSSRDFBase*`: a diffusion profile or a discrete profile with the
`_eta` of its base class. -/
inductive Profile where
  | diffusion (p : DiffusionBSSRDF Double)
  | discrete (eta : Double) (p : DiscreteBSSRDF)

/-- The member `_eta` of the base class. -/
def Profile.eta : Profile → Double
  | Profile.diffusion p => p.eta
  | Profile.discrete eta _ => eta

/-- The constructor `DiscreteBSSRDF::DiscreteBSSRDF(eta, distances, colors)`: the
members are initialised and the lengths of the two arrays are asserted to be equal. -/
def DiscreteBSSRDF.construct (eta : Double) (distances : List Double) (colors : List Color) :
    Outcome Profile :=
  (msg_assert (distances.length == colors.length)
    "Arrays for distances and colors must have the same length!!").bind
    fun _ => Outcome.ok (Profile.discrete eta ⟨distances, colors⟩)

/-- The virtual call `operator()(d2)` on a profile object. -/
def Profile.eval (m : Numerics Double) (p : Profile) (d2 : Double) : Outcome Color :=
  match p with
  | Profile.diffusion b => Outcome.ok (b.eval m d2)
  | Profile.discrete _ b =>
      match b.eval d2 with
      | some c => Outcome.ok c
      | none => Outcome.invalidAccess

/-! ## The reference-counted handle `BSSRDF` -/

/-- The heap as far as the handles use it: the live counters allocated by `new int(0)`,
the live profile objects, the addresses of the profile objects deleted so far (oldest
first) and the addresses the next allocations return. -/
structure Heap where
  counters : Int → Option Int
  profiles : Int → Option Profile
  freed : List Int
  nextCounter : Int
  nextProfile : Int

/-- The data members of a `BSSRDF` handle; `none` is the null pointer. -/
structure BSSRDF where
  numCopies : Option Int
  ptr : Option Int
  deriving DecidableEq

/-- The default constructor `BSSRDF::BSSRDF()`. -/
def BSSRDF.null : BSSRDF := ⟨none, none⟩

/-- The expression `new T(...)` for a profile object: it is stored at a fresh address. -/
def Heap.newProfile (h : Heap) (p : Profile) : Heap × Int :=
  ({ h with profiles := Function.update h.profiles h.nextProfile (some p),
            nextProfile := h.nextProfile + 1 }, h.nextProfile)

/-- The constructor `BSSRDF::BSSRDF(const BSSRDFBase* ptr)`: a new counter with value 0
is allocated. -/
def BSSRDF.fromPtr (h : Heap) (ptr : Option Int) : Heap × BSSRDF :=
  ({ h with counters := Function.update h.counters h.nextCounter (some 0),
            nextCounter := h.nextCounter + 1 }, ⟨some h.nextCounter, ptr⟩)

/-- The statement `delete _ptr`: nothing for the null pointer, otherwise the live object
is destroyed. -/
def Heap.deleteProfile (h : Heap) (ptr : Option Int) : Outcome Heap :=
  match ptr with
  | none => Outcome.ok h
  | some a =>
      match h.profiles a with
      | none => Outcome.invalidAccess
      | some _ =>
          Outcome.ok { h with profiles := Function.update h.profiles a none,
                              freed := h.freed ++ [a] }

/-- The function `BSSRDF::release`: the heap and the handle after the call. In the
branch of a non-zero count the statement `(_numCopies)--` moves the pointer of the handle
one `int` down and leaves the counter as it is. -/
def BSSRDF.release (h : Heap) (b : BSSRDF) : Outcome (Heap × BSSRDF) :=
  match b.numCopies with
  | none => Outcome.ok (h, b)
  | some p =>
      match h.counters p with
      | none => Outcome.invalidAccess
      | some count =>
          if count = 0 then
            (Heap.deleteProfile { h with counters := Function.update h.counters p none } b.ptr).bind
              fun h1 => Outcome.ok (h1, ⟨none, none⟩)
          else Outcome.ok (h, { b with numCopies := some (p - 1) })

/-- The destructor `BSSRDF::~BSSRDF`: the handle is released and ceases to exist. -/
def BSSRDF.destroy (h : Heap) (b : BSSRDF) : Outcome Heap :=
  (b.release h).bind fun r => Outcome.ok r.1

/-- The function `BSSRDF::operator=` for a destination `this` and a source that is
another handle object: the heap and the destination after the call. -/
def BSSRDF.assign (h : Heap) (this source : BSSRDF) : Outcome (Heap × BSSRDF) :=
  (this.release h).bind fun r =>
    match source.numCopies with
    | none => Outcome.ok (r.1, ⟨source.numCopies, source.ptr⟩)
    | some p =>
        match r.1.counters p with
        | none => Outcome.invalidAccess
        | some count =>
            Outcome.ok
              ({ r.1 with counters := Function.update r.1.counters p (some (wrapInt (count + 1))) },
                ⟨source.numCopies, source.ptr⟩)

/-- The copy constructor `BSSRDF::BSSRDF(const BSSRDF&)`: the new handle starts as a null
handle and is assigned from the source. -/
def BSSRDF.copy (h : Heap) (source : BSSRDF) : Outcome (Heap × BSSRDF) :=
  BSSRDF.assign h ⟨none, none⟩ source

/-- The function `BSSRDF::nullCheck`. -/
def BSSRDF.nullCheck (b : BSSRDF) : Outcome Unit :=
  msg_assert (b.numCopies.isSome && b.ptr.isSome) "BSSRDF does not have instance!!"

/-- The access `_ptr->` to the profile object of a handle. -/
def Heap.deref (h : Heap) (ptr : Option Int) : Outcome Profile :=
  match ptr with
  | none => Outcome.invalidAccess
  | some a =>
      match h.profiles a with
      | none => Outcome.invalidAccess
      | some p => Outcome.ok p

/-- The function `BSSRDF::Ft`. -/
def BSSRDF.Ft (v : Vector3Lib) (m : Numerics Double) (h : Heap) (b : BSSRDF)
    (normal incoming : Vector3D) : Outcome Double :=
  b.nullCheck.bind fun _ =>
    (h.deref b.ptr).bind fun _ => Outcome.ok (BSSRDFBase.Ft v m normal incoming)

/-- The function `BSSRDF::Fdr`. -/
def BSSRDF.Fdr (m : Numerics Double) (h : Heap) (b : BSSRDF) : Outcome Double :=
  b.nullCheck.bind fun _ =>
    (h.deref b.ptr).bind fun p => Outcome.ok (BSSRDFBase.Fdr m p.eta)

/-- The function `BSSRDF::operator()(dr)`, which goes to the profile object without a
null check. -/
def BSSRDF.eval (m : Numerics Double) (h : Heap) (b : BSSRDF) (dr : Double) : Outcome Color :=
  (h.deref b.ptr).bind fun p => p.eval m dr

/-- The function `DiscreteBSSRDF::factory`: the profile is constructed on the heap and
wrapped into a handle. The source passes the two arrays only; the index `eta` that the
constructor of this file takes is a parameter here. -/
def DiscreteBSSRDF.factory (h : Heap) (eta : Double) (distances : List Double)
    (colors : List Color) : Outcome (Heap × BSSRDF) :=
  (DiscreteBSSRDF.construct eta distances colors).bind fun p =>
    Outcome.ok (BSSRDF.fromPtr (h.newProfile p).1 (some (h.newProfile p).2))

/-- The function `DiffusionBSSRDF::factory`. -/
def DiffusionBSSRDF.factory (m : Numerics Double) (h : Heap) (sigma_a sigmap_s eta : Double) :
    Heap × BSSRDF :=
  BSSRDF.fromPtr (h.newProfile (Profile.diffusion (DiffusionBSSRDF.create m sigma_a sigmap_s eta))).1
    (some (h.newProfile (Profile.diffusion (DiffusionBSSRDF.create m sigma_a sigmap_s eta))).2)

/-- The empty heap. -/
def Heap.empty : Heap := ⟨fun _ => none, fun _ => none, [], 0, 0⟩

/-- A client of the handle: a handle is created from a raw profile object, copied `n`
times, and the copies are collected, the latest first. -/
def copyTimes (h : Heap) (source : BSSRDF) : Nat → Outcome (Heap × List BSSRDF)
  | 0 => Outcome.ok (h, [])
  | n + 1 =>
      (copyTimes h source n).bind fun r =>
        (BSSRDF.copy r.1 source).bind fun c => Outcome.ok (c.1, c.2 :: r.2)

/-- A client of the handle: the destructors of the given handles run in order. -/
def destroyAll (h : Heap) : List BSSRDF → Outcome Heap
  | [] => Outcome.ok h
  | b :: rest => (BSSRDF.destroy h b).bind fun h1 => destroyAll h1 rest

/-- A client of the handle: a profile object is allocated and wrapped into a handle, the
handle is copied `n` times, and all `n + 1` handles are destroyed, the latest copy
first and the first handle last. -/
def handleLifecycle (p : Profile) (n : Nat) : Outcome Heap :=
  (copyTimes (BSSRDF.fromPtr (Heap.empty.newProfile p).1 (some (Heap.empty.newProfile p).2)).1
      (BSSRDF.fromPtr (Heap.empty.newProfile p).1 (some (Heap.empty.newProfile p).2)).2 n).bind
    fun r => destroyAll r.1
      (r.2 ++ [(BSSRDF.fromPtr (Heap.empty.newProfile p).1 (some (Heap.empty.newProfile p).2)).2])

/-- What is observed of a final heap: the profile objects freed, the counter at address
0 and whether the profile object at address 0 is still alive. -/
def Heap.observe (h : Heap) : List Int × Option Int × Bool :=
  (h.freed, h.counters 0, (h.profiles 0).isSome)

/-- A heap with one profile object at address 0 and the counter of its handle at
address 0, with count 0. -/
def sharedHeap : Heap :=
  (BSSRDF.fromPtr (Heap.empty.newProfile (Profile.discrete 1 sampleProfile)).1 (some 0)).1

/-- The heap `sharedHeap` with a second profile object at address 1 and the counter of
its handle at address 1, with count 0. -/
def twoHeap : Heap :=
  (BSSRDF.fromPtr (sharedHeap.newProfile (Profile.discrete 1 sampleProfile)).1 (some 1)).1

/-- A scene in which every ray hits, at distance 1/2, a non-emitting Lambertian surface
whose reflectance is 0 in all channels. -/
def blackScene : Scene :=
  { lightArea := 1, getBsdf := fun _ => ⟨BsdfType.Lambertian, ⟨0, 0, 0⟩⟩,
    isLightCheck := fun _ => false,
    intersect := fun _ => (true, ⟨Double.fin (1 / 2), default, default, 0⟩),
    directLight := fun _ => default,
    sampleLight := fun s => (⟨default, default, default⟩, s) }

/-- The scene `unitScene` with a refractive BSDF on every surface. -/
def glassScene : Scene :=
  { lightArea := 1, getBsdf := fun _ => ⟨BsdfType.Reflactive, ⟨1, 1, 1⟩⟩,
    isLightCheck := fun _ => false,
    intersect := fun _ => (false, ⟨Double.fin 2, default, default, 0⟩),
    directLight := fun _ => default,
    sampleLight := fun s => (⟨default, default, default⟩, s) }

/-- A tracing state with cumulative density 1, white throughput, no vertices and a
random stack of zeros. -/
def unitState : TraceState :=
  ⟨1, ⟨1, 1, 1⟩, ⟨default, default⟩, 1, default, fun _ => 0, []⟩

/-- A hit at distance 2 on object 0 at the origin. -/
def unitHit : Intersection := ⟨Double.fin 2, default, default, 0⟩

/-- A camera sample with all positions at the origin. -/
def unitCamSample : CameraSample := ⟨default, default, default, ⟨default, default⟩⟩

/-- A chain light, refractive surface, diffuse surface. -/
def glassChain : List Vertex :=
  [sampleVertex ObjectType.OBJECT_TYPE_LIGHT 1, sampleVertex ObjectType.OBJECT_TYPE_SPECULAR 1,
    sampleVertex ObjectType.OBJECT_TYPE_DIFFUSE 1]

/-! ## The refractive branch in the generators and in `calcPdfA` -/

/-- The factor that the refractive branch of `lightTrace` and of `pathTrace` multiplies
into `totalPdfA` when there is no total reflection: `probability` when the reflected
direction is sampled (`rands[1] < probability`), `1.0 - probability` otherwise. -/
def refractiveBranchProbability (lib : Lib) (rands1 : Double) : Double :=
  let probability := Double.fin (1 / 4) + Double.fin (1 / 2) * lib.kReflectProbability
  if rands1.lt probability then probability else 1 - probability

/-- The value that `calcPdfA` gives its local `pdf` at a refractive vertex without total
reflection, `cosOut` being `fromNewOrientNormal.dot(normalizedTo)`: `reflectProb` on the
reflected side, `1.0 - reflectProb` on the transmitted side. -/
def refractiveDirectionPdf (cosOut : Double) : Double :=
  let reflectProb : Double := Double.fin (1 / 2)
  if Double.lt 0 cosOut then reflectProb else 1 - reflectProb

/-! ## The diffuse direction density over a number type -/

/-- The expression `std::max(normal.dot(direction), 0.0) * INV_PI` of
`sample_hemisphere_pdf_omega` over a number type with a maximum, `cosine` being the
value of `normal.dot(direction)`. -/
def hemispherePdf {α : Type} [Mul α] [Zero α] (maximum : α → α → α) (cosine INV_PI : α) : α :=
  maximum cosine 0 * INV_PI

/-- The per-worker framebuffers `std::vector<Image> buffer(kNumThreads, Image(width,
height))` that `BDPTRenderer::render` starts from. -/
def initialBuffers (kNumThreads : Nat) (width height : Int) : List Image :=
  List.replicate kNumThreads (Image.create width height)

/-! ## Shape of the traced subpaths -/

/-- The stack after `n` calls of `pop`. -/
def Stack.drop (s : Stack) (n : Nat) : Stack := fun i => s (i + n)

/-- A vertex recorded at a surface hit that does not end the walk: Diffuse or Specular. -/
def Vertex.isSurface (v : Vertex) : Bool :=
  decide (v.objtype = ObjectType.OBJECT_TYPE_DIFFUSE)
    || decide (v.objtype = ObjectType.OBJECT_TYPE_SPECULAR)

/-- The shape of a walk of at most `n` loop iterations that starts in the state `st` and
ends with the result `r` in the state `st1`: `j <= n` iterations have run, each popping
three random numbers, at most `j` vertices were appended, and either the walk returned
the classification `hit` and its last vertex has the type `terminal`, all earlier new
vertices being surface vertices, or it returned the zero result `HIT_ON_OBJECT` and all
new vertices are surface vertices. -/
def WalkShape (terminal : ObjectType) (hit : HitObjectType) (n : Nat) (st : TraceState)
    (r : TraceResult) (st1 : TraceState) : Prop :=
  ∃ (j : Nat) (new : List Vertex), j ≤ n ∧ new.length ≤ j
    ∧ st1.vertices = st.vertices ++ new ∧ st1.rstk = st.rstk.drop (3 * j)
    ∧ ((r.hitObjType = hit ∧ ∃ (init : List Vertex) (v : Vertex),
          new = init ++ [v] ∧ v.objtype = terminal ∧ ∀ u ∈ init, u.isSurface = true)
      ∨ (r = ⟨Color.black, 0, 0, HitObjectType.HIT_ON_OBJECT⟩
          ∧ ∀ u ∈ new, u.isSurface = true))

/-! ## Bounds-checked array accesses of `calcMISWeight` -/

/-- The write `a[i] = v` into a `std::vector<double>` of `size` elements; `none` when the
index is outside the vector. All index expressions of `calcMISWeight` are sums of loop
counters that are not negative, so the indices are natural numbers. -/
def writeAt (size : Nat) (a : Nat → Double) (i : Nat) (v : Double) : Option (Nat → Double) :=
  if i < size then some (Function.update a i v) else none

/-- The function `calcPdfA` with its accesses to `verts` checked: `verts[fromIdx]` and
`verts[nextIdx]` are read at once, `verts[prevFromIdx]` only after the range test of the
function itself. -/
def calcPdfAChecked (lib : Lib) (scene : Scene) (camera : DoFCamera) (verts : List Vertex)
    (prevFromIdx : Int) (fromIdx nextIdx : Nat) : Option Double :=
  if fromIdx < verts.length ∧ nextIdx < verts.length then
    some (calcPdfA lib scene camera verts prevFromIdx fromIdx nextIdx)
  else none

/-- The two loops of `calcMISWeight` that fill `verts` (of size `nEyeVerts +
nLightVerts`), with the reads of `lightVerts[i]` and `eyeVerts[i]` and the writes of
`verts[i]` and `verts[nLightVerts + nEyeVerts - i - 1]` checked. -/
def misChainChecked (eyeVerts lightVerts : List Vertex) (nEyeVerts nLightVerts : Nat) :
    Option (List Vertex) :=
  if (List.range nLightVerts).all
        (fun i => decide (i < lightVerts.length) && decide (i < nEyeVerts + nLightVerts))
      && (List.range nEyeVerts).all
        (fun i => decide (i < eyeVerts.length)
          && decide (nLightVerts + nEyeVerts - i - 1 < nEyeVerts + nLightVerts)) then
    some (misChain eyeVerts lightVerts nEyeVerts nLightVerts)
  else none

/-- The Russian roulette probability of `calcMISWeight` with the read of `verts[0]`
checked. -/
def misRouletteChecked (lib : Lib) (scene : Scene) (verts : List Vertex) : Option Double :=
  if 0 < verts.length then some (misRoulette lib scene verts) else none

/-- The body `pi1pi[i] = a / b` of the loop over the inner ratios, with the accesses
checked; `pi1pi` has as many elements as `verts`. -/
def misRatioStepChecked (lib : Lib) (scene : Scene) (camera : DoFCamera) (verts : List Vertex)
    (pi1pi : Nat → Double) (i : Nat) : Option (Nat → Double) :=
  (calcPdfAChecked lib scene camera verts ((i : Int) - 2) (i - 1) i).bind fun a =>
    (calcPdfAChecked lib scene camera verts ((i : Int) + 2) (i + 1) i).bind fun b =>
      writeAt verts.length pi1pi i (a / b)

/-- The three assignments to `pi1pi` in `calcMISWeight` with the accesses checked. -/
def misRatiosChecked (lib : Lib) (scene : Scene) (camera : DoFCamera) (verts : List Vertex) :
    Option (Nat → Double) :=
  (misRouletteChecked lib scene verts).bind fun roulette =>
    (calcPdfAChecked lib scene camera verts 2 1 0).bind fun c =>
      (writeAt verts.length (fun _ => 0) 0 ((1 / scene.lightArea) / (c * roulette))).bind
        fun first =>
          ((List.range' 1 (verts.length - 1 - 1)).foldlM
            (misRatioStepChecked lib scene camera verts) first).bind fun inner =>
              writeAt verts.length inner (verts.length - 1) 0

/-- The assignment `p[i + 1] = p[i] * pi1pi[i]` with the accesses checked; `pi1pi` has
`n` elements and `p` has `n + 1`. -/
def misForwardStepChecked (n : Nat) (pi1pi : Nat → Double) (p : Nat → Double) (i : Nat) :
    Option (Nat → Double) :=
  if i + 1 < n + 1 ∧ i < n + 1 ∧ i < n then some (misForwardStep pi1pi p i) else none

/-- The assignment `p[i] = p[i + 1] / pi1pi[i]` with the accesses checked. -/
def misBackwardStepChecked (n : Nat) (pi1pi : Nat → Double) (p : Nat → Double) (i : Nat) :
    Option (Nat → Double) :=
  if i < n + 1 ∧ i + 1 < n + 1 ∧ i < n then some (misBackwardStep pi1pi p i) else none

/-- The body of the Specular loop with the accesses checked: `verts[i]` is read, and
`p[i]` and `p[i + 1]` are written when the vertex is Specular. -/
def misSpecularStepChecked (verts : List Vertex) (p : Nat → Double) (i : Nat) :
    Option (Nat → Double) :=
  if i < verts.length ∧ ((vertexAt verts i).objtype = ObjectType.OBJECT_TYPE_SPECULAR →
      i < verts.length + 1 ∧ i + 1 < verts.length + 1) then
    some (misSpecularStep verts p i)
  else none

/-- The body of the power-heuristic loop with the reads of `p[i]` and `p[nLightVerts]`
checked; `p` has `size` elements. -/
def misPowerStepChecked (p : Nat → Double) (size nLightVerts : Nat) (MIS : Double) (i : Nat) :
    Option Double :=
  if i < size ∧ nLightVerts < size then
    some (MIS + (p i / p nLightVerts) * (p i / p nLightVerts))
  else none

/-- The function `calcMISWeight` with every access to `eyeVerts`, `lightVerts`, `verts`,
`pi1pi` and `p` checked: `none` as soon as an index is outside its array. -/
def calcMISWeightChecked (lib : Lib) (scene : Scene) (camera : DoFCamera) (totalPdfA : Double)
    (eyeVerts lightVerts : List Vertex) (nEyeVerts nLightVerts : Nat) : Option Double :=
  (misChainChecked eyeVerts lightVerts nEyeVerts nLightVerts).bind fun verts =>
    (misRatiosChecked lib scene camera verts).bind fun pi1pi =>
      (writeAt (verts.length + 1) (fun _ => 0) nLightVerts totalPdfA).bind fun p0 =>
        ((List.range' nLightVerts (verts.length - nLightVerts)).foldlM
          (misForwardStepChecked verts.length pi1pi) p0).bind fun p1 =>
          ((List.range nLightVerts).reverse.foldlM
            (misBackwardStepChecked verts.length pi1pi) p1).bind fun p2 =>
            ((List.range verts.length).foldlM (misSpecularStepChecked verts) p2).bind fun p3 =>
              ((List.range (nEyeVerts + nLightVerts + 1)).foldlM
                (misPowerStepChecked p3 (nEyeVerts + nLightVerts + 1) nLightVerts) 0).bind
                fun MIS => some (1 / MIS)

/-! ## The parameter bag `RenderParams` (`renderparams.cc`) -/

/-- The value classes stored in `RenderParams` whose headers are outside the translated
files; `Object` stands for `std::shared_ptr<CObject>`. -/
structure ParamTypes where
  Point2d : Type
  Vector2d : Type
  Bounds2d : Type
  Point3d : Type
  Vector3d : Type
  Bounds3d : Type
  Normal3d : Type
  Spectrum : Type
  Transform : Type
  Object : Type

/-- A `std::unordered_map<std::string, V>`: the value `find(name)` points to, `none`
for `cend()`. -/
def ParamMap (V : Type) : Type := String → Option V

/-- The empty map, also the state after `clear()`. -/
def ParamMap.empty {V : Type} : ParamMap V := fun _ => none

/-- The assignment `map[name] = value`. -/
def ParamMap.insert {V : Type} (m : ParamMap V) (name : String) (value : V) : ParamMap V :=
  fun key => if key = name then some value else m key

/-- Modelled from the spec: the macro `Assertion` (core/common.h) is not among the
translated files; like the other assertions of the program it is fatal when its
predicate does not hold. The getter returns `it->second` after it. -/
def ParamMap.get {V : Type} (m : ParamMap V) (kind name : String) : Outcome V :=
  match m name with
  | some value => Outcome.ok value
  | none => Outcome.assertionFailed (kind ++ " not found: name = " ++ name)

/-- A getter with a default: `it->second` when the name is found, else `value`. -/
def ParamMap.getOr {V : Type} (m : ParamMap V) (name : String) (value : V) : V :=
  match m name with
  | some found => found
  | none => value

/-- The private fields of the class `RenderParams`. -/
structure RenderParams (T : ParamTypes) where
  bools : ParamMap Bool
  ints : ParamMap Int
  doubles : ParamMap Double
  point2ds : ParamMap T.Point2d
  vector2ds : ParamMap T.Vector2d
  bounds2ds : ParamMap T.Bounds2d
  point3ds : ParamMap T.Point3d
  vector3ds : ParamMap T.Vector3d
  bounds3ds : ParamMap T.Bounds3d
  normals : ParamMap T.Normal3d
  spectrums : ParamMap T.Spectrum
  transforms : ParamMap T.Transform
  strings : ParamMap String
  objects : ParamMap T.Object

namespace RenderParams

variable {T : ParamTypes}

/-- The constructor `RenderParams::RenderParams()`: every map is empty. -/
def new : RenderParams T :=
  ⟨ParamMap.empty, ParamMap.empty, ParamMap.empty, ParamMap.empty, ParamMap.empty,
    ParamMap.empty, ParamMap.empty, ParamMap.empty, ParamMap.empty, ParamMap.empty,
    ParamMap.empty, ParamMap.empty, ParamMap.empty, ParamMap.empty⟩

/-- The function `RenderParams::operator=(RenderParams &&params)`: the object `this`
after the assignment. The maps named in the function take the content of the map of
`params`; the other maps of `this` are not assigned. -/
def moveAssign (this params : RenderParams T) : RenderParams T :=
  { this with
    bools := params.bools
    ints := params.ints
    doubles := params.doubles
    point2ds := params.point2ds
    vector2ds := params.vector2ds
    point3ds := params.point3ds
    normals := params.normals
    spectrums := params.spectrums
    strings := params.strings
    objects := params.objects }

/-- The constructor `RenderParams::RenderParams(RenderParams &&params)`. -/
def moveConstruct (params : RenderParams T) : RenderParams T := moveAssign new params

/-- The function `RenderParams::clear`: the maps named in the function are cleared. -/
def clear (this : RenderParams T) : RenderParams T :=
  { this with
    bools := ParamMap.empty
    ints := ParamMap.empty
    doubles := ParamMap.empty
    point2ds := ParamMap.empty
    vector2ds := ParamMap.empty
    point3ds := ParamMap.empty
    vector3ds := ParamMap.empty
    normals := ParamMap.empty
    spectrums := ParamMap.empty
    strings := ParamMap.empty
    objects := ParamMap.empty }

/-- The specialisation `add<bool>`. -/
def addBool (this : RenderParams T) (name : String) (value : Bool) : RenderParams T :=
  { this with bools := this.bools.insert name value }

/-- The specialisation `add<int>`. -/
def addInt (this : RenderParams T) (name : String) (value : Int) : RenderParams T :=
  { this with ints := this.ints.insert name value }

/-- The specialisation `add<double>`. -/
def addDouble (this : RenderParams T) (name : String) (value : Double) : RenderParams T :=
  { this with doubles := this.doubles.insert name value }

/-- The specialisation `add<Point2d>`. -/
def addPoint2d (this : RenderParams T) (name : String) (value : T.Point2d) : RenderParams T :=
  { this with point2ds := this.point2ds.insert name value }

/-- The specialisation `add<Vector2d>`. -/
def addVector2d (this : RenderParams T) (name : String) (value : T.Vector2d) : RenderParams T :=
  { this with vector2ds := this.vector2ds.insert name value }

/-- The specialisation `add<Bounds2d>`. -/
def addBounds2d (this : RenderParams T) (name : String) (value : T.Bounds2d) : RenderParams T :=
  { this with bounds2ds := this.bounds2ds.insert name value }

/-- The specialisation `add<Point3d>`. -/
def addPoint3d (this : RenderParams T) (name : String) (value : T.Point3d) : RenderParams T :=
  { this with point3ds := this.point3ds.insert name value }

/-- The specialisation `add<Vector3d>`. -/
def addVector3d (this : RenderParams T) (name : String) (value : T.Vector3d) : RenderParams T :=
  { this with vector3ds := this.vector3ds.insert name value }

/-- The specialisation `add<Bounds3d>`. -/
def addBounds3d (this : RenderParams T) (name : String) (value : T.Bounds3d) : RenderParams T :=
  { this with bounds3ds := this.bounds3ds.insert name value }

/-- The specialisation `add<Normal3d>`. -/
def addNormal3d (this : RenderParams T) (name : String) (value : T.Normal3d) : RenderParams T :=
  { this with normals := this.normals.insert name value }

/-- The specialisation `add<Spectrum>`. -/
def addSpectrum (this : RenderParams T) (name : String) (value : T.Spectrum) : RenderParams T :=
  { this with spectrums := this.spectrums.insert name value }

/-- The specialisation `add<Transform>`. -/
def addTransform (this : RenderParams T) (name : String) (value : T.Transform) :
    RenderParams T :=
  { this with transforms := this.transforms.insert name value }

/-- The specialisation `add<std::string>`. -/
def addString (this : RenderParams T) (name : String) (value : String) : RenderParams T :=
  { this with strings := this.strings.insert name value }

/-- The specialisation `add<std::shared_ptr<CObject>>`. -/
def addObject (this : RenderParams T) (name : String) (value : T.Object) : RenderParams T :=
  { this with objects := this.objects.insert name value }

/-- The function `getBool(name)`. -/
def getBool (this : RenderParams T) (name : String) : Outcome Bool :=
  this.bools.get "Bool" name

/-- The function `getBool(name, value)`. -/
def getBoolOr (this : RenderParams T) (name : String) (value : Bool) : Bool :=
  this.bools.getOr name value

/-- The function `getInt(name)`. -/
def getInt (this : RenderParams T) (name : String) : Outcome Int :=
  this.ints.get "Int" name

/-- The function `getInt(name, value)`. -/
def getIntOr (this : RenderParams T) (name : String) (value : Int) : Int :=
  this.ints.getOr name value

/-- The function `getDouble(name)`. -/
def getDouble (this : RenderParams T) (name : String) : Outcome Double :=
  this.doubles.get "Double" name

/-- The function `getDouble(name, value)`. -/
def getDoubleOr (this : RenderParams T) (name : String) (value : Double) : Double :=
  this.doubles.getOr name value

/-- The function `getString(name)`. -/
def getString (this : RenderParams T) (name : String) : Outcome String :=
  this.strings.get "String" name

/-- The function `getString(name, value)`. -/
def getStringOr (this : RenderParams T) (name : String) (value : String) : String :=
  this.strings.getOr name value

/-- The function `getPoint2d`. -/
def getPoint2d (this : RenderParams T) (name : String) : Outcome T.Point2d :=
  this.point2ds.get "Point2d" name

/-- The function `getVector2d`. -/
def getVector2d (this : RenderParams T) (name : String) : Outcome T.Vector2d :=
  this.vector2ds.get "Vector2d" name

/-- The function `getBounds2d`. -/
def getBounds2d (this : RenderParams T) (name : String) : Outcome T.Bounds2d :=
  this.bounds2ds.get "Bounds2d" name

/-- The function `getPoint3d`. -/
def getPoint3d (this : RenderParams T) (name : String) : Outcome T.Point3d :=
  this.point3ds.get "Point3d" name

/-- The function `getVector3d`. -/
def getVector3d (this : RenderParams T) (name : String) : Outcome T.Vector3d :=
  this.vector3ds.get "Vector3d" name

/-- The function `getBounds3d`. -/
def getBounds3d (this : RenderParams T) (name : String) : Outcome T.Bounds3d :=
  this.bounds3ds.get "Bounds3d" name

/-- The function `getNormal3d`. -/
def getNormal3d (this : RenderParams T) (name : String) : Outcome T.Normal3d :=
  this.normals.get "Normal" name

/-- The function `getSpectrum`. -/
def getSpectrum (this : RenderParams T) (name : String) : Outcome T.Spectrum :=
  this.spectrums.get "Spectrum" name

/-- The function `getTransform`. -/
def getTransform (this : RenderParams T) (name : String) : Outcome T.Transform :=
  this.transforms.get "Transform" name

/-- The function `getObject`. -/
def getObject (this : RenderParams T) (name : String) : Outcome T.Object :=
  this.objects.get "Object" name

end RenderParams

/-- Value classes that are all natural numbers, for the examples. -/
def natParams : ParamTypes := ⟨Nat, Nat, Nat, Nat, Nat, Nat, Nat, Nat, Nat, Nat⟩

/-! ## Vertex buffers (`utils/vbo.cc`, `viewer/vbo.cc`) -/

/-- The class `Triangle` as the buffer uses it: the corners `tri[0]`, `tri[1]`, `tri[2]`
(`p0()`, `p1()`, `p2()` in the viewer) and the value of `normal()`. -/
structure Triangle where
  p0 : Vector3D
  p1 : Vector3D
  p2 : Vector3D
  normal : Vector3D

/-- The class `Quad` as the buffer uses it: its four corners and the value of
`normal()`. -/
structure Quad where
  p0 : Vector3D
  p1 : Vector3D
  p2 : Vector3D
  p3 : Vector3D
  normal : Vector3D

/-- The class `Sphere`: `center()` and `radius()`. -/
structure Sphere where
  center : Vector3D
  radius : Double

/-- The class `Disk`: `center()`, `normal()` and `radius()`. -/
structure Disk where
  center : Vector3D
  normal : Vector3D
  radius : Double

/-- An element of `Trimesh::getIndices()`: the three vertex indices of a face. -/
structure Triplet where
  i0 : Int
  i1 : Int
  i2 : Int

/-- The element `t[j]` of a triplet. -/
def Triplet.get (t : Triplet) (j : Nat) : Int :=
  if j = 0 then t.i0 else if j = 1 then t.i1 else t.i2

/-- The class `Trimesh` as the buffer uses it; `numVerts` and `numFaces` are counts. -/
structure Trimesh where
  numVerts : Nat
  numFaces : Nat
  getIndices : List Triplet
  getNormal : Nat → Vector3D
  getVertex : Nat → Vector3D
  getColor : Nat → Color
  getTriangle : Nat → Triangle

/-- The vector operations, the functions of `<cmath>`, the constants and the
constructors of `Triangle` and `Quad` that the buffer code uses, all declared outside
the translated files. -/
structure GeomLib where
  PI : Double
  EPS : Double
  sin : Double → Double
  cos : Double → Double
  vadd : Vector3D → Vector3D → Vector3D
  vsub : Vector3D → Vector3D → Vector3D
  cross : Vector3D → Vector3D → Vector3D
  smul : Double → Vector3D → Vector3D
  vscale : Vector3D → Double → Vector3D
  vdiv : Vector3D → Double → Vector3D
  normalized : Vector3D → Vector3D
  triangle : Vector3D → Vector3D → Vector3D → Triangle
  quad : Vector3D → Vector3D → Vector3D → Vector3D → Quad

/-- The function `std::abs` on doubles. -/
def Double.abs (a : Double) : Double := if a.lt 0 then -a else a

/-- The data members of `VBO`; the coordinates are kept as the doubles that are pushed,
the indices are `unsigned int`. -/
structure VBO where
  vertices : List Double
  normals : List Double
  colors : List Double
  indices : List Nat

namespace VBO

/-- The constructor `VBO::VBO()`. -/
def empty : VBO := ⟨[], [], [], []⟩

/-- The function `VBO::add(v, normal, color)`. -/
def addVertex (b : VBO) (v normal : Vector3D) (color : Color) : VBO :=
  { b with
    vertices := b.vertices ++ [v.x, v.y, v.z]
    normals := b.normals ++ [normal.x, normal.y, normal.z]
    colors := b.colors ++ [color.red, color.green, color.blue] }

/-- The expression `static_cast<unsigned int>(_vertices.size()) / 3`. -/
def nextIndex (b : VBO) : Nat := (b.vertices.length % 2 ^ 32) / 3

/-- The statement `_indices.push_back(i)` for an `unsigned int` expression `i`. -/
def pushIndex (b : VBO) (i : Nat) : VBO := { b with indices := b.indices ++ [i % 2 ^ 32] }

/-- The function `VBO::add(const Quad&, const Color&)`. -/
def addQuad (b : VBO) (quad : Quad) (color : Color) : VBO :=
  let idx := b.nextIndex
  let b1 := b.addVertex quad.p0 quad.normal color
  let b2 := b1.addVertex quad.p1 quad.normal color
  let b3 := b2.addVertex quad.p2 quad.normal color
  let b4 := b3.addVertex quad.p3 quad.normal color
  (((((b4.pushIndex idx).pushIndex (idx + 1)).pushIndex (idx + 2)).pushIndex
    (idx + 2)).pushIndex (idx + 3)).pushIndex (idx + 0)

/-- The function `VBO::add(const Triangle&, const Color&)`. -/
def addTriangle (b : VBO) (tri : Triangle) (color : Color) : VBO :=
  let idx := b.nextIndex
  let b1 := b.addVertex tri.p0 tri.normal color
  let b2 := b1.addVertex tri.p1 tri.normal color
  let b3 := b2.addVertex tri.p2 tri.normal color
  ((b3.pushIndex idx).pushIndex (idx + 1)).pushIndex (idx + 2)

/-- The four corners `v00`, `v01`, `v10`, `v11` of the patch `(i, j)` of a sphere with
`nTheta = 32` and `nPhi = 64`. -/
def spherePatch (lib : GeomLib) (sphere : Sphere) (i j : Nat) :
    Vector3D × Vector3D × Vector3D × Vector3D :=
  let theta0 := lib.PI * Double.fin (i : ℚ) / Double.fin 32
  let theta1 := lib.PI * Double.fin ((i : ℚ) + 1) / Double.fin 32
  let phi0 := Double.fin 2 * lib.PI * Double.fin (j : ℚ) / Double.fin 64
  let phi1 := Double.fin 2 * lib.PI * Double.fin ((j : ℚ) + 1) / Double.fin 64
  let st0 := lib.sin theta0
  let st1 := lib.sin theta1
  let ct0 := lib.cos theta0
  let ct1 := lib.cos theta1
  let sp0 := lib.sin phi0
  let sp1 := lib.sin phi1
  let cp0 := lib.cos phi0
  let cp1 := lib.cos phi1
  (lib.vadd sphere.center (lib.smul sphere.radius ⟨cp0 * st0, sp0 * st0, ct0⟩),
   lib.vadd sphere.center (lib.smul sphere.radius ⟨cp0 * st1, sp0 * st1, ct1⟩),
   lib.vadd sphere.center (lib.smul sphere.radius ⟨cp1 * st0, sp1 * st0, ct0⟩),
   lib.vadd sphere.center (lib.smul sphere.radius ⟨cp1 * st1, sp1 * st1, ct1⟩))

/-- The body of the double loop of `VBO::add(const Sphere&, const Color&)` in
`utils/vbo.cc` for the patch `(i, j)`. -/
def addSpherePatch (lib : GeomLib) (sphere : Sphere) (color : Color) (i : Nat) (b : VBO)
    (j : Nat) : VBO :=
  let v00 := (spherePatch lib sphere i j).1
  let v01 := (spherePatch lib sphere i j).2.1
  let v10 := (spherePatch lib sphere i j).2.2.1
  let v11 := (spherePatch lib sphere i j).2.2.2
  let normalAt := fun (v : Vector3D) => lib.normalized (lib.vsub v sphere.center)
  let idx := b.nextIndex
  if i = 0 then
    ((((b.addVertex v00 (normalAt v00) color).addVertex v01 (normalAt v01) color).addVertex
      v11 (normalAt v11) color).pushIndex idx |>.pushIndex (idx + 1)).pushIndex (idx + 2)
  else if i = 32 - 1 then
    ((((b.addVertex v00 (normalAt v00) color).addVertex v11 (normalAt v11) color).addVertex
      v10 (normalAt v10) color).pushIndex idx |>.pushIndex (idx + 1)).pushIndex (idx + 2)
  else
    ((((((((b.addVertex v00 (normalAt v00) color).addVertex v01 (normalAt v01) color).addVertex
      v11 (normalAt v11) color).addVertex v10 (normalAt v10) color).pushIndex
      (idx + 0)).pushIndex (idx + 1)).pushIndex (idx + 2)).pushIndex (idx + 0) |>.pushIndex
      (idx + 2)).pushIndex (idx + 3)

/-- The function `VBO::add(const Sphere&, const Color&)` of `utils/vbo.cc`. -/
def addSphere (lib : GeomLib) (b : VBO) (sphere : Sphere) (color : Color) : VBO :=
  (List.range 32).foldl
    (fun b1 i => (List.range 64).foldl (addSpherePatch lib sphere color i) b1) b

/-- The body of the double loop of `VBO::add(const Sphere&, const Color&)` in
`viewer/vbo.cc`, which goes through `Triangle` and `Quad`. -/
def addSpherePatchViewer (lib : GeomLib) (sphere : Sphere) (color : Color) (i : Nat) (b : VBO)
    (j : Nat) : VBO :=
  let v00 := (spherePatch lib sphere i j).1
  let v01 := (spherePatch lib sphere i j).2.1
  let v10 := (spherePatch lib sphere i j).2.2.1
  let v11 := (spherePatch lib sphere i j).2.2.2
  if i = 0 then b.addTriangle (lib.triangle v00 v01 v11) color
  else if i = 32 - 1 then b.addTriangle (lib.triangle v00 v10 v01) color
  else b.addQuad (lib.quad v00 v01 v11 v10) color

/-- The function `VBO::add(const Sphere&, const Color&)` of `viewer/vbo.cc`. -/
def addSphereViewer (lib : GeomLib) (b : VBO) (sphere : Sphere) (color : Color) : VBO :=
  (List.range 32).foldl
    (fun b1 i => (List.range 64).foldl (addSpherePatchViewer lib sphere color i) b1) b

/-- The function `VBO::add(const Trimesh&, const Color&)`. -/
def addTrimeshColor (b : VBO) (trimesh : Trimesh) (color : Color) : VBO :=
  (List.range trimesh.numFaces).foldl (fun b1 i => b1.addTriangle (trimesh.getTriangle i) color) b

/-- The body of the loop of `VBO::add(const Disk&, const Color&)` for the sector `i`,
`u` and `v` spanning the plane of the disk. -/
def addDiskSector (lib : GeomLib) (disk : Disk) (color : Color) (u v : Vector3D) (b : VBO)
    (i : Nat) : VBO :=
  let t1 := Double.fin 2 * lib.PI * Double.fin (i : ℚ) / Double.fin 64
  let t2 := Double.fin 2 * lib.PI * Double.fin ((i : ℚ) + 1) / Double.fin 64
  let v1 := lib.vadd disk.center
    (lib.smul disk.radius (lib.vadd (lib.vscale u (lib.cos t1)) (lib.vscale v (lib.sin t1))))
  let v2 := lib.vadd disk.center
    (lib.smul disk.radius (lib.vadd (lib.vscale u (lib.cos t2)) (lib.vscale v (lib.sin t2))))
  b.addTriangle (lib.triangle disk.center v1 v2) color

/-- The function `VBO::add(const Disk&, const Color&)`. -/
def addDisk (lib : GeomLib) (b : VBO) (disk : Disk) (color : Color) : VBO :=
  let w := disk.normal
  let u :=
    if Double.lt lib.EPS (Double.abs w.x) then lib.normalized (lib.cross ⟨0, 1, 0⟩ w)
    else lib.normalized (lib.cross ⟨1, 0, 0⟩ w)
  let v := lib.cross w u
  (List.range 64).foldl (addDiskSector lib disk color u v) b

end VBO

/-- A call of one of the `add` functions with a colour. -/
inductive VboCall where
  | triangle (tri : Triangle) (color : Color)
  | quad (quad : Quad) (color : Color)
  | sphere (sphere : Sphere) (color : Color)
  | sphereViewer (sphere : Sphere) (color : Color)
  | disk (disk : Disk) (color : Color)
  | trimesh (trimesh : Trimesh) (color : Color)

/-- The effect of one call on the buffer. -/
def VBO.call (lib : GeomLib) (b : VBO) : VboCall → VBO
  | VboCall.triangle tri color => b.addTriangle tri color
  | VboCall.quad quad color => b.addQuad quad color
  | VboCall.sphere sphere color => VBO.addSphere lib b sphere color
  | VboCall.sphereViewer sphere color => VBO.addSphereViewer lib b sphere color
  | VboCall.disk disk color => VBO.addDisk lib b disk color
  | VboCall.trimesh trimesh color => b.addTrimeshColor trimesh color

/-- The buffer after a sequence of calls on an empty `VBO`. -/
def VBO.run (lib : GeomLib) (calls : List VboCall) : VBO :=
  calls.foldl (VBO.call lib) VBO.empty

/-- The invariant of the buffer without the condition on the number of indices: the
three coordinate arrays have the same length, a multiple of 3, and every index is
smaller than the number of vertices. -/
def VBO.Bounded (b : VBO) : Prop :=
  b.normals.length = b.vertices.length ∧ b.colors.length = b.vertices.length
    ∧ 3 ∣ b.vertices.length ∧ ∀ i ∈ b.indices, i < b.vertices.length / 3

/-- The invariant of the buffer. -/
def VBO.Valid (b : VBO) : Prop := b.Bounded ∧ 3 ∣ b.indices.length

/-! ## The mesh with per-vertex normals (`VBO::add(const Trimesh&)`) -/

/-- The statement `_indices.resize(n)`: the buffer is cut or filled with zeros. -/
def resizeIndices (l : List Nat) (n : Nat) : List Nat :=
  if n ≤ l.length then l.take n else l ++ List.replicate (n - l.length) 0

/-- The assignment `_indices[pos] = value`; `none` when `pos` is outside the buffer. -/
def writeIndex (l : List Nat) (pos value : Nat) : Option (List Nat) :=
  if pos < l.length then some (l.set pos value) else none

/-- The local arrays `normals` and `belongCount` of `VBO::add(const Trimesh&)`, both of
`numVerts` elements. -/
structure NormalSums where
  normals : Nat → Vector3D
  belongCount : Nat → Int

/-- The statements `vid = indices[i][j]; normals[vid] += normal; belongCount[vid]++`
with the accesses checked. -/
def accumulateNormal (lib : GeomLib) (trimesh : Trimesh) (i : Nat) (sums : NormalSums)
    (j : Nat) : Option NormalSums :=
  match trimesh.getIndices[i]? with
  | none => none
  | some t =>
      if 0 ≤ t.get j ∧ t.get j < (trimesh.numVerts : Int) then
        some ⟨Function.update sums.normals (t.get j).toNat
            (lib.vadd (sums.normals (t.get j).toNat) (trimesh.getNormal i)),
          Function.update sums.belongCount (t.get j).toNat
            (wrapInt (sums.belongCount (t.get j).toNat + 1))⟩
      else none

/-- The assignment `_indices[(i + prevSize) * 3 + j] = indices[i][j]` with the accesses
checked; the position is computed in `size_t`. -/
def writeFaceIndex (trimesh : Trimesh) (prevSize : Int) (i : Nat) (buffer : List Nat)
    (j : Nat) : Option (List Nat) :=
  match trimesh.getIndices[i]? with
  | none => none
  | some t =>
      writeIndex buffer ((((i : Int) + prevSize) * 3 + (j : Int)) % 2 ^ 64).toNat
        ((t.get j) % 2 ^ 32).toNat

/-- The first loop of `VBO::add(const Trimesh&)`: the face normals are summed per vertex
and the faces of each vertex are counted. -/
def VBO.meshNormals (lib : GeomLib) (trimesh : Trimesh) : Option NormalSums :=
  (List.range trimesh.numFaces).foldlM
    (fun sums i => (List.range 3).foldlM (accumulateNormal lib trimesh i) sums)
    (⟨fun _ => ⟨0, 0, 0⟩, fun _ => 0⟩ : NormalSums)

/-- The second loop of `VBO::add(const Trimesh&)`: every vertex is added with the
normal `normals[i] / belongCount[i]` and its own colour. -/
def VBO.addMeshVertices (lib : GeomLib) (b : VBO) (trimesh : Trimesh) (sums : NormalSums) :
    VBO :=
  (List.range trimesh.numVerts).foldl
    (fun b1 i => b1.addVertex (trimesh.getVertex i)
      (lib.vdiv (sums.normals i) (Double.fin (sums.belongCount i : ℚ))) (trimesh.getColor i))
    b

/-- The end of `VBO::add(const Trimesh&)`: `prevSize` is the number of indices as an
`int`, the index buffer is resized to `prevSize + indices.size()` and the face indices
are written. -/
def VBO.writeMeshIndices (b : VBO) (trimesh : Trimesh) : Option VBO :=
  ((List.range trimesh.getIndices.length).foldlM
      (fun buffer i =>
        (List.range 3).foldlM (writeFaceIndex trimesh (wrapInt b.indices.length) i) buffer)
      (resizeIndices b.indices
        ((wrapInt b.indices.length + (trimesh.getIndices.length : Int)) % 2 ^ 64).toNat)).map
    fun buffer => { b with indices := buffer }

/-- The function `VBO::add(const Trimesh&)`; `none` when an access is outside its
array. -/
def VBO.addTrimesh (lib : GeomLib) (b : VBO) (trimesh : Trimesh) : Option VBO :=
  (VBO.meshNormals lib trimesh).bind fun sums =>
    (VBO.addMeshVertices lib b trimesh sums).writeMeshIndices trimesh

/-- Vector operations that return their first argument or the origin. -/
def unitGeomLib : GeomLib :=
  { PI := Double.fin 3, EPS := Double.fin (1 / 1000), sin := fun a => a, cos := fun a => a,
    vadd := fun a _ => a, vsub := fun a _ => a, cross := fun a _ => a, smul := fun _ a => a,
    vscale := fun a _ => a, vdiv := fun a _ => a, normalized := fun a => a,
    triangle := fun a b c => ⟨a, b, c, a⟩, quad := fun a b c d => ⟨a, b, c, d, a⟩ }

/-- A mesh of one face over three vertices at the origin. -/
def oneFaceMesh : Trimesh :=
  { numVerts := 3, numFaces := 1, getIndices := [⟨0, 1, 2⟩], getNormal := fun _ => default,
    getVertex := fun _ => default, getColor := fun _ => default,
    getTriangle := fun _ => ⟨default, default, default, default⟩ }

/-! ## Arithmetic of doubles -/

namespace Double

theorem zero_def : (0 : Double) = fin 0 := rfl

theorem one_def : (1 : Double) = fin 1 := rfl

@[simp]
theorem fin_add_fin (a b : ℚ) : fin a + fin b = fin (a + b) := rfl

@[simp]
theorem fin_mul_fin (a b : ℚ) : fin a * fin b = fin (a * b) := rfl

theorem fin_div_fin (a : ℚ) {b : ℚ} (hb : b ≠ 0) : fin a / fin b = fin (a / b) := by
  show div (fin a) (fin b) = fin (a / b)
  simp [div, hb]

@[simp]
theorem fin_mul_zero (a : ℚ) : fin a * 0 = 0 := by
  show mul (fin a) (fin 0) = fin 0
  simp [mul]

theorem zero_div_fin {b : ℚ} (hb : b ≠ 0) : (0 : Double) / fin b = 0 := by
  show div (fin 0) (fin b) = fin 0
  simp [div, hb]

/-- Squaring a quotient by a non-zero finite value. -/
theorem div_mul_div_self (x : Double) {c : ℚ} (hc : c ≠ 0) :
    (x / fin c) * (x / fin c) = (x * x) / fin (c * c) := by
  have hcc : c * c ≠ 0 := mul_ne_zero hc hc
  have hpos : 0 ≤ c * c := mul_self_nonneg c
  cases x with
  | fin a =>
      rw [fin_div_fin a hc, fin_mul_fin, fin_mul_fin, fin_div_fin _ hcc]
      congr 1
      field_simp
  | pinf =>
      show mul (div pinf (fin c)) (div pinf (fin c)) = div (mul pinf pinf) (fin (c * c))
      by_cases h : 0 ≤ c <;> simp [div, mul, h, hpos]
  | ninf =>
      show mul (div ninf (fin c)) (div ninf (fin c)) = div (mul ninf ninf) (fin (c * c))
      by_cases h : 0 ≤ c <;> simp [div, mul, h, hpos]
  | nan => rfl

/-- Division by a positive finite value distributes over addition. -/
theorem add_div_fin (a b : Double) {d : ℚ} (hd : 0 < d) :
    (a + b) / fin d = a / fin d + b / fin d := by
  have hd0 : d ≠ 0 := ne_of_gt hd
  have hle : 0 ≤ d := le_of_lt hd
  show div (add a b) (fin d) = add (div a (fin d)) (div b (fin d))
  cases a <;> cases b <;> simp [add, div, hd0, hle, add_div]

/-- Reciprocal of a quotient by a positive finite value. -/
theorem one_div_div_fin (S : Double) {d : ℚ} (hd : 0 < d) :
    (1 : Double) / (S / fin d) = fin d / S := by
  have hd0 : d ≠ 0 := ne_of_gt hd
  have hle : 0 ≤ d := le_of_lt hd
  show div (fin 1) (div S (fin d)) = div (fin d) S
  cases S with
  | fin s =>
      by_cases hs : s = 0
      · simp [div, hd0, hs, hd]
      · have : s / d ≠ 0 := div_ne_zero hs hd0
        simp [div, hd0, hs, this]
  | pinf => simp [div, hle]
  | ninf => simp [div, hle]
  | nan => rfl

end Double


/-! ## The strategy densities of `calcMISWeight` -/

theorem misSpecularStep_zero (verts : List Vertex) (p : Nat → Double) (i j : Nat)
    (h : p j = 0) : misSpecularStep verts p i j = 0 := by
  unfold misSpecularStep
  split
  · by_cases h1 : j = i + 1
    · subst h1; simp
    · by_cases h2 : j = i
      · subst h2; simp [Function.update_noteq h1]
      · simp [Function.update_noteq h1, Function.update_noteq h2, h]
  · exact h

theorem foldl_misSpecularStep_zero (verts : List Vertex) (l : List Nat) :
    ∀ (p : Nat → Double) (j : Nat), p j = 0 → l.foldl (misSpecularStep verts) p j = 0 := by
  induction l with
  | nil => intro p j h; exact h
  | cons a t ih =>
      intro p j h
      exact ih _ j (misSpecularStep_zero verts p a j h)

theorem misSpecularStep_at (verts : List Vertex) (p : Nat → Double) (i : Nat)
    (hs : (vertexAt verts i).objtype = ObjectType.OBJECT_TYPE_SPECULAR) :
    misSpecularStep verts p i i = 0 ∧ misSpecularStep verts p i (i + 1) = 0 := by
  unfold misSpecularStep
  rw [if_pos hs]
  constructor
  · rw [Function.update_noteq (Nat.ne_of_lt (Nat.lt_succ_self i))]
    simp
  · simp

theorem foldl_misSpecularStep_mem (verts : List Vertex) (i : Nat)
    (hs : (vertexAt verts i).objtype = ObjectType.OBJECT_TYPE_SPECULAR) (l : List Nat) :
    ∀ (p : Nat → Double), i ∈ l →
      l.foldl (misSpecularStep verts) p i = 0 ∧ l.foldl (misSpecularStep verts) p (i + 1) = 0 := by
  induction l with
  | nil => intro p h; simp at h
  | cons a t ih =>
      intro p h
      by_cases ha : a = i
      · subst ha
        have h2 := misSpecularStep_at verts p a hs
        exact ⟨foldl_misSpecularStep_zero verts t _ _ h2.1,
          foldl_misSpecularStep_zero verts t _ _ h2.2⟩
      · have hmem : i ∈ t := by
          rcases List.mem_cons.mp h with h1 | h1
          · exact absurd h1.symm ha
          · exact h1
        exact ih _ hmem

theorem foldl_misSpecularStep_none (verts : List Vertex) (l : List Nat)
    (hn : ∀ i ∈ l, (vertexAt verts i).objtype ≠ ObjectType.OBJECT_TYPE_SPECULAR) :
    ∀ (p : Nat → Double), l.foldl (misSpecularStep verts) p = p := by
  induction l with
  | nil => intro p; rfl
  | cons a t ih =>
      intro p
      have ha : misSpecularStep verts p a = p := by
        unfold misSpecularStep
        rw [if_neg (hn a (List.mem_cons_self a t))]
      rw [List.foldl_cons, ha]
      exact ih (fun i hi => hn i (List.mem_cons_of_mem a hi)) p

theorem misForwardStep_same (pi1pi p : Nat → Double) (i : Nat) :
    misForwardStep pi1pi p i (i + 1) = p i * pi1pi i := by
  unfold misForwardStep
  rw [Function.update_same]

theorem misForwardStep_ne (pi1pi p : Nat → Double) (i j : Nat) (h : j ≠ i + 1) :
    misForwardStep pi1pi p i j = p j := by
  unfold misForwardStep
  rw [Function.update_noteq h]

theorem foldl_misForwardStep (pi1pi Q : Nat → Double) (s : Nat) :
    ∀ (c : Nat) (p : Nat → Double), p s = Q s →
      (∀ i, s ≤ i → i < s + c → Q (i + 1) = Q i * pi1pi i) →
      (∀ j, s ≤ j → j ≤ s + c → (List.range' s c).foldl (misForwardStep pi1pi) p j = Q j) ∧
      (∀ j, (j < s ∨ s + c < j) → (List.range' s c).foldl (misForwardStep pi1pi) p j = p j) := by
  intro c
  induction c with
  | zero =>
      intro p hp _
      refine ⟨fun j h1 h2 => ?_, fun j _ => rfl⟩
      have : j = s := by omega
      subst this
      simpa using hp
  | succ c ih =>
      intro p hp hQ
      have ih1 := ih p hp (fun i h1 h2 => hQ i h1 (by omega))
      rw [List.range'_1_concat, List.foldl_append]
      simp only [List.foldl_cons, List.foldl_nil]
      constructor
      · intro j h1 h2
        by_cases hj : j = s + c + 1
        · subst hj
          rw [misForwardStep_same, ih1.1 (s + c) (by omega) (by omega)]
          exact (hQ (s + c) (by omega) (by omega)).symm
        · rw [misForwardStep_ne _ _ _ _ hj]
          exact ih1.1 j h1 (by omega)
      · intro j hj
        rw [misForwardStep_ne _ _ _ _ (by omega)]
        exact ih1.2 j (by omega)

theorem foldl_misBackwardStep (pi1pi Q : Nat → Double) :
    ∀ (m : Nat) (p : Nat → Double), p m = Q m →
      (∀ i, i < m → Q i = Q (i + 1) / pi1pi i) →
      (∀ j, j ≤ m → (List.range m).reverse.foldl (misBackwardStep pi1pi) p j = Q j) ∧
      (∀ j, m < j → (List.range m).reverse.foldl (misBackwardStep pi1pi) p j = p j) := by
  intro m
  induction m with
  | zero =>
      intro p hp _
      refine ⟨fun j h1 => ?_, fun j _ => rfl⟩
      have : j = 0 := by omega
      subst this
      simpa using hp
  | succ m ih =>
      intro p hp hQ
      rw [List.range_succ, List.reverse_append]
      simp only [List.reverse_cons, List.reverse_nil, List.nil_append, List.singleton_append,
        List.foldl_cons]
      have hstep : misBackwardStep pi1pi p m m = Q m := by
        unfold misBackwardStep
        rw [Function.update_same, hp]
        exact (hQ m (Nat.lt_succ_self m)).symm
      have ih1 := ih (misBackwardStep pi1pi p m) hstep (fun i hi => hQ i (by omega))
      have hkeep : ∀ j, m < j → misBackwardStep pi1pi p m j = p j := by
        intro j hj
        unfold misBackwardStep
        rw [Function.update_noteq (by omega)]
      constructor
      · intro j hj
        by_cases hjm : j ≤ m
        · exact ih1.1 j hjm
        · have : j = m + 1 := by omega
          subst this
          rw [ih1.2 (m + 1) (by omega), hkeep (m + 1) (by omega)]
          exact hp
      · intro j hj
        rw [ih1.2 j (by omega), hkeep j (by omega)]

theorem foldl_powerSum (p : Nat → Double) {c : ℚ} (hc : c ≠ 0) (l : List Nat) :
    ∀ acc : Double,
      l.foldl (fun MIS i => MIS + (p i / Double.fin c) * (p i / Double.fin c))
          (acc / Double.fin (c * c)) =
        (l.foldl (fun acc i => acc + p i * p i) acc) / Double.fin (c * c) := by
  have hd : 0 < c * c := mul_self_pos.mpr hc
  induction l with
  | nil => intro acc; rfl
  | cons a t ih =>
      intro acc
      simp only [List.foldl_cons]
      rw [Double.div_mul_div_self _ hc, ← Double.add_div_fin _ _ hd]
      exact ih _

/-- The weight `1 / MIS` is the power heuristic whenever the density of the strategy
used is finite and non-zero. -/
theorem one_div_misPowerSum (p : Nat → Double) (size nLightVerts : Nat) {c : ℚ}
    (hp : p nLightVerts = Double.fin c) (hc : c ≠ 0) :
    1 / misPowerSum p size nLightVerts = powerHeuristic p size nLightVerts := by
  have hd : 0 < c * c := mul_self_pos.mpr hc
  unfold misPowerSum powerHeuristic
  rw [hp]
  have h0 : (0 : Double) = (0 : Double) / Double.fin (c * c) :=
    (Double.zero_div_fin (ne_of_gt hd)).symm
  conv_lhs => rw [h0]
  rw [foldl_powerSum p hc, Double.one_div_div_fin _ hd, Double.fin_mul_fin]


/-! ### The power heuristic at an infinite or undefined density -/

theorem Double.add_nan (a : Double) : a + Double.nan = Double.nan := by
  show Double.add a Double.nan = Double.nan
  cases a <;> rfl

theorem Double.nan_add (a : Double) : Double.nan + a = Double.nan := rfl

theorem Double.mul_self_ne_ninf (x : Double) : x * x ≠ Double.ninf := by
  show Double.mul x x ≠ Double.ninf
  cases x <;> simp [Double.mul]

theorem Double.add_ne_ninf {a b : Double} (ha : a ≠ Double.ninf) (hb : b ≠ Double.ninf) :
    a + b ≠ Double.ninf := by
  revert ha hb
  show a ≠ Double.ninf → b ≠ Double.ninf → Double.add a b ≠ Double.ninf
  cases a <;> cases b <;> simp [Double.add]

theorem Double.add_pinf_or_nan {a b : Double} (ha : a ≠ Double.ninf)
    (hb : b = Double.pinf ∨ b = Double.nan) :
    a + b = Double.pinf ∨ a + b = Double.nan := by
  revert ha
  show a ≠ Double.ninf → Double.add a b = Double.pinf ∨ Double.add a b = Double.nan
  rcases hb with hb | hb <;> subst hb <;> cases a <;> simp [Double.add]

theorem Double.pinf_or_nan_add {a b : Double} (ha : a = Double.pinf ∨ a = Double.nan)
    (hb : b ≠ Double.ninf) :
    a + b = Double.pinf ∨ a + b = Double.nan := by
  revert hb
  show b ≠ Double.ninf → Double.add a b = Double.pinf ∨ Double.add a b = Double.nan
  rcases ha with ha | ha <;> subst ha <;> cases b <;> simp [Double.add]

theorem foldl_add_from_nan (f : Nat → Double) (l : List Nat) :
    l.foldl (fun acc i => acc + f i) Double.nan = Double.nan := by
  induction l with
  | nil => rfl
  | cons a t ih => simpa [List.foldl_cons, Double.nan_add] using ih

theorem foldl_add_nan_term (f : Nat → Double) (s : Nat) (hs : f s = Double.nan) (l : List Nat) :
    ∀ acc : Double, s ∈ l → l.foldl (fun acc i => acc + f i) acc = Double.nan := by
  induction l with
  | nil => intro acc h; simp at h
  | cons a t ih =>
      intro acc h
      rw [List.foldl_cons]
      by_cases ha : a = s
      · subst ha
        rw [hs, Double.add_nan]
        exact foldl_add_from_nan f t
      · rcases List.mem_cons.mp h with h1 | h1
        · exact absurd h1.symm ha
        · exact ih _ h1

theorem foldl_squares_top (p : Nat → Double) (l : List Nat) :
    ∀ acc : Double, (acc = Double.pinf ∨ acc = Double.nan) →
      (l.foldl (fun acc i => acc + p i * p i) acc = Double.pinf ∨
        l.foldl (fun acc i => acc + p i * p i) acc = Double.nan) := by
  induction l with
  | nil => intro acc h; exact h
  | cons a t ih =>
      intro acc h
      rw [List.foldl_cons]
      exact ih _ (Double.pinf_or_nan_add h (Double.mul_self_ne_ninf _))

theorem foldl_squares_top_term (p : Nat → Double) (s : Nat)
    (hs : p s * p s = Double.pinf ∨ p s * p s = Double.nan) (l : List Nat) :
    ∀ acc : Double, acc ≠ Double.ninf → s ∈ l →
      (l.foldl (fun acc i => acc + p i * p i) acc = Double.pinf ∨
        l.foldl (fun acc i => acc + p i * p i) acc = Double.nan) := by
  induction l with
  | nil => intro acc _ h; simp at h
  | cons a t ih =>
      intro acc hacc h
      rw [List.foldl_cons]
      by_cases ha : a = s
      · subst ha
        exact foldl_squares_top p t _ (Double.add_pinf_or_nan hacc hs)
      · rcases List.mem_cons.mp h with h1 | h1
        · exact absurd h1.symm ha
        · exact ih _ (Double.add_ne_ninf hacc (Double.mul_self_ne_ninf _)) h1

/-- At an infinite or NaN density of the strategy used both the weight `1 / MIS` and the
power heuristic are NaN. -/
theorem one_div_misPowerSum_not_finite (p : Nat → Double) (size nLightVerts : Nat)
    (hlt : nLightVerts < size) (hp : (p nLightVerts).isFinite = false) :
    1 / misPowerSum p size nLightVerts = powerHeuristic p size nLightVerts := by
  have hmem : nLightVerts ∈ List.range size := List.mem_range.mpr hlt
  have hterm : (p nLightVerts / p nLightVerts) * (p nLightVerts / p nLightVerts) = Double.nan := by
    show Double.mul (Double.div (p nLightVerts) (p nLightVerts))
      (Double.div (p nLightVerts) (p nLightVerts)) = Double.nan
    cases h : p nLightVerts <;> simp [h, Double.isFinite] at hp <;> rfl
  have hsq : p nLightVerts * p nLightVerts = Double.pinf ∨
      p nLightVerts * p nLightVerts = Double.nan := by
    show Double.mul (p nLightVerts) (p nLightVerts) = Double.pinf ∨
      Double.mul (p nLightVerts) (p nLightVerts) = Double.nan
    cases h : p nLightVerts <;> simp [h, Double.isFinite] at hp <;> simp [Double.mul]
  have hL : misPowerSum p size nLightVerts = Double.nan :=
    foldl_add_nan_term (fun i => (p i / p nLightVerts) * (p i / p nLightVerts)) nLightVerts
      hterm (List.range size) 0 hmem
  have hR := foldl_squares_top_term p nLightVerts hsq (List.range size) 0
    (by simp [Double.zero_def]) hmem
  unfold powerHeuristic
  rw [hL]
  show Double.div (Double.fin 1) Double.nan = Double.div (Double.mul (p nLightVerts) (p nLightVerts)) _
  rcases hsq with h1 | h1 <;> rcases hR with h2 | h2 <;> rw [h2] <;>
    first
    | rw [show Double.mul (p nLightVerts) (p nLightVerts) = Double.pinf from h1]; rfl
    | rw [show Double.mul (p nLightVerts) (p nLightVerts) = Double.nan from h1]; rfl

/-! ## Claims on `calcMISWeight` -/

/-- C3: for every chain index `i` whose vertex is tagged Specular, the strategy
densities `p[i]` and `p[i + 1]` entering the power-heuristic sum are both exactly 0,
whatever the density ratios `pi1pi` and the density `totalPdfA` were. -/
theorem misDensities_specular_zero (pi1pi : Nat → Double) (verts : List Vertex)
    (totalPdfA : Double) (nLightVerts i : Nat) (hi : i < verts.length)
    (hs : (vertexAt verts i).objtype = ObjectType.OBJECT_TYPE_SPECULAR) :
    misDensities pi1pi verts totalPdfA nLightVerts i = 0 ∧
      misDensities pi1pi verts totalPdfA nLightVerts (i + 1) = 0 := by
  unfold misDensities misSpecular
  exact foldl_misSpecularStep_mem verts i hs _ _ (List.mem_range.mpr hi)


/-! ## The weights of all splits of one chain -/

theorem foldl_add_fin (f : Nat → Double) (g : Nat → ℚ) :
    ∀ n : Nat, (∀ i, i < n → f i = Double.fin (g i)) →
      (List.range n).foldl (fun acc i => acc + f i) 0 =
        Double.fin (∑ i in Finset.range n, g i) := by
  intro n
  induction n with
  | zero => intro _; rfl
  | succ n ih =>
      intro h
      rw [List.range_succ, List.foldl_append, ih (fun i hi => h i (by omega))]
      simp only [List.foldl_cons, List.foldl_nil]
      rw [h n (Nat.lt_succ_self n), Double.fin_add_fin, Finset.sum_range_succ]

/-- Closed form of the density array for a chain without Specular vertex whose ratios
are finite and non-zero. -/
theorem misDensities_closed (pi1pi : Nat → Double) (verts : List Vertex) (k : Nat)
    (hlen : verts.length = k + 1)
    (hspec : ∀ i, i < k + 1 → (vertexAt verts i).objtype ≠ ObjectType.OBJECT_TYPE_SPECULAR)
    (r q : Nat → ℚ) (hpi : ∀ i, i < k → pi1pi i = Double.fin (r i)) (hr : ∀ i, i < k → r i ≠ 0)
    (hpik : pi1pi k = 0) (hrec : ∀ i, i < k → q (i + 1) = q i * r i) (s : Nat) (hs : s ≤ k)
    (j : Nat) :
    misDensities pi1pi verts (Double.fin (q s)) s j =
      if j ≤ k then Double.fin (q j) else 0 := by
  set Q : Nat → Double := fun j => if j ≤ k then Double.fin (q j) else 0 with hQ
  have hQle : ∀ i, i ≤ k → Q i = Double.fin (q i) := fun i hi => by simp [hQ, hi]
  have hQgt : ∀ i, k < i → Q i = 0 := fun i hi => by simp [hQ, Nat.not_le.mpr hi]
  unfold misDensities misSpecular
  rw [foldl_misSpecularStep_none verts _
    (fun i hi => hspec i (by rw [← hlen]; exact List.mem_range.mp hi))]
  unfold misBackward misForward
  rw [hlen]
  have hp0 : (Function.update (fun _ => (0 : Double)) s (Double.fin (q s))) s = Q s := by
    rw [Function.update_same, hQle s hs]
  have hfw := foldl_misForwardStep pi1pi Q s (k + 1 - s) _ hp0 (by
    intro i h1 h2
    by_cases hik : i < k
    · rw [hQle (i + 1) (by omega), hQle i (by omega), hpi i hik, Double.fin_mul_fin, hrec i hik]
    · have : i = k := by omega
      subst this
      rw [hQgt (i + 1) (by omega), hQle i (le_refl i), hpik, Double.fin_mul_zero])
  have hbw := foldl_misBackwardStep pi1pi Q s _ (hfw.1 s (le_refl s) (by omega)) (by
    intro i hi
    rw [hQle (i + 1) (by omega), hQle i (by omega), hpi i (by omega),
      Double.fin_div_fin _ (hr i (by omega)), hrec i (by omega),
      mul_div_assoc, div_self (hr i (by omega)), mul_one])
  show _ = Q j
  by_cases hjs : j ≤ s
  · exact hbw.1 j hjs
  · rw [hbw.2 j (by omega)]
    by_cases hjk : j ≤ k + 1
    · exact hfw.1 j (by omega) (by omega)
    · rw [hfw.2 j (Or.inr (by omega)), Function.update_noteq (by omega), hQgt j (by omega)]

theorem misRatios_last (lib : Lib) (scene : Scene) (camera : DoFCamera) (verts : List Vertex) :
    misRatios lib scene camera verts (verts.length - 1) = 0 := by
  unfold misRatios
  simp only [Function.update_same]

/-- Weight of one split of a chain without Specular vertex. -/
theorem calcMISWeight_split (lib : Lib) (scene : Scene) (camera : DoFCamera)
    (verts : List Vertex) (k : Nat) (hlen : verts.length = k + 1)
    (hspec : ∀ i, i < k + 1 → (vertexAt verts i).objtype ≠ ObjectType.OBJECT_TYPE_SPECULAR)
    (r q : Nat → ℚ)
    (hpi : ∀ i, i < k → misRatios lib scene camera verts i = Double.fin (r i))
    (hr : ∀ i, i < k → 0 < r i) (hq : ∀ i, i ≤ k → 0 < q i)
    (hrec : ∀ i, i < k → q (i + 1) = q i * r i)
    (eyeVerts lightVerts : List Vertex) (s : Nat) (hs : s ≤ k)
    (hchain : misChain eyeVerts lightVerts (k + 1 - s) s = verts) :
    calcMISWeight lib scene camera (Double.fin (q s)) eyeVerts lightVerts (k + 1 - s) s =
      Double.fin (q s * q s / ∑ i in Finset.range (k + 1), q i * q i) := by
  have hpik : misRatios lib scene camera verts k = 0 := by
    have h := misRatios_last lib scene camera verts
    rwa [hlen, Nat.add_sub_cancel] at h
  have hclosed := misDensities_closed (misRatios lib scene camera verts) verts k hlen hspec r q
    hpi (fun i hi => ne_of_gt (hr i hi)) hpik hrec s hs
  have hqs : q s ≠ 0 := ne_of_gt (hq s hs)
  have hT : 0 < ∑ i in Finset.range (k + 1), q i * q i :=
    Finset.sum_pos (fun i hi => mul_pos (hq i (by simpa [Nat.lt_succ_iff] using hi))
      (hq i (by simpa [Nat.lt_succ_iff] using hi))) ⟨0, by simp⟩
  unfold calcMISWeight
  simp only []
  rw [hchain, show k + 1 - s + s + 1 = k + 2 by omega]
  rw [one_div_misPowerSum _ (k + 2) s (by rw [hclosed s, if_pos hs]) hqs]
  unfold powerHeuristic
  rw [foldl_add_fin _ (fun i => if i ≤ k then q i * q i else 0) (k + 2) (by
    intro i _
    rw [hclosed i]
    by_cases hik : i ≤ k
    · simp [hik]
    · simp [hik, Double.zero_def])]
  rw [hclosed s, if_pos hs, Double.fin_mul_fin, Finset.sum_range_succ,
    if_neg (by omega : ¬ k + 1 ≤ k), add_zero,
    Finset.sum_congr rfl (fun i hi => if_pos (by simpa [Nat.lt_succ_iff] using hi))]
  exact Double.fin_div_fin _ (ne_of_gt hT)

/-- C1: the MIS weights of one path sum to 1. For a fixed chain `verts` of `k + 1`
vertices none of which is Specular, whose adjacent density ratios `pi1pi[i] = r i`
(`i < k`) computed by `calcMISWeight` are all positive, and strategy densities
`q 0 .. q k > 0` with `q (s + 1) = q s * r s`, the values `calcMISWeight` returns for the
splits `nLightVerts = s`, `nEyeVerts = k + 1 - s`, `totalPdfA = q s` of that chain, added
up over `s = 0 .. k`, give exactly 1. -/
theorem calcMISWeight_sum_eq_one (lib : Lib) (scene : Scene) (camera : DoFCamera)
    (verts : List Vertex) (k : Nat) (hlen : verts.length = k + 1)
    (hspec : ∀ i, i < k + 1 → (vertexAt verts i).objtype ≠ ObjectType.OBJECT_TYPE_SPECULAR)
    (r q : Nat → ℚ)
    (hpi : ∀ i, i < k → misRatios lib scene camera verts i = Double.fin (r i))
    (hr : ∀ i, i < k → 0 < r i) (hq : ∀ i, i ≤ k → 0 < q i)
    (hrec : ∀ i, i < k → q (i + 1) = q i * r i)
    (eyeVerts lightVerts : Nat → List Vertex)
    (hchain : ∀ s, s ≤ k → misChain (eyeVerts s) (lightVerts s) (k + 1 - s) s = verts) :
    (List.range (k + 1)).foldl
        (fun acc s => acc + calcMISWeight lib scene camera (Double.fin (q s))
          (eyeVerts s) (lightVerts s) (k + 1 - s) s) 0 = 1 := by
  have hT : 0 < ∑ i in Finset.range (k + 1), q i * q i :=
    Finset.sum_pos (fun i hi => mul_pos (hq i (by simpa [Nat.lt_succ_iff] using hi))
      (hq i (by simpa [Nat.lt_succ_iff] using hi))) ⟨0, by simp⟩
  rw [foldl_add_fin _ (fun s => q s * q s / ∑ i in Finset.range (k + 1), q i * q i) (k + 1)
    (fun s hs => calcMISWeight_split lib scene camera verts k hlen hspec r q hpi hr hq hrec
      (eyeVerts s) (lightVerts s) s (by omega) (hchain s (by omega)))]
  rw [← Finset.sum_div, div_self (ne_of_gt hT)]
  rfl

/-! ## The connection loop -/

theorem connectEyeSide_some (lib : Lib) (scene : Scene) (camera : DoFCamera) (x y : Int)
    (eyeEnd : Vertex) (testRay : Ray) (t : Int × Int × Color)
    (h : connectEyeSide lib scene camera x y eyeEnd testRay = some t) :
    (eyeEnd.objtype = ObjectType.OBJECT_TYPE_DIFFUSE ∧ t.1 = x ∧ t.2.1 = y) ∨
    (eyeEnd.objtype = ObjectType.OBJECT_TYPE_LENS ∧
      (∃ u, t.1 = clampPixel u camera.imageW) ∧ ∃ v, t.2.1 = clampPixel v camera.imageH) := by
  unfold connectEyeSide at h
  simp only [] at h
  cases he : eyeEnd.objtype <;> rw [he] at h <;> simp only [] at h
  · exact absurd h (by simp)
  · right
    split at h
    · cases h
      exact ⟨rfl, ⟨_, rfl⟩, ⟨_, rfl⟩⟩
    · exact absurd h (by simp)
  · left
    split at h
    · exact absurd h (by simp)
    · cases h
      exact ⟨rfl, rfl, rfl⟩
  · exact absurd h (by simp)

theorem connectLightSide_some (lib : Lib) (scene : Scene) (lightEnd : Vertex) (c1 c2 : Color)
    (h : connectLightSide lib scene lightEnd c1 = some c2) :
    lightEnd.objtype = ObjectType.OBJECT_TYPE_DIFFUSE ∨
      lightEnd.objtype = ObjectType.OBJECT_TYPE_LIGHT := by
  unfold connectLightSide at h
  cases hl : lightEnd.objtype <;> rw [hl] at h <;> simp at h ⊢

/-- What a pushed connection sample says about its pair of end points. -/
theorem connectVertices_some (lib : Lib) (scene : Scene) (camera : DoFCamera) (x y : Int)
    (eyeVerts lightVerts : List Vertex) (eyeVertId lightVertId : Nat) (s : Sample)
    (h : connectVertices lib scene camera x y eyeVerts lightVerts eyeVertId lightVertId = some s) :
    ((vertexAt eyeVerts (eyeVertId - 1)).objtype = ObjectType.OBJECT_TYPE_DIFFUSE ∧
        s.imageX = x ∧ s.imageY = y ∨
      (vertexAt eyeVerts (eyeVertId - 1)).objtype = ObjectType.OBJECT_TYPE_LENS ∧
        (∃ u, s.imageX = clampPixel u camera.imageW) ∧
          ∃ v, s.imageY = clampPixel v camera.imageH) ∧
    ((vertexAt lightVerts (lightVertId - 1)).objtype = ObjectType.OBJECT_TYPE_DIFFUSE ∨
      (vertexAt lightVerts (lightVertId - 1)).objtype = ObjectType.OBJECT_TYPE_LIGHT) := by
  unfold connectVertices at h
  simp only [] at h
  split at h
  · exact absurd h (by simp)
  · split at h
    · exact absurd h (by simp)
    · rename_i tx ty c1 hE
      split at h
      · exact absurd h (by simp)
      · rename_i c2 hL
        split at h
        · exact absurd h (by simp)
        · cases h
          exact ⟨connectEyeSide_some lib scene camera x y _ _ _ hE,
            connectLightSide_some lib scene _ _ _ hL⟩


/-! ## The direct hit through a Specular chain -/

theorem Double.eq_fin_toRat {d : Double} (h : d.isFinite = true) : d = Double.fin d.toRat := by
  cases d <;> simp [Double.isFinite] at h
  rfl

theorem misChain_length (eyeVerts lightVerts : List Vertex) (nEyeVerts nLightVerts : Nat) :
    (misChain eyeVerts lightVerts nEyeVerts nLightVerts).length = nEyeVerts + nLightVerts := by
  simp [misChain]

theorem vertexAt_misChain (eyeVerts lightVerts : List Vertex) (nEyeVerts nLightVerts j : Nat)
    (hj : j < nEyeVerts + nLightVerts) :
    vertexAt (misChain eyeVerts lightVerts nEyeVerts nLightVerts) j =
      if j < nLightVerts then vertexAt lightVerts j
      else vertexAt eyeVerts (nLightVerts + nEyeVerts - j - 1) := by
  unfold vertexAt misChain
  rw [List.getD_eq_getElem?_getD, List.getElem?_map, List.getElem?_range hj]
  rfl

theorem foldl_misSpecularStep_keep (verts : List Vertex) (j : Nat) (l : List Nat)
    (hl : ∀ i ∈ l, (vertexAt verts i).objtype = ObjectType.OBJECT_TYPE_SPECULAR →
      j ≠ i ∧ j ≠ i + 1) :
    ∀ p : Nat → Double, l.foldl (misSpecularStep verts) p j = p j := by
  induction l with
  | nil => intro p; rfl
  | cons a t ih =>
      intro p
      rw [List.foldl_cons, ih (fun i hi => hl i (List.mem_cons_of_mem a hi))]
      unfold misSpecularStep
      split
      · rename_i hs
        have h := hl a (List.mem_cons_self a t) hs
        rw [Function.update_noteq h.2, Function.update_noteq h.1]
      · rfl

/-- Densities of the direct-hit strategy on an eye subpath whose interior is Specular. -/
theorem misDensities_all_specular (pi1pi : Nat → Double) (verts : List Vertex) (n : Nat)
    (hn : 3 ≤ n) (hlen : verts.length = n)
    (hfirst : (vertexAt verts 0).objtype ≠ ObjectType.OBJECT_TYPE_SPECULAR)
    (hspec : ∀ i, 1 ≤ i → i + 1 < n →
      (vertexAt verts i).objtype = ObjectType.OBJECT_TYPE_SPECULAR)
    (hfin : ∀ i, i + 1 < n → (pi1pi i).isFinite = true) (hlast : pi1pi (n - 1) = 0)
    (c : ℚ) (j : Nat) (hj : j ≤ n) :
    misDensities pi1pi verts (Double.fin c) 0 j = if j = 0 then Double.fin c else 0 := by
  set Q : Nat → Double := fun j =>
    if j + 1 ≤ n then Double.fin (c * ∏ t in Finset.range j, (pi1pi t).toRat) else 0 with hQ
  have hQle : ∀ i, i + 1 ≤ n → Q i = Double.fin (c * ∏ t in Finset.range i, (pi1pi t).toRat) :=
    fun i hi => by simp [hQ, hi]
  have hQgt : ∀ i, n ≤ i → Q i = 0 := fun i hi => by
    have : ¬ i + 1 ≤ n := by omega
    simp [hQ, this]
  have hp0 : (Function.update (fun _ => (0 : Double)) 0 (Double.fin c)) 0 = Q 0 := by
    rw [Function.update_same, hQle 0 (by omega)]
    simp
  have hfw := foldl_misForwardStep pi1pi Q 0 n _ hp0 (by
    intro i _ h2
    by_cases hik : i + 1 < n
    · rw [hQle (i + 1) (by omega), hQle i (by omega), Double.eq_fin_toRat (hfin i hik),
        Double.fin_mul_fin, Finset.prod_range_succ, mul_assoc]
    · have : i = n - 1 := by omega
      subst this
      rw [hQgt (n - 1 + 1) (by omega), hQle (n - 1) (by omega), hlast, Double.fin_mul_zero])
  have hpre : ∀ i, i ≤ n →
      misBackward pi1pi 0 (misForward pi1pi verts.length 0
        (Function.update (fun _ => (0 : Double)) 0 (Double.fin c))) i = Q i := by
    intro i hi
    unfold misBackward misForward
    rw [hlen]
    simp only [List.range_zero, List.reverse_nil, List.foldl_nil, Nat.sub_zero]
    exact hfw.1 i (Nat.zero_le i) (by omega)
  unfold misDensities misSpecular
  by_cases hj0 : j = 0
  · subst hj0
    rw [if_pos rfl, foldl_misSpecularStep_keep verts 0 _ (by
      intro i _ hs
      refine ⟨?_, by omega⟩
      intro h0
      subst h0
      exact hfirst hs)]
    rw [hpre 0 (by omega), hQle 0 (by omega)]
    simp
  · rw [if_neg hj0]
    by_cases hj1 : j + 1 < n
    · exact (foldl_misSpecularStep_mem verts j (hspec j (by omega) hj1) _ _
        (List.mem_range.mpr (by omega))).1
    · by_cases hj2 : j = n
      · subst hj2
        exact foldl_misSpecularStep_zero verts _ _ _ (by rw [hpre j (le_refl j), hQgt j (le_refl j)])
      · have hjn : j = (n - 2) + 1 := by omega
        rw [hjn]
        exact (foldl_misSpecularStep_mem verts (n - 2) (hspec (n - 2) (by omega) (by omega)) _ _
          (List.mem_range.mpr (by omega))).2

/-- The weight of the direct-hit strategy on an eye subpath whose interior is Specular. -/
theorem calcMISWeight_direct_hit (lib : Lib) (scene : Scene) (camera : DoFCamera)
    (eyeVerts lightVerts : List Vertex) (c : ℚ) (hn : 3 ≤ eyeVerts.length)
    (hspec : ∀ i, 1 ≤ i → i + 1 < eyeVerts.length →
      (vertexAt eyeVerts i).objtype = ObjectType.OBJECT_TYPE_SPECULAR)
    (hlight : (vertexAt eyeVerts (eyeVerts.length - 1)).objtype = ObjectType.OBJECT_TYPE_LIGHT)
    (hc : c ≠ 0)
    (hfin : ∀ i, i + 1 < eyeVerts.length →
      (misRatios lib scene camera (misChain eyeVerts lightVerts eyeVerts.length 0) i).isFinite
        = true) :
    calcMISWeight lib scene camera (Double.fin c) eyeVerts lightVerts eyeVerts.length 0 = 1 := by
  have hlen := misChain_length eyeVerts lightVerts eyeVerts.length 0
  rw [Nat.add_zero] at hlen
  have hlast := misRatios_last lib scene camera (misChain eyeVerts lightVerts eyeVerts.length 0)
  rw [hlen] at hlast
  have hd := misDensities_all_specular
    (misRatios lib scene camera (misChain eyeVerts lightVerts eyeVerts.length 0))
    (misChain eyeVerts lightVerts eyeVerts.length 0) eyeVerts.length hn hlen
    (by
      rw [vertexAt_misChain _ _ _ _ _ (by omega), if_neg (Nat.not_lt_zero 0)]
      rw [show 0 + eyeVerts.length - 0 - 1 = eyeVerts.length - 1 by omega, hlight]
      decide)
    (by
      intro i h1 h2
      rw [vertexAt_misChain _ _ _ _ _ (by omega), if_neg (Nat.not_lt_zero i)]
      exact hspec _ (by omega) (by omega))
    hfin hlast c
  unfold calcMISWeight
  simp only []
  unfold misPowerSum
  rw [foldl_add_fin _ (fun i => if i = 0 then 1 else 0) (eyeVerts.length + 0 + 1) (by
    intro i hi
    rw [hd i (by omega), hd 0 (by omega), if_pos rfl]
    by_cases hi0 : i = 0
    · rw [if_pos hi0]
      simp only [if_pos hi0]
      rw [Double.fin_div_fin _ hc, div_self hc, Double.fin_mul_fin, mul_one]
    · rw [if_neg hi0]
      simp only [if_neg hi0]
      rw [Double.zero_div_fin hc, Double.zero_def, Double.fin_mul_fin, mul_zero])]
  rw [Finset.sum_ite_eq' (Finset.range (eyeVerts.length + 0 + 1)) 0 (fun _ => (1 : ℚ)),
    if_pos (Finset.mem_range.mpr (by omega)), Double.one_def,
    Double.fin_div_fin _ one_ne_zero, div_one]

/-- C4: an all-specular chain falls back to the direct hit. For an eye subpath of at
least 3 vertices whose interior vertices are all tagged Specular and whose final vertex
is tagged Light, with a finite non-zero cumulative density and finite density ratios
(real arithmetic), `calcMISWeight` called for the direct-hit estimator
(`nLightVerts = 0`, `nEyeVerts` the path length) returns exactly 1, and every connection
whose eye end point is an interior (Specular) vertex or the final (Light) vertex is
dropped. -/
theorem all_specular_direct_hit_only (lib : Lib) (scene : Scene) (camera : DoFCamera)
    (eyeVerts lightVerts : List Vertex) (c : ℚ) (hn : 3 ≤ eyeVerts.length)
    (hspec : ∀ i, 1 ≤ i → i + 1 < eyeVerts.length →
      (vertexAt eyeVerts i).objtype = ObjectType.OBJECT_TYPE_SPECULAR)
    (hlight : (vertexAt eyeVerts (eyeVerts.length - 1)).objtype = ObjectType.OBJECT_TYPE_LIGHT)
    (hpdf : (vertexAt eyeVerts (eyeVerts.length - 1)).totalPdfA = Double.fin c) (hc : c ≠ 0)
    (hfin : ∀ i, i + 1 < eyeVerts.length →
      (misRatios lib scene camera (misChain eyeVerts lightVerts eyeVerts.length 0) i).isFinite
        = true) :
    calcMISWeight lib scene camera (vertexAt eyeVerts (eyeVerts.length - 1)).totalPdfA
        eyeVerts lightVerts eyeVerts.length 0 = 1 ∧
      ∀ (x y : Int) (eyeVertId lightVertId : Nat), 2 ≤ eyeVertId →
        eyeVertId ≤ eyeVerts.length →
        connectVertices lib scene camera x y eyeVerts lightVerts eyeVertId lightVertId = none := by
  refine ⟨?_, ?_⟩
  · rw [hpdf]
    exact calcMISWeight_direct_hit lib scene camera eyeVerts lightVerts c hn hspec hlight hc hfin
  · intro x y eyeVertId lightVertId h2 hle
    cases hcv : connectVertices lib scene camera x y eyeVerts lightVerts eyeVertId lightVertId with
    | none => rfl
    | some s =>
        exfalso
        have h := (connectVertices_some lib scene camera x y eyeVerts lightVerts eyeVertId
          lightVertId s hcv).1
        by_cases hlast : eyeVertId = eyeVerts.length
        · rw [hlast, hlight] at h
          rcases h with h | h <;> exact absurd h.1 (by decide)
        · rw [hspec (eyeVertId - 1) (by omega) (by omega)] at h
          rcases h with h | h <;> exact absurd h.1 (by decide)

/-- C5: `executeBPT` emits no connection sample for a pair whose eye end point is
tagged Specular or Light, or whose light end point is tagged Specular or Lens; every
connection sample it emits comes from a pair of the double loop whose eye end point is
tagged Diffuse or Lens and whose light end point is tagged Diffuse or Light. -/
theorem connection_endpoint_types (lib : Lib) (scene : Scene) (camera : DoFCamera) (x y : Int)
    (eyeVerts lightVerts : List Vertex) :
    (∀ eyeVertId lightVertId : Nat,
        ((vertexAt eyeVerts (eyeVertId - 1)).objtype = ObjectType.OBJECT_TYPE_SPECULAR ∨
          (vertexAt eyeVerts (eyeVertId - 1)).objtype = ObjectType.OBJECT_TYPE_LIGHT ∨
          (vertexAt lightVerts (lightVertId - 1)).objtype = ObjectType.OBJECT_TYPE_SPECULAR ∨
          (vertexAt lightVerts (lightVertId - 1)).objtype = ObjectType.OBJECT_TYPE_LENS) →
        connectVertices lib scene camera x y eyeVerts lightVerts eyeVertId lightVertId = none) ∧
      ∀ s ∈ connectAll lib scene camera x y eyeVerts lightVerts,
        ∃ eyeVertId lightVertId : Nat,
          1 ≤ eyeVertId ∧ eyeVertId ≤ eyeVerts.length ∧
          1 ≤ lightVertId ∧ lightVertId ≤ lightVerts.length ∧
          connectVertices lib scene camera x y eyeVerts lightVerts eyeVertId lightVertId
            = some s ∧
          ((vertexAt eyeVerts (eyeVertId - 1)).objtype = ObjectType.OBJECT_TYPE_DIFFUSE ∨
            (vertexAt eyeVerts (eyeVertId - 1)).objtype = ObjectType.OBJECT_TYPE_LENS) ∧
          ((vertexAt lightVerts (lightVertId - 1)).objtype = ObjectType.OBJECT_TYPE_DIFFUSE ∨
            (vertexAt lightVerts (lightVertId - 1)).objtype = ObjectType.OBJECT_TYPE_LIGHT) := by
  refine ⟨?_, ?_⟩
  · intro eyeVertId lightVertId hty
    cases hcv : connectVertices lib scene camera x y eyeVerts lightVerts eyeVertId lightVertId with
    | none => rfl
    | some s =>
        exfalso
        have h := connectVertices_some lib scene camera x y eyeVerts lightVerts eyeVertId
          lightVertId s hcv
        rcases hty with h1 | h1 | h1 | h1
        · rw [h1] at h
          rcases h.1 with h | h <;> exact absurd h.1 (by decide)
        · rw [h1] at h
          rcases h.1 with h | h <;> exact absurd h.1 (by decide)
        · rw [h1] at h
          rcases h.2 with h | h <;> exact absurd h (by decide)
        · rw [h1] at h
          rcases h.2 with h | h <;> exact absurd h (by decide)
  · intro s hs
    unfold connectAll at hs
    rw [List.mem_flatMap] at hs
    obtain ⟨eyeVertId, he, hs⟩ := hs
    rw [List.mem_filterMap] at hs
    obtain ⟨lightVertId, hl, hcv⟩ := hs
    rw [List.mem_range'_1] at he hl
    have h := connectVertices_some lib scene camera x y eyeVerts lightVerts eyeVertId
      lightVertId s hcv
    refine ⟨eyeVertId, lightVertId, he.1, by omega, hl.1, by omega, hcv, ?_, h.2⟩
    rcases h.1 with h1 | h1
    · exact Or.inl h1.1
    · exact Or.inr h1.1


/-! ## The density array in the words of the recurrences -/

/-- The array `p` before the Specular loop is the only array on `0 .. n` that holds
`totalPdfA` at `nLightVerts` and obeys the forward and the backward recurrence. -/
theorem misRecurrence_unique (pi1pi : Nat → Double) (n nLightVerts : Nat)
    (hle : nLightVerts ≤ n) (totalPdfA : Double) (q : Nat → Double)
    (hs : q nLightVerts = totalPdfA)
    (hfw : ∀ i, nLightVerts ≤ i → i < n → q (i + 1) = q i * pi1pi i)
    (hbw : ∀ i, i < nLightVerts → q i = q (i + 1) / pi1pi i) (j : Nat) (hj : j ≤ n) :
    misBackward pi1pi nLightVerts
        (misForward pi1pi n nLightVerts (Function.update (fun _ => 0) nLightVerts totalPdfA)) j
      = q j := by
  unfold misBackward misForward
  have hp0 : (Function.update (fun _ => (0 : Double)) nLightVerts totalPdfA) nLightVerts
      = q nLightVerts := by
    rw [Function.update_same, hs]
  have hfwd := foldl_misForwardStep pi1pi q nLightVerts (n - nLightVerts) _ hp0
    (fun i h1 h2 => hfw i h1 (by omega))
  have hbwd := foldl_misBackwardStep pi1pi q nLightVerts _
    (hfwd.1 nLightVerts (le_refl _) (by omega)) hbw
  by_cases hjs : j ≤ nLightVerts
  · exact hbwd.1 j hjs
  · rw [hbwd.2 j (by omega)]
    exact hfwd.1 j (by omega) (by omega)

/-- The effect of the Specular loop on one entry: the entry becomes 0 when the chain
vertex of the same index or of the index before is Specular, and is kept otherwise. -/
theorem misSpecular_apply (verts : List Vertex) (r : Nat → Double) (j : Nat)
    (hj : j ≤ verts.length) :
    misSpecular verts r j =
      if (j < verts.length ∧ (vertexAt verts j).objtype = ObjectType.OBJECT_TYPE_SPECULAR)
          ∨ (0 < j ∧ (vertexAt verts (j - 1)).objtype = ObjectType.OBJECT_TYPE_SPECULAR)
      then 0 else r j := by
  unfold misSpecular
  split
  · rename_i h
    rcases h with ⟨h1, h2⟩ | ⟨h1, h2⟩
    · exact (foldl_misSpecularStep_mem verts j h2 _ r (List.mem_range.mpr h1)).1
    · have h3 := (foldl_misSpecularStep_mem verts (j - 1) h2 (List.range verts.length) r
        (List.mem_range.mpr (by omega))).2
      rwa [Nat.sub_add_cancel h1] at h3
  · rename_i h
    apply foldl_misSpecularStep_keep
    intro i hi hsp
    have hi2 := List.mem_range.mp hi
    constructor
    · intro hji
      subst hji
      exact h (Or.inl ⟨hi2, hsp⟩)
    · intro hji
      subst hji
      exact h (Or.inr ⟨Nat.succ_pos i, by simpa using hsp⟩)

theorem misPowerSum_congr (p p2 : Nat → Double) (size nLightVerts : Nat)
    (hlt : nLightVerts < size) (h : ∀ j, j < size → p j = p2 j) :
    misPowerSum p size nLightVerts = misPowerSum p2 size nLightVerts := by
  unfold misPowerSum
  rw [h nLightVerts hlt]
  have key : ∀ (l : List Nat) (acc : Double), (∀ i ∈ l, i < size) →
      l.foldl (fun MIS i => MIS + (p i / p2 nLightVerts) * (p i / p2 nLightVerts)) acc
        = l.foldl (fun MIS i => MIS + (p2 i / p2 nLightVerts) * (p2 i / p2 nLightVerts)) acc := by
    intro l
    induction l with
    | nil => intro acc _; rfl
    | cons a t ih =>
        intro acc hl
        rw [List.foldl_cons, List.foldl_cons, h a (hl a (List.mem_cons_self a t))]
        exact ih _ (fun i hi => hl i (List.mem_cons_of_mem a hi))
  exact key _ _ (fun i hi => List.mem_range.mp hi)

theorem powerHeuristic_congr (p p2 : Nat → Double) (size nLightVerts : Nat)
    (hlt : nLightVerts < size) (h : ∀ j, j < size → p j = p2 j) :
    powerHeuristic p size nLightVerts = powerHeuristic p2 size nLightVerts := by
  unfold powerHeuristic
  rw [h nLightVerts hlt]
  have key : ∀ (l : List Nat) (acc : Double), (∀ i ∈ l, i < size) →
      l.foldl (fun acc i => acc + p i * p i) acc
        = l.foldl (fun acc i => acc + p2 i * p2 i) acc := by
    intro l
    induction l with
    | nil => intro acc _; rfl
    | cons a t ih =>
        intro acc hl
        rw [List.foldl_cons, List.foldl_cons, h a (hl a (List.mem_cons_self a t))]
        exact ih _ (fun i hi => hl i (List.mem_cons_of_mem a hi))
  rw [key _ _ (fun i hi => List.mem_range.mp hi)]

/-- The array `p` that `calcMISWeight` builds is, on its `n + 1` entries, the array
described by the recurrences and the Specular zeroing. -/
theorem misDensities_eq_of_recurrence (pi1pi : Nat → Double) (verts : List Vertex)
    (nLightVerts : Nat) (hle : nLightVerts ≤ verts.length) (totalPdfA : Double)
    (q p : Nat → Double)
    (hs : q nLightVerts = totalPdfA)
    (hfw : ∀ i, nLightVerts ≤ i → i < verts.length → q (i + 1) = q i * pi1pi i)
    (hbw : ∀ i, i < nLightVerts → q i = q (i + 1) / pi1pi i)
    (hz : ∀ j, j ≤ verts.length → p j =
      if (j < verts.length ∧ (vertexAt verts j).objtype = ObjectType.OBJECT_TYPE_SPECULAR)
          ∨ (0 < j ∧ (vertexAt verts (j - 1)).objtype = ObjectType.OBJECT_TYPE_SPECULAR)
      then 0 else q j)
    (j : Nat) (hj : j ≤ verts.length) :
    misDensities pi1pi verts totalPdfA nLightVerts j = p j := by
  unfold misDensities
  rw [misSpecular_apply verts _ j hj, hz j hj,
    misRecurrence_unique pi1pi verts.length nLightVerts hle totalPdfA q hs hfw hbw j hj]

theorem one_div_misPowerSum_of_ne_zero (p : Nat → Double) (size nLightVerts : Nat)
    (hlt : nLightVerts < size) (hp : p nLightVerts ≠ 0) :
    1 / misPowerSum p size nLightVerts = powerHeuristic p size nLightVerts := by
  cases h : p nLightVerts with
  | fin c =>
      have hc : c ≠ 0 := by
        intro h0
        apply hp
        rw [h, h0]
        rfl
      exact one_div_misPowerSum p _ _ h hc
  | pinf => exact one_div_misPowerSum_not_finite p _ _ hlt (by rw [h]; rfl)
  | ninf => exact one_div_misPowerSum_not_finite p _ _ hlt (by rw [h]; rfl)
  | nan => exact one_div_misPowerSum_not_finite p _ _ hlt (by rw [h]; rfl)

/-- C2: `calcMISWeight` is the power heuristic with exponent 2. Let `q` be the array
with `q[nLightVerts] = totalPdfA`, `q[i + 1] = q[i] * pi1pi[i]` for
`nLightVerts <= i <= k` and `q[i] = q[i + 1] / pi1pi[i]` for `i < nLightVerts`, the
ratios `pi1pi` being those the code computes for the chain, and let `p` be `q` with the
entries `i` and `i + 1` set to 0 for every Specular chain vertex `i`. Whenever the
density `p[nLightVerts]` of the strategy used is non-zero, the value returned by
`calcMISWeight` is `1 / sum_i (p_i / p_s)^2` and equals `p_s^2 / sum_i p_i^2`, the sums
running over all `nEyeVerts + nLightVerts + 1` entries (for an infinite or NaN `p_s`
both sides are NaN). -/
theorem calcMISWeight_eq_powerHeuristic (lib : Lib) (scene : Scene) (camera : DoFCamera)
    (totalPdfA : Double) (eyeVerts lightVerts : List Vertex) (nEyeVerts nLightVerts : Nat)
    (q p : Nat → Double)
    (hs : q nLightVerts = totalPdfA)
    (hfw : ∀ i, nLightVerts ≤ i → i < nEyeVerts + nLightVerts →
      q (i + 1) = q i * misRatios lib scene camera
        (misChain eyeVerts lightVerts nEyeVerts nLightVerts) i)
    (hbw : ∀ i, i < nLightVerts →
      q i = q (i + 1) / misRatios lib scene camera
        (misChain eyeVerts lightVerts nEyeVerts nLightVerts) i)
    (hz : ∀ j, j ≤ nEyeVerts + nLightVerts → p j =
      if (j < nEyeVerts + nLightVerts ∧
            (vertexAt (misChain eyeVerts lightVerts nEyeVerts nLightVerts) j).objtype
              = ObjectType.OBJECT_TYPE_SPECULAR)
          ∨ (0 < j ∧
            (vertexAt (misChain eyeVerts lightVerts nEyeVerts nLightVerts) (j - 1)).objtype
              = ObjectType.OBJECT_TYPE_SPECULAR)
      then 0 else q j)
    (hp : p nLightVerts ≠ 0) :
    calcMISWeight lib scene camera totalPdfA eyeVerts lightVerts nEyeVerts nLightVerts
        = 1 / misPowerSum p (nEyeVerts + nLightVerts + 1) nLightVerts
    ∧ calcMISWeight lib scene camera totalPdfA eyeVerts lightVerts nEyeVerts nLightVerts
        = powerHeuristic p (nEyeVerts + nLightVerts + 1) nLightVerts := by
  have hlen := misChain_length eyeVerts lightVerts nEyeVerts nLightVerts
  have hagree : ∀ j, j < nEyeVerts + nLightVerts + 1 →
      misDensities (misRatios lib scene camera
          (misChain eyeVerts lightVerts nEyeVerts nLightVerts))
        (misChain eyeVerts lightVerts nEyeVerts nLightVerts) totalPdfA nLightVerts j = p j := by
    intro j hj
    apply misDensities_eq_of_recurrence _ _ nLightVerts (by rw [hlen]; omega) totalPdfA q p hs
    · intro i h1 h2
      exact hfw i h1 (by rw [← hlen]; exact h2)
    · exact hbw
    · intro j2 hj2
      rw [hlen] at hj2 ⊢
      exact hz j2 hj2
    · rw [hlen]; omega
  have h1 : calcMISWeight lib scene camera totalPdfA eyeVerts lightVerts nEyeVerts nLightVerts
      = 1 / misPowerSum p (nEyeVerts + nLightVerts + 1) nLightVerts := by
    unfold calcMISWeight
    simp only []
    rw [misPowerSum_congr _ p _ _ (by omega) hagree]
  exact ⟨h1, h1.trans (one_div_misPowerSum_of_ne_zero p _ _ (by omega) hp)⟩

open ObjectType

/-! ## Witnesses for the claims on `calcMISWeight` -/

theorem calcMISWeight_sum_eq_one_witness :
    (List.range (1 + 1)).foldl
        (fun acc s => acc + calcMISWeight unitLib unitScene unitCamera (Double.fin 1)
          [sampleVertex OBJECT_TYPE_DIFFUSE 1, sampleVertex OBJECT_TYPE_LIGHT 1]
          [sampleVertex OBJECT_TYPE_LIGHT 1] (1 + 1 - s) s) 0 = 1 :=
  calcMISWeight_sum_eq_one unitLib unitScene unitCamera
    [sampleVertex OBJECT_TYPE_LIGHT 1, sampleVertex OBJECT_TYPE_DIFFUSE 1] 1 rfl
    (by decide) (fun _ => 1) (fun _ => 1) (by decide!) (by intro i _; norm_num)
    (by intro i _; norm_num) (by intro i _; norm_num)
    (fun _ => [sampleVertex OBJECT_TYPE_DIFFUSE 1, sampleVertex OBJECT_TYPE_LIGHT 1])
    (fun _ => [sampleVertex OBJECT_TYPE_LIGHT 1]) (by decide)

theorem calcMISWeight_eq_powerHeuristic_witness :
    calcMISWeight unitLib unitScene unitCamera 1
        [sampleVertex ObjectType.OBJECT_TYPE_LENS 1, sampleVertex ObjectType.OBJECT_TYPE_SPECULAR 1,
          sampleVertex ObjectType.OBJECT_TYPE_LIGHT 1] [] 3 0
        = 1 / misPowerSum (fun j => if j = 0 then 1 else 0) (3 + 0 + 1) 0
    ∧ calcMISWeight unitLib unitScene unitCamera 1
        [sampleVertex ObjectType.OBJECT_TYPE_LENS 1, sampleVertex ObjectType.OBJECT_TYPE_SPECULAR 1,
          sampleVertex ObjectType.OBJECT_TYPE_LIGHT 1] [] 3 0
        = powerHeuristic (fun j => if j = 0 then 1 else 0) (3 + 0 + 1) 0 :=
  calcMISWeight_eq_powerHeuristic unitLib unitScene unitCamera 1
    [sampleVertex ObjectType.OBJECT_TYPE_LENS 1, sampleVertex ObjectType.OBJECT_TYPE_SPECULAR 1,
      sampleVertex ObjectType.OBJECT_TYPE_LIGHT 1] [] 3 0
    (fun j => if j ≤ 2 then 1 else 0) (fun j => if j = 0 then 1 else 0) rfl
    (by intro i _ h2; interval_cases i <;> decide!)
    (by intro i h; exact absurd h (Nat.not_lt_zero i))
    (by intro j hj; interval_cases j <;> decide!)
    (by decide)

theorem misDensities_specular_zero_witness :
    misDensities (fun _ => Double.pinf)
        [sampleVertex OBJECT_TYPE_LIGHT 1, sampleVertex OBJECT_TYPE_SPECULAR 1,
          sampleVertex OBJECT_TYPE_LENS 1] (Double.fin 1) 0 1 = 0 ∧
      misDensities (fun _ => Double.pinf)
        [sampleVertex OBJECT_TYPE_LIGHT 1, sampleVertex OBJECT_TYPE_SPECULAR 1,
          sampleVertex OBJECT_TYPE_LENS 1] (Double.fin 1) 0 (1 + 1) = 0 :=
  misDensities_specular_zero (fun _ => Double.pinf)
    [sampleVertex OBJECT_TYPE_LIGHT 1, sampleVertex OBJECT_TYPE_SPECULAR 1,
      sampleVertex OBJECT_TYPE_LENS 1] (Double.fin 1) 0 1 (by decide) (by decide)

theorem all_specular_direct_hit_only_witness :
    calcMISWeight unitLib unitScene unitCamera
        (vertexAt [sampleVertex OBJECT_TYPE_LENS 1, sampleVertex OBJECT_TYPE_SPECULAR 1,
          sampleVertex OBJECT_TYPE_LIGHT 1] (3 - 1)).totalPdfA
        [sampleVertex OBJECT_TYPE_LENS 1, sampleVertex OBJECT_TYPE_SPECULAR 1,
          sampleVertex OBJECT_TYPE_LIGHT 1] [sampleVertex OBJECT_TYPE_LIGHT 1] 3 0 = 1 ∧
      ∀ (x y : Int) (eyeVertId lightVertId : Nat), 2 ≤ eyeVertId → eyeVertId ≤ 3 →
        connectVertices unitLib unitScene unitCamera x y
          [sampleVertex OBJECT_TYPE_LENS 1, sampleVertex OBJECT_TYPE_SPECULAR 1,
            sampleVertex OBJECT_TYPE_LIGHT 1] [sampleVertex OBJECT_TYPE_LIGHT 1]
          eyeVertId lightVertId = none :=
  all_specular_direct_hit_only unitLib unitScene unitCamera
    [sampleVertex OBJECT_TYPE_LENS 1, sampleVertex OBJECT_TYPE_SPECULAR 1,
      sampleVertex OBJECT_TYPE_LIGHT 1] [sampleVertex OBJECT_TYPE_LIGHT 1] 1 (by decide)
    (by intro i h1 h2; have : i = 1 := by simp at h2; omega
        subst this; decide)
    (by decide) (by decide) one_ne_zero
    (by intro i h2; have : i < 2 := by simp at h2; omega
        interval_cases i <;> decide!)


/-! ## Accumulating a sample -/

theorem isInvalidValue_iff (lib : Lib) (c : Color) :
    isInvalidValue lib c = true ↔ ∃ ch ∈ c.channels, invalidChannel lib ch = true := by
  unfold isInvalidValue Color.channels invalidChannel
  simp only [List.mem_cons, List.mem_singleton, exists_eq_or_imp, exists_eq_left,
    List.not_mem_nil, or_false, Bool.or_eq_true]
  split_ifs with h1 h2 h3 h4 <;> simp only [true_iff, false_iff, Bool.false_eq_true] <;> tauto

theorem Image.addAt?_inRange (img : Image) (x y : Int) (c : Color)
    (h : img.inRange x y = true) :
    ∃ img1, img.addAt? x y c = some img1 ∧ img1.width = img.width ∧ img1.height = img.height ∧
      img1.data x y = img.data x y + c ∧
      ∀ u v, ¬ (u = x ∧ v = y) → img1.data u v = img.data u v := by
  unfold Image.addAt?
  rw [if_pos h]
  refine ⟨_, rfl, rfl, rfl, ?_, ?_⟩
  · simp
  · intro u v huv
    simp [huv]

theorem accumulateSample_invalid (lib : Lib) (width height : Int) (buffer : Image) (s : Sample)
    (h : ∃ ch ∈ s.value.channels, invalidChannel lib ch = true) :
    accumulateSample lib width height buffer s = some buffer := by
  have hinv := (isInvalidValue_iff lib s.value).mpr h
  unfold accumulateSample isValidValue
  simp [hinv]

theorem accumulateSample_valid (lib : Lib) (width height : Int) (buffer : Image) (s : Sample)
    (h : ¬ ∃ ch ∈ s.value.channels, invalidChannel lib ch = true) :
    accumulateSample lib width height buffer s =
      buffer.addAt? s.imageX s.imageY (sampleContribution width height s) := by
  have hinv : isInvalidValue lib s.value = false := by
    cases hv : isInvalidValue lib s.value with
    | false => rfl
    | true => exact absurd ((isInvalidValue_iff lib s.value).mp hv) h
  unfold accumulateSample isValidValue sampleContribution
  simp only [hinv, Bool.not_false, if_true]
  split <;> rfl

theorem accumulateSample_isSome (lib : Lib) (width height : Int) (buffer : Image) (s : Sample)
    (hr : buffer.inRange s.imageX s.imageY = true) :
    (accumulateSample lib width height buffer s).isSome = true := by
  by_cases h : ∃ ch ∈ s.value.channels, invalidChannel lib ch = true
  · rw [accumulateSample_invalid lib width height buffer s h]
    rfl
  · obtain ⟨b1, hb, _⟩ := Image.addAt?_inRange buffer _ _ (sampleContribution width height s) hr
    rw [accumulateSample_valid lib width height buffer s h, hb]
    rfl

/-- C6: accumulating one sample into a worker's framebuffer. A sample whose value has a
NaN channel, a negative channel or a channel greater than `INFTY` leaves the framebuffer
unchanged; any other sample whose target pixel lies in the framebuffer adds its value
(divided by `width * height` when `startFromPixel` is false) to exactly the target pixel
`(imageX, imageY)` and leaves every other pixel and the size unchanged. -/
theorem accumulateSample_effect (lib : Lib) (width height : Int) (buffer : Image) (s : Sample) :
    ((∃ ch ∈ s.value.channels, invalidChannel lib ch = true) →
        accumulateSample lib width height buffer s = some buffer) ∧
      ((¬ ∃ ch ∈ s.value.channels, invalidChannel lib ch = true) →
        buffer.inRange s.imageX s.imageY = true →
        ∃ buffer1, accumulateSample lib width height buffer s = some buffer1 ∧
          buffer1.width = buffer.width ∧ buffer1.height = buffer.height ∧
          buffer1.data s.imageX s.imageY =
            buffer.data s.imageX s.imageY + sampleContribution width height s ∧
          ∀ u v, ¬ (u = s.imageX ∧ v = s.imageY) → buffer1.data u v = buffer.data u v) := by
  constructor
  · exact accumulateSample_invalid lib width height buffer s
  · intro h hr
    rw [accumulateSample_valid lib width height buffer s h]
    exact Image.addAt?_inRange buffer _ _ _ hr

/-- A finite colour with one NaN channel is dropped, a valid one is added to its pixel
of a black 2 x 2 framebuffer. -/
theorem accumulateSample_effect_witness :
    accumulateSample unitLib 2 2 (Image.create 2 2) ⟨1, 0, ⟨1, Double.nan, 1⟩, true⟩ =
        some (Image.create 2 2) ∧
      ∃ buffer1, accumulateSample unitLib 2 2 (Image.create 2 2) ⟨1, 0, ⟨1, 1, 1⟩, false⟩ =
          some buffer1 ∧
        buffer1.data 1 0 = Color.black + (⟨1, 1, 1⟩ : Color).divide (Double.fin 2 * Double.fin 2) ∧
        buffer1.data 0 0 = Color.black := by
  refine ⟨(accumulateSample_effect unitLib 2 2 (Image.create 2 2)
      ⟨1, 0, ⟨1, Double.nan, 1⟩, true⟩).1 ⟨Double.nan, by simp [Color.channels], rfl⟩, ?_⟩
  obtain ⟨b1, h1, _, _, h2, h3⟩ := (accumulateSample_effect unitLib 2 2 (Image.create 2 2)
    ⟨1, 0, ⟨1, 1, 1⟩, false⟩).2 (by decide) (by decide)
  exact ⟨b1, h1, h2, h3 0 0 (by decide)⟩


/-! ## Target pixels of the samples -/

theorem clampPixel_range (v size : Int) (h : 1 ≤ size) :
    0 ≤ clampPixel v size ∧ clampPixel v size < size := by
  unfold clampPixel
  split_ifs <;> omega

theorem clampPixel_id (v size : Int) (h0 : 0 ≤ v) (h1 : v < size) : clampPixel v size = v := by
  unfold clampPixel
  split_ifs <;> omega

theorem lightTraceBounce_returned (lib : Lib) (scene : Scene) (camera : DoFCamera)
    (st st1 : TraceState) (r : TraceResult)
    (h : lightTraceBounce lib scene camera st = BounceOutcome.returned r st1) :
    (∃ u, r.imageX = clampPixel u camera.imageW) ∧ ∃ v, r.imageY = clampPixel v camera.imageH := by
  unfold lightTraceBounce at h
  simp only [] at h
  split at h
  · injection h with h1 h2
    subst h1
    exact ⟨⟨_, rfl⟩, ⟨_, rfl⟩⟩
  · split at h
    · cases h
    · split at h <;> cases h

theorem lightTraceLoop_result (lib : Lib) (scene : Scene) (camera : DoFCamera) :
    ∀ (n : Nat) (st : TraceState),
      (lightTraceLoop lib scene camera n st).1.hitObjType = HitObjectType.HIT_ON_LENS →
      (∃ u, (lightTraceLoop lib scene camera n st).1.imageX = clampPixel u camera.imageW) ∧
        ∃ v, (lightTraceLoop lib scene camera n st).1.imageY = clampPixel v camera.imageH := by
  intro n
  induction n with
  | zero =>
      intro st h
      simp [lightTraceLoop] at h
  | succ n ih =>
      intro st h
      unfold lightTraceLoop at h ⊢
      cases hb : lightTraceBounce lib scene camera st with
      | returned r st1 =>
          simp only [hb]
          exact lightTraceBounce_returned lib scene camera st st1 r hb
      | stopped st1 =>
          rw [hb] at h
          simp at h
      | continued st1 =>
          rw [hb] at h
          simp only [hb]
          exact ih st1 h

theorem lightTrace_result (lib : Lib) (scene : Scene) (camera : DoFCamera) (rstk : Stack)
    (vertices : List Vertex) (bounceLimit : Nat)
    (h : (lightTrace lib scene camera rstk vertices bounceLimit).1.hitObjType =
      HitObjectType.HIT_ON_LENS) :
    (∃ u, (lightTrace lib scene camera rstk vertices bounceLimit).1.imageX =
        clampPixel u camera.imageW) ∧
      ∃ v, (lightTrace lib scene camera rstk vertices bounceLimit).1.imageY =
        clampPixel v camera.imageH := by
  unfold lightTrace at h ⊢
  exact lightTraceLoop_result lib scene camera _ _ h

theorem Image.inRange_iff (img : Image) (x y : Int) :
    img.inRange x y = true ↔ 0 ≤ x ∧ x < img.width ∧ 0 ≤ y ∧ y < img.height := by
  unfold Image.inRange
  simp only [Bool.and_eq_true, decide_eq_true_eq]
  tauto

/-- C7: for an image of width `W >= 1` and height `H >= 1` and a requested pixel
`0 <= x < W`, `0 <= y < H`, every sample returned by `executeBPT` (direct eye hit,
direct lens hit and every connection) has a target pixel with `0 <= imageX < W` and
`0 <= imageY < H`, so adding it to a framebuffer of that size never fails; a raster
coordinate already inside the image is left unchanged by the clamp. -/
theorem executeBPT_samples_in_image (lib : Lib) (scene : Scene) (camera : DoFCamera)
    (rstk : Stack) (x y : Int) (bounceLimit : Nat)
    (hW : 1 ≤ camera.imageW) (hH : 1 ≤ camera.imageH)
    (hx0 : 0 ≤ x) (hx1 : x < camera.imageW) (hy0 : 0 ≤ y) (hy1 : y < camera.imageH) :
    (∀ s ∈ executeBPT lib scene camera rstk x y bounceLimit,
        (0 ≤ s.imageX ∧ s.imageX < camera.imageW ∧ 0 ≤ s.imageY ∧ s.imageY < camera.imageH) ∧
        ∀ buffer : Image, buffer.width = camera.imageW → buffer.height = camera.imageH →
          (accumulateSample lib camera.imageW camera.imageH buffer s).isSome = true) ∧
      (∀ v : Int, 0 ≤ v → v < camera.imageW → clampPixel v camera.imageW = v) ∧
      ∀ v : Int, 0 ≤ v → v < camera.imageH → clampPixel v camera.imageH = v := by
  have hrange : ∀ s ∈ executeBPT lib scene camera rstk x y bounceLimit,
      0 ≤ s.imageX ∧ s.imageX < camera.imageW ∧ 0 ≤ s.imageY ∧ s.imageY < camera.imageH := by
    intro s hs
    unfold executeBPT at hs
    simp only [List.mem_append] at hs
    rcases hs with (hs | hs) | hs
    · split at hs
      · rw [List.mem_singleton] at hs
        subst hs
        exact ⟨hx0, hx1, hy0, hy1⟩
      · simp at hs
    · split at hs
      · rename_i hlens
        rw [List.mem_singleton] at hs
        subst hs
        obtain ⟨⟨u, hu⟩, ⟨v, hv⟩⟩ := lightTrace_result lib scene camera _ _ _ hlens
        simp only [hu, hv]
        exact ⟨(clampPixel_range u _ hW).1, (clampPixel_range u _ hW).2,
          (clampPixel_range v _ hH).1, (clampPixel_range v _ hH).2⟩
      · simp at hs
    · unfold connectAll at hs
      rw [List.mem_flatMap] at hs
      obtain ⟨eyeVertId, _, hs⟩ := hs
      rw [List.mem_filterMap] at hs
      obtain ⟨lightVertId, _, hcv⟩ := hs
      rcases (connectVertices_some lib scene camera x y _ _ eyeVertId lightVertId s hcv).1 with
        ⟨_, h1, h2⟩ | ⟨_, ⟨u, hu⟩, ⟨v, hv⟩⟩
      · rw [h1, h2]
        exact ⟨hx0, hx1, hy0, hy1⟩
      · rw [hu, hv]
        exact ⟨(clampPixel_range u _ hW).1, (clampPixel_range u _ hW).2,
          (clampPixel_range v _ hH).1, (clampPixel_range v _ hH).2⟩
  refine ⟨fun s hs => ⟨hrange s hs, fun buffer hw hh => ?_⟩,
    fun v h0 h1 => clampPixel_id v _ h0 h1, fun v h0 h1 => clampPixel_id v _ h0 h1⟩
  apply accumulateSample_isSome
  rw [Image.inRange_iff, hw, hh]
  exact hrange s hs


/-! ## Row partition of the render loop -/

theorem wrapInt_of_range (z : Int) (h0 : -2 ^ 31 ≤ z) (h1 : z < 2 ^ 31) : wrapInt z = z := by
  unfold wrapInt
  norm_num at h0 h1 ⊢
  omega

theorem taskPerThread_eq (height kNumThreads : Nat) (hN : 1 ≤ kNumThreads)
    (hrange : height + kNumThreads < 2 ^ 31) :
    taskPerThread height kNumThreads = (((height + kNumThreads - 1) / kNumThreads : Nat) : Int) := by
  unfold taskPerThread
  have h2 : (2 : Int) ^ 31 = 2147483648 := by norm_num
  have h3 : (2 : Nat) ^ 31 = 2147483648 := by norm_num
  rw [h3] at hrange
  rw [wrapInt_of_range ((height : Int) + (kNumThreads : Int)) (by rw [h2]; omega)
    (by rw [h2]; omega)]
  rw [wrapInt_of_range _ (by rw [h2]; omega) (by rw [h2]; omega)]
  rw [Int.tdiv_eq_ediv (by omega) (by omega)]
  have : ((height : Int) + (kNumThreads : Int) - 1) = ((height + kNumThreads - 1 : Nat) : Int) := by
    omega
  rw [this]
  norm_cast

theorem distributeTasks_eq_filter (kNumThreads : Nat) :
    ∀ (height threadID : Nat), distributeTasks height kNumThreads threadID =
      (List.range height).filter (fun y => y % kNumThreads = threadID) := by
  intro height
  induction height with
  | zero => intro threadID; rfl
  | succ h ih =>
      intro threadID
      unfold distributeTasks at ih ⊢
      rw [List.range_succ, List.foldl_append, List.filter_append]
      simp only [List.foldl_cons, List.foldl_nil]
      by_cases ht : h % kNumThreads = threadID
      · subst ht
        rw [Function.update_same, ih]
        simp
      · rw [Function.update_noteq (Ne.symm ht), ih]
        simp [ht]

theorem filter_mod_getElem? (N thread : Nat) (hthread : thread < N) :
    ∀ (H t : Nat), ((List.range H).filter (fun y => y % N = thread))[t]? =
      if thread + t * N < H then some (thread + t * N) else none := by
  have hmod : ∀ t, (thread + t * N) % N = thread := fun t => by
    rw [Nat.add_mul_mod_self_right, Nat.mod_eq_of_lt hthread]
  intro H
  induction H with
  | zero => intro t; simp
  | succ H ih =>
      intro t
      rw [List.range_succ, List.filter_append]
      by_cases hH : H % N = thread
      · have hHq : thread + (H / N) * N = H := by
          have := Nat.div_add_mod H N
          rw [hH] at this
          rw [Nat.mul_comm] at this
          omega
        have hlen : ((List.range H).filter (fun y => y % N = thread)).length = H / N := by
          apply le_antisymm
          · apply List.getElem?_eq_none_iff.mp
            rw [ih, if_neg (by omega)]
          · by_contra hlt
            have hlt : ((List.range H).filter (fun y => y % N = thread)).length < H / N :=
              Nat.lt_of_not_le hlt
            have h1 := ih ((List.range H).filter (fun y => y % N = thread)).length
            rw [List.getElem?_eq_none_iff.mpr (le_refl _)] at h1
            have hmul : ((List.range H).filter (fun y => y % N = thread)).length * N + N
                ≤ (H / N) * N := by
              have := Nat.mul_le_mul_right N (Nat.succ_le_of_lt hlt)
              rw [Nat.succ_mul] at this
              exact this
            rw [if_pos (by omega)] at h1
            exact absurd h1 (by simp)
        simp only [List.filter_cons, List.filter_nil, hH, decide_True, if_true]
        rw [List.getElem?_append, hlen]
        by_cases ht : t < H / N
        · have hmul : t * N + N ≤ (H / N) * N := by
            have := Nat.mul_le_mul_right N (Nat.succ_le_of_lt ht)
            rw [Nat.succ_mul] at this
            exact this
          rw [if_pos ht, ih, if_pos (by omega), if_pos (by omega)]
        · rw [if_neg ht]
          by_cases hte : t = H / N
          · subst hte
            rw [Nat.sub_self, if_pos (by omega)]
            simp [hHq]
          · have hgt : H / N < t := by omega
            have hmul : (H / N) * N + N ≤ t * N := by
              have := Nat.mul_le_mul_right N (Nat.succ_le_of_lt hgt)
              rw [Nat.succ_mul] at this
              exact this
            rw [if_neg (by omega)]
            have : t - H / N = (t - H / N - 1) + 1 := by omega
            rw [this]
            simp
      · simp only [List.filter_cons, List.filter_nil, hH, decide_False, if_false, Bool.false_eq_true,
          List.append_nil]
        rw [ih]
        have hne : thread + t * N ≠ H := by
          intro h
          apply hH
          rw [← h, hmod]
        by_cases hlt : thread + t * N < H
        · rw [if_pos hlt, if_pos (by omega)]
        · rw [if_neg hlt, if_neg (by omega)]

theorem task_lookup (l : List Nat) (threadID t : Nat) :
    (if t < l.length then some (threadID, l.getD t 0) else none) =
      (l[t]?).map (fun y => (threadID, y)) := by
  by_cases h : t < l.length
  · rw [if_pos h, List.getD_eq_getElem _ _ h, List.getElem?_eq_getElem h]
    rfl
  · rw [if_neg h, List.getElem?_eq_none_iff.mpr (Nat.le_of_not_lt h)]
    rfl

/-- The rows one batch `t` of the pass hands to the workers. -/
theorem passRows_batch (height kNumThreads t : Nat) :
    ∀ l : List Nat, (∀ threadID ∈ l, threadID < kNumThreads) →
      l.filterMap (fun threadID =>
        if t < (distributeTasks height kNumThreads threadID).length then
          some (threadID, (distributeTasks height kNumThreads threadID).getD t 0)
        else none) =
      ((l.map (fun threadID => t * kNumThreads + threadID)).filter (fun y => y < height)).map
        (fun y => (y % kNumThreads, y)) := by
  intro l
  induction l with
  | nil => intro _; rfl
  | cons a rest ih =>
      intro hl
      have ha : a < kNumThreads := hl a (List.mem_cons_self a rest)
      have hrest := ih (fun x hx => hl x (List.mem_cons_of_mem a hx))
      rw [List.filterMap_cons, task_lookup, distributeTasks_eq_filter,
        filter_mod_getElem? kNumThreads a ha height t, hrest, List.map_cons, List.filter_cons]
      have hmod : (t * kNumThreads + a) % kNumThreads = a := by
        rw [Nat.add_comm, Nat.add_mul_mod_self_right, Nat.mod_eq_of_lt ha]
      by_cases hlt : a + t * kNumThreads < height
      · have hlt2 : t * kNumThreads + a < height := by omega
        simp only [if_pos hlt, hlt2, decide_True, if_true, Option.map_some', List.map_cons, hmod]
        rw [Nat.add_comm a]
      · have hlt2 : ¬ t * kNumThreads + a < height := by omega
        simp only [if_neg hlt, hlt2, decide_False, Option.map_none', Bool.false_eq_true, if_false]

theorem filter_lt_range (H M : Nat) (h : H ≤ M) :
    (List.range M).filter (fun y => y < H) = List.range H := by
  obtain ⟨d, rfl⟩ := Nat.exists_eq_add_of_le h
  rw [List.range_add, List.filter_append]
  have h1 : (List.range H).filter (fun y => decide (y < H)) = List.range H :=
    List.filter_eq_self.mpr (fun y hy => by simpa using List.mem_range.mp hy)
  have h2 : ((List.range d).map (fun x => H + x)).filter (fun y => decide (y < H)) = [] :=
    List.filter_eq_nil_iff.mpr (fun y hy => by
      obtain ⟨x, _, rfl⟩ := List.mem_map.mp hy
      simp)
  rw [h1, h2, List.append_nil]

theorem passRows_batches (height kNumThreads : Nat) :
    ∀ T : Nat,
      ((List.range T).flatMap fun t =>
        (List.range kNumThreads).filterMap fun threadID =>
          if t < (distributeTasks height kNumThreads threadID).length then
            some (threadID, (distributeTasks height kNumThreads threadID).getD t 0)
          else none) =
      ((List.range (T * kNumThreads)).filter (fun y => y < height)).map
        (fun y => (y % kNumThreads, y)) := by
  intro T
  induction T with
  | zero => simp
  | succ T ih =>
      rw [List.range_succ, List.flatMap_append, ih, Nat.succ_mul, List.range_add,
        List.filter_append, List.map_append]
      congr 1
      simp only [List.flatMap_cons, List.flatMap_nil, List.append_nil]
      exact passRows_batch height kNumThreads T (List.range kNumThreads)
        (fun x hx => List.mem_range.mp hx)

theorem taskPerThread_mul (height kNumThreads : Nat) (hN : 1 ≤ kNumThreads) :
    height ≤ (height + kNumThreads - 1) / kNumThreads * kNumThreads ∧
      (height + kNumThreads - 1) / kNumThreads * kNumThreads < height + kNumThreads := by
  have h1 := Nat.div_add_mod (height + kNumThreads - 1) kNumThreads
  have h2 := Nat.mod_lt (height + kNumThreads - 1) (Nat.lt_of_lt_of_le Nat.zero_lt_one hN)
  rw [Nat.mul_comm] at h1
  constructor <;> omega

theorem distributeTasks_length_le (height kNumThreads threadID T : Nat)
    (hT : height ≤ T * kNumThreads) :
    (distributeTasks height kNumThreads threadID).length ≤ T := by
  rw [distributeTasks_eq_filter]
  by_cases ht : threadID < kNumThreads
  · apply List.getElem?_eq_none_iff.mp
    rw [filter_mod_getElem? kNumThreads threadID ht, if_neg (by omega)]
  · have : (List.range height).filter (fun y => y % kNumThreads = threadID) = [] := by
      apply List.filter_eq_nil_iff.mpr
      intro y hy
      have hylt := List.mem_range.mp hy
      have hk : 0 < kNumThreads ∨ kNumThreads = 0 := by omega
      rcases hk with hk | hk
      · have := Nat.mod_lt y hk
        simp only [decide_eq_true_eq]
        omega
      · subst hk
        rw [Nat.mul_zero] at hT
        omega
    rw [this]
    exact Nat.zero_le T

/-- C8: row partition of the render loop. For a height `H >= 0` and a worker count
`N >= 1` (with `H + N` in the range of `int`), row `y` is in the task list of worker
`y mod N` and of no other, each task list is in increasing row order and has at most
`taskPerThread` entries, `taskPerThread` being the ceiling of `H / N` (the least `T`
with `H <= T * N`), and the loops over `t < taskPerThread` and all workers process the
rows `0 .. H - 1` exactly once per pass, row `y` on worker `y mod N`. -/
theorem render_row_partition (height kNumThreads : Nat) (hN : 1 ≤ kNumThreads)
    (hrange : height + kNumThreads < 2 ^ 31) :
    (∀ threadID y : Nat, y ∈ distributeTasks height kNumThreads threadID ↔
        y < height ∧ threadID = y % kNumThreads) ∧
      (∀ threadID : Nat, (distributeTasks height kNumThreads threadID).Pairwise (· < ·)) ∧
      (∃ T : Nat, taskPerThread height kNumThreads = (T : Int) ∧
        height ≤ T * kNumThreads ∧ T * kNumThreads < height + kNumThreads ∧
        ∀ threadID : Nat, (distributeTasks height kNumThreads threadID).length ≤ T) ∧
      passRows height kNumThreads = (List.range height).map (fun y => (y % kNumThreads, y)) := by
  have hT := taskPerThread_eq height kNumThreads hN hrange
  have hmul := taskPerThread_mul height kNumThreads hN
  refine ⟨?_, ?_, ⟨(height + kNumThreads - 1) / kNumThreads, hT, hmul.1, hmul.2, ?_⟩, ?_⟩
  · intro threadID y
    rw [distributeTasks_eq_filter, List.mem_filter, List.mem_range, decide_eq_true_eq]
    constructor
    · exact fun h => ⟨h.1, h.2.symm⟩
    · exact fun h => ⟨h.1, h.2.symm⟩
  · intro threadID
    rw [distributeTasks_eq_filter]
    exact List.Pairwise.sublist (List.filter_sublist _) (List.pairwise_lt_range _)
  · intro threadID
    exact distributeTasks_length_le height kNumThreads threadID _ hmul.1
  · unfold passRows
    rw [hT, Int.toNat_ofNat, passRows_batches, filter_lt_range height _ hmul.1]

theorem render_row_partition_witness :
    (∀ threadID y : Nat, y ∈ distributeTasks 5 2 threadID ↔ y < 5 ∧ threadID = y % 2) ∧
      (∀ threadID : Nat, (distributeTasks 5 2 threadID).Pairwise (· < ·)) ∧
      (∃ T : Nat, taskPerThread 5 2 = (T : Int) ∧ 5 ≤ T * 2 ∧ T * 2 < 5 + 2 ∧
        ∀ threadID : Nat, (distributeTasks 5 2 threadID).length ≤ T) ∧
      passRows 5 2 = (List.range 5).map (fun y => (y % 2, y)) :=
  render_row_partition 5 2 (by decide) (by norm_num)


/-! ## Progressive merge -/

theorem Image.addAt?_eq (img : Image) (x y : Int) (c : Color) (h : img.inRange x y = true) :
    img.addAt? x y c =
      some { img with data := fun u v => if u = x ∧ v = y then img.data u v + c else img.data u v } := by
  unfold Image.addAt?
  rw [if_pos h]

theorem Image.at?_eq (img : Image) (x y : Int) (h : img.inRange x y = true) :
    img.at? x y = some (img.data x y) := by
  unfold Image.at?
  rw [if_pos h]

theorem Image.inRange_of (img : Image) (x y : Int) (h0 : 0 ≤ x) (h1 : x < img.width)
    (h2 : 0 ≤ y) (h3 : y < img.height) : img.inRange x y = true := by
  unfold Image.inRange
  simp [h0, h1, h2, h3]

theorem mergeColumns (width height : Nat) (d : Double) (bufferK : Image)
    (hbw : bufferK.width = width) (hbh : bufferK.height = height) (y : Nat) (hy : y < height)
    (acc : Image) (haw : acc.width = width) (hah : acc.height = height) :
    ∀ m : Nat, m ≤ width →
      (List.range m).foldlM
          (fun (acc2 : Image) (x : Nat) =>
            match bufferK.at? (x : Int) (y : Int) with
            | none => none
            | some c => acc2.addAt? ((width : Int) - (x : Int) - 1) (y : Int) (c.divide d))
          acc = some (colForm width d bufferK y m acc) := by
  intro m
  induction m with
  | zero =>
      intro _
      simp only [List.range_zero, List.foldlM_nil]
      show some acc = some (colForm width d bufferK y 0 acc)
      congr 1
      unfold colForm
      cases acc with
      | mk w h dat =>
          simp only [Image.mk.injEq, true_and]
          funext u v
          rw [if_neg]
          intro hc
          omega
  | succ m ih =>
      intro hm
      rw [List.range_succ, List.foldlM_append, ih (by omega)]
      simp only [List.foldlM_cons, List.foldlM_nil, Option.bind_eq_bind, Option.some_bind]
      have hin1 : bufferK.inRange (m : Int) (y : Int) = true :=
        Image.inRange_of _ _ _ (by omega) (by omega) (by omega) (by omega)
      have hin2 : (colForm width d bufferK y m acc).inRange ((width : Int) - (m : Int) - 1)
          (y : Int) = true :=
        Image.inRange_of _ _ _ (by omega) (by show (width : Int) - m - 1 < acc.width; omega)
          (by omega) (by show (y : Int) < acc.height; omega)
      rw [Image.at?_eq bufferK _ _ hin1]
      simp only []
      rw [Image.addAt?_eq _ _ _ _ hin2]
      simp only [Option.bind_some, Option.pure_def]
      congr 1
      unfold colForm
      simp only [Image.mk.injEq, true_and]
      funext u v
      by_cases h1 : u = (width : Int) - (m : Int) - 1 ∧ v = (y : Int)
      · obtain ⟨hu, hv⟩ := h1
        subst hu hv
        rw [if_pos ⟨rfl, rfl⟩, if_neg (by omega), if_pos ⟨rfl, by push_cast; omega, by omega⟩]
        congr 3
        omega
      · rw [if_neg h1]
        by_cases h2 : v = (y : Int) ∧ (width : Int) - (m : Int) ≤ u ∧ u < (width : Int)
        · rw [if_pos h2, if_pos ⟨h2.1, by push_cast; omega, h2.2.2⟩]
        · rw [if_neg h2, if_neg]
          intro hc
          apply h2
          refine ⟨hc.1, ?_, hc.2.2⟩
          have := hc.2.1
          push_cast at this
          by_contra hlt
          apply h1
          exact ⟨by omega, hc.1⟩

theorem mergeRows (width height : Nat) (d : Double) (bufferK : Image)
    (hbw : bufferK.width = width) (hbh : bufferK.height = height)
    (acc : Image) (haw : acc.width = width) (hah : acc.height = height) :
    ∀ m : Nat, m ≤ height →
      (List.range m).foldlM
          (fun (acc1 : Image) (y : Nat) =>
            (List.range width).foldlM
              (fun (acc2 : Image) (x : Nat) =>
                match bufferK.at? (x : Int) (y : Int) with
                | none => none
                | some c => acc2.addAt? ((width : Int) - (x : Int) - 1) (y : Int) (c.divide d))
              acc1)
          acc = some (rowForm width d bufferK m acc) := by
  intro m
  induction m with
  | zero =>
      intro _
      simp only [List.range_zero, List.foldlM_nil]
      show some acc = some (rowForm width d bufferK 0 acc)
      congr 1
      unfold rowForm
      cases acc with
      | mk w h dat =>
          simp only [Image.mk.injEq, true_and]
          funext u v
          rw [if_neg]
          intro hc
          have := hc.2.1
          push_cast at this
          omega
  | succ m ih =>
      intro hm
      rw [List.range_succ, List.foldlM_append, ih (by omega)]
      simp only [List.foldlM_cons, List.foldlM_nil, Option.bind_eq_bind, Option.some_bind]
      rw [mergeColumns width height d bufferK hbw hbh m (by omega) (rowForm width d bufferK m acc)
        haw hah width (le_refl width)]
      simp only [Option.bind_some, Option.pure_def]
      congr 1
      unfold colForm rowForm
      simp only [Image.mk.injEq, true_and]
      funext u v
      by_cases h1 : v = (m : Int) ∧ (width : Int) - (width : Int) ≤ u ∧ u < (width : Int)
      · rw [if_pos h1, if_neg (by omega), if_pos ⟨by omega, by push_cast; omega, by omega, h1.2.2⟩]
      · rw [if_neg h1]
        by_cases h2 : 0 ≤ v ∧ v < (m : Int) ∧ 0 ≤ u ∧ u < (width : Int)
        · rw [if_pos h2, if_pos ⟨h2.1, by push_cast; omega, h2.2.2⟩]
        · rw [if_neg h2, if_neg]
          intro hc
          have := hc.2.1
          push_cast at this
          by_cases hvm : v = (m : Int)
          · exact h1 ⟨hvm, by omega, hc.2.2.2⟩
          · exact h2 ⟨hc.1, by omega, hc.2.2⟩

theorem mergeWorkers (width height : Nat) (d : Double) :
    ∀ (buffer : List Image) (acc : Image),
      (∀ b ∈ buffer, b.width = width ∧ b.height = height) →
      acc.width = width → acc.height = height →
      ∃ r, buffer.foldlM
          (fun (acc0 : Image) (bufferK : Image) =>
            (List.range height).foldlM
              (fun (acc1 : Image) (y : Nat) =>
                (List.range width).foldlM
                  (fun (acc2 : Image) (x : Nat) =>
                    match bufferK.at? (x : Int) (y : Int) with
                    | none => none
                    | some c =>
                        acc2.addAt? ((width : Int) - (x : Int) - 1) (y : Int) (c.divide d))
                  acc1)
              acc0)
          acc = some r ∧
        r.width = width ∧ r.height = height ∧
        ∀ u v : Int, 0 ≤ u → u < width → 0 ≤ v → v < height →
          r.data u v =
            buffer.foldl (fun c b => c + (b.data ((width : Int) - 1 - u) v).divide d)
              (acc.data u v) := by
  intro buffer
  induction buffer with
  | nil =>
      intro acc _ haw hah
      exact ⟨acc, rfl, haw, hah, fun u v _ _ _ _ => rfl⟩
  | cons b rest ih =>
      intro acc hb haw hah
      have hb0 := hb b (List.mem_cons_self b rest)
      obtain ⟨r, hr, hrw, hrh, hrd⟩ := ih (rowForm width d b height acc)
        (fun x hx => hb x (List.mem_cons_of_mem b hx)) haw hah
      refine ⟨r, ?_, hrw, hrh, ?_⟩
      · rw [List.foldlM_cons, mergeRows width height d b hb0.1 hb0.2 acc haw hah height
          (le_refl height)]
        exact hr
      · intro u v hu0 hu1 hv0 hv1
        rw [hrd u v hu0 hu1 hv0 hv1, List.foldl_cons]
        congr 1
        unfold rowForm
        simp only []
        rw [if_pos ⟨hv0, hv1, hu0, hu1⟩]

theorem Color.add_divide (a b : Color) {d : ℚ} (hd : 0 < d) :
    (a + b).divide (Double.fin d) = a.divide (Double.fin d) + b.divide (Double.fin d) := by
  show Color.divide (Color.add a b) _ = Color.add (Color.divide a _) (Color.divide b _)
  unfold Color.divide Color.add
  simp only [Double.add_div_fin _ _ hd]

theorem Color.black_divide {d : ℚ} (hd : d ≠ 0) :
    Color.black.divide (Double.fin d) = Color.black := by
  unfold Color.divide Color.black
  simp only [Double.zero_div_fin hd]

theorem foldl_divide (g : Image → Color) {d : ℚ} (hd : 0 < d) (buffer : List Image) :
    ∀ acc : Color,
      buffer.foldl (fun c b => c + (g b).divide (Double.fin d)) (acc.divide (Double.fin d)) =
        (buffer.foldl (fun c b => c + g b) acc).divide (Double.fin d) := by
  induction buffer with
  | nil => intro acc; rfl
  | cons b rest ih =>
      intro acc
      rw [List.foldl_cons, List.foldl_cons, ← Color.add_divide _ _ hd]
      exact ih _

/-- The merge of one pass: it succeeds, and the merged image holds at the mirrored
column the sum over the workers divided by the number of passes. -/
theorem mergeBuffers_spec (width height s : Nat) (buffer : List Image) (result : Image)
    (hb : ∀ b ∈ buffer, b.width = width ∧ b.height = height)
    (hrw : result.width = width) (hrh : result.height = height) :
    ∃ r, mergeBuffers width height s buffer result = some r ∧
      ∀ x y : Nat, x < width → y < height →
        r.data ((width : Int) - (x : Int) - 1) (y : Int) = workerSum buffer s x y := by
  have hd : (0 : ℚ) < (s : ℚ) + 1 := by positivity
  obtain ⟨r, hr, _, _, hrd⟩ := mergeWorkers width height (Double.fin ((s : ℚ) + 1)) buffer
    (result.fill Color.black) hb hrw hrh
  refine ⟨r, hr, ?_⟩
  intro x y hx hy
  rw [hrd _ _ (by omega) (by omega) (by omega) (by omega)]
  unfold workerSum
  have hx2 : (width : Int) - 1 - ((width : Int) - (x : Int) - 1) = (x : Int) := by omega
  rw [hx2]
  have h := foldl_divide (fun b => b.data (x : Int) (y : Int)) hd buffer Color.black
  rw [Color.black_divide (ne_of_gt hd)] at h
  exact h

/-- C9 (amended): progressive merge. After pass `s` (0-based) and before gamma
correction the merge succeeds on framebuffers of the image size, and for every pixel
`(x, y)` the shared result at the mirrored column `(width - 1 - x, y)` equals the sum
over all workers of their private framebuffer value at `(x, y)` divided by `s + 1`; the
merged image does not depend on the result image of the previous pass. -/
theorem mergeBuffers_mirrored (width height s : Nat) (buffer : List Image) (result : Image)
    (hb : ∀ b ∈ buffer, b.width = width ∧ b.height = height)
    (hrw : result.width = width) (hrh : result.height = height) :
    (∃ r, mergeBuffers width height s buffer result = some r ∧
      ∀ x y : Nat, x < width → y < height →
        r.data ((width : Int) - (x : Int) - 1) (y : Int) = workerSum buffer s x y) ∧
      ∀ previous : Image, previous.width = width → previous.height = height →
        mergeBuffers width height s buffer previous =
          mergeBuffers width height s buffer result := by
  refine ⟨mergeBuffers_spec width height s buffer result hb hrw hrh, ?_⟩
  intro previous hpw hph
  have hfill : previous.fill Color.black = result.fill Color.black := by
    cases previous
    cases result
    simp only [Image.fill, Image.mk.injEq, and_true]
    simp only [] at hpw hph hrw hrh
    exact ⟨hpw.trans hrw.symm, hph.trans hrh.symm⟩
  unfold mergeBuffers
  rw [hfill]

theorem mergeBuffers_mirrored_witness :
    (∃ r, mergeBuffers 2 1 0 [leftWhiteBuffer] (Image.create 2 1) = some r ∧
      ∀ x y : Nat, x < 2 → y < 1 →
        r.data (((2 : Nat) : Int) - (x : Int) - 1) (y : Int) =
          workerSum [leftWhiteBuffer] 0 x y) ∧
      ∀ previous : Image, previous.width = ((2 : Nat) : Int) →
        previous.height = ((1 : Nat) : Int) →
        mergeBuffers 2 1 0 [leftWhiteBuffer] previous =
          mergeBuffers 2 1 0 [leftWhiteBuffer] (Image.create 2 1) :=
  mergeBuffers_mirrored 2 1 0 [leftWhiteBuffer] (Image.create 2 1)
    (by intro b hb; rw [List.mem_singleton] at hb; subst hb; exact ⟨rfl, rfl⟩) rfl rfl

/-- C9 fails as stated: with one worker whose 2 x 1 framebuffer is white at (0, 0) and
black at (1, 0), the merged result of pass 0 at pixel (0, 0) is black, while the sum
over the workers of their value at (0, 0) divided by 1 is white. -/
theorem mergeBuffers_same_pixel_counterexample :
    (mergeBuffers 2 1 0 [leftWhiteBuffer] (Image.create 2 1)).map (fun r => r.data 0 0) =
        some Color.black ∧
      workerSum [leftWhiteBuffer] 0 0 0 = ⟨1, 1, 1⟩ ∧
      (mergeBuffers 2 1 0 [leftWhiteBuffer] (Image.create 2 1)).map (fun r => r.data 0 0) ≠
        some (workerSum [leftWhiteBuffer] 0 0 0) := by
  decide!


/-! ## Discrete BSSRDF -/

theorem Double.lt_of_le_lt {a b c : Double} (h1 : Double.le a b = true)
    (h2 : Double.lt b c = true) : Double.lt a c = true := by
  cases a <;> cases b <;> cases c <;> simp [Double.le, Double.lt] at h1 h2 ⊢
  exact h1.trans_lt h2

theorem Double.le_of_not_lt {a b : Double} (ha : a.isnan = false) (hb : b.isnan = false)
    (h : Double.lt a b = false) : Double.le b a = true := by
  cases a <;> cases b <;> simp [Double.le, Double.lt, Double.isnan] at ha hb h ⊢
  exact h

theorem Double.not_lt_of_le {a b : Double} (h : Double.le b a = true) :
    Double.lt a b = false := by
  cases a <;> cases b <;> simp [Double.le, Double.lt] at h ⊢
  exact h

theorem Double.not_isnan_of_le {a b : Double} (h : Double.le a b = true) : a.isnan = false := by
  cases a <;> cases b <;> simp [Double.le, Double.isnan] at h ⊢

/-- The binary search returns the boundary between the entries below `val` and the
others, provided the entries are in ascending order. -/
theorem lowerBoundLoop_spec (xs : List Double) (val : Double)
    (hasc : ∀ i j, i ≤ j → j < xs.length →
      Double.le (xs.getD i default) (xs.getD j default) = true) :
    ∀ (len first : Nat), first + len ≤ xs.length →
      (∀ i, i < first → Double.lt (xs.getD i default) val = true) →
      (∀ i, first + len ≤ i → i < xs.length → Double.lt (xs.getD i default) val = false) →
      first ≤ lowerBoundLoop xs val first len ∧
        lowerBoundLoop xs val first len ≤ first + len ∧
        (∀ i, i < lowerBoundLoop xs val first len → Double.lt (xs.getD i default) val = true) ∧
        (∀ i, lowerBoundLoop xs val first len ≤ i → i < xs.length →
          Double.lt (xs.getD i default) val = false) := by
  intro len
  induction len using Nat.strong_induction_on with
  | _ len ih =>
      intro first hle hlow hhigh
      rw [lowerBoundLoop]
      by_cases hlen : 0 < len
      · rw [if_pos hlen]
        by_cases hmid : Double.lt (xs.getD (first + len / 2) default) val = true
        · rw [if_pos hmid]
          have hrec := ih (len - len / 2 - 1) (by omega) (first + len / 2 + 1) (by omega)
            (by
              intro i hi
              exact Double.lt_of_le_lt (hasc i (first + len / 2) (by omega) (by omega)) hmid)
            (by
              intro i hi1 hi2
              exact hhigh i (by omega) hi2)
          refine ⟨by omega, by omega, hrec.2.2.1, hrec.2.2.2⟩
        · rw [if_neg hmid]
          have hmid2 : Double.lt (xs.getD (first + len / 2) default) val = false := by
            simpa using hmid
          have hrec := ih (len / 2) (by omega) first (by omega) hlow
            (by
              intro i hi1 hi2
              cases hlt : Double.lt (xs.getD i default) val with
              | false => rfl
              | true =>
                  have := Double.lt_of_le_lt (hasc (first + len / 2) i hi1 hi2) hlt
                  rw [hmid2] at this
                  exact absurd this (by simp))
          refine ⟨hrec.1, by omega, hrec.2.2.1, hrec.2.2.2⟩
      · rw [if_neg hlen]
        have : len = 0 := by omega
        subst this
        exact ⟨le_refl _, le_refl _, hlow, hhigh⟩

theorem Double.not_le_of_lt {a b : Double} (h : Double.lt a b = true) :
    Double.le b a = false := by
  cases a <;> cases b <;> simp [Double.le, Double.lt] at h ⊢
  exact h

/-- C10 (amended): discrete profile evaluation. For a non-empty ascending distance table
with a colour table of the same length and every `d2` that is not NaN,
`DiscreteBSSRDF::operator()(d2)` returns black when `d2 < 0` or `d2` is greater than
the last tabulated distance, and otherwise returns `colors[i]` for the least index `i`
with `distances[i] >= d2`, which exists and is in range of both tables. -/
theorem DiscreteBSSRDF.eval_spec (b : DiscreteBSSRDF) (d2 : Double)
    (hne : 0 < b.distances.length) (hlen : b.colors.length = b.distances.length)
    (hasc : ∀ i j, i ≤ j → j < b.distances.length →
      Double.le (b.distances.getD i default) (b.distances.getD j default) = true)
    (hd2 : d2.isnan = false) :
    ((d2.lt 0 = true ∨
        Double.lt (b.distances.getD (b.distances.length - 1) default) d2 = true) →
      b.eval d2 = some Color.black) ∧
    ((d2.lt 0 = false ∧
        Double.lt (b.distances.getD (b.distances.length - 1) default) d2 = false) →
      ∃ i, i < b.distances.length ∧ i < b.colors.length ∧
        Double.le d2 (b.distances.getD i default) = true ∧
        (∀ j, j < i → Double.le d2 (b.distances.getD j default) = false) ∧
        b.eval d2 = some (b.colors.getD i default)) := by
  have hlast : b.distances.get? (b.distances.length - 1) =
      some (b.distances.getD (b.distances.length - 1) default) := by
    rw [List.get?_eq_getElem?, List.getD_eq_getElem?_getD,
      List.getElem?_eq_getElem (by omega)]
    rfl
  constructor
  · intro h
    unfold DiscreteBSSRDF.eval
    rw [hlast]
    simp only []
    rw [if_pos (by rw [Bool.or_eq_true]; exact h)]
  · intro h
    obtain ⟨h0, h1⟩ := h
    have hspec := lowerBoundLoop_spec b.distances d2 hasc b.distances.length 0 (by omega)
      (fun i hi => absurd hi (Nat.not_lt_zero i)) (fun i hi1 hi2 => by omega)
    rw [Nat.zero_add] at hspec
    obtain ⟨_, hle, hbelow, habove⟩ := hspec
    have hlt : lowerBound b.distances d2 < b.distances.length := by
      by_contra hge
      have heq : lowerBoundLoop b.distances d2 0 b.distances.length = b.distances.length := by
        unfold lowerBound at hge
        omega
      have := hbelow (b.distances.length - 1) (by omega)
      rw [h1] at this
      exact absurd this (by simp)
    refine ⟨lowerBound b.distances d2, hlt, by omega, ?_, ?_, ?_⟩
    · exact Double.le_of_not_lt
        (Double.not_isnan_of_le (hasc _ _ (le_refl _) hlt)) hd2
        (habove _ (le_refl _) hlt)
    · intro j hj
      exact Double.not_le_of_lt (hbelow j hj)
    · unfold DiscreteBSSRDF.eval
      rw [hlast]
      simp only []
      rw [if_neg (by rw [h0, h1]; decide), List.get?_eq_getElem?, List.getD_eq_getElem?_getD,
        List.getElem?_eq_getElem (by omega : lowerBound b.distances d2 < b.colors.length)]
      rfl

/-- The example of the spec: distances 1, 2, 3 with colours `c0`, `c1`, `c2` give `c0`
at 0.5, `c2` at 2.5 and black at 4.0 and at -1.0. -/
theorem DiscreteBSSRDF.eval_example (c0 c1 c2 : Color) :
    (DiscreteBSSRDF.mk [Double.fin 1, Double.fin 2, Double.fin 3] [c0, c1, c2]).eval
        (Double.fin (1 / 2)) = some c0 ∧
      (DiscreteBSSRDF.mk [Double.fin 1, Double.fin 2, Double.fin 3] [c0, c1, c2]).eval
        (Double.fin (5 / 2)) = some c2 ∧
      (DiscreteBSSRDF.mk [Double.fin 1, Double.fin 2, Double.fin 3] [c0, c1, c2]).eval
        (Double.fin 4) = some Color.black ∧
      (DiscreteBSSRDF.mk [Double.fin 1, Double.fin 2, Double.fin 3] [c0, c1, c2]).eval
        (Double.fin (-1)) = some Color.black := by
  have hlb1 : lowerBound [Double.fin 1, Double.fin 2, Double.fin 3] (Double.fin (1 / 2)) = 0 := by
    decide!
  have hlb2 : lowerBound [Double.fin 1, Double.fin 2, Double.fin 3] (Double.fin (5 / 2)) = 2 := by
    decide!
  have h1 : ((Double.fin (1 / 2)).lt 0 || (Double.fin 3).lt (Double.fin (1 / 2))) = false := by
    decide!
  have h2 : ((Double.fin (5 / 2)).lt 0 || (Double.fin 3).lt (Double.fin (5 / 2))) = false := by
    decide!
  have h3 : ((Double.fin 4).lt 0 || (Double.fin 3).lt (Double.fin 4)) = true := by decide!
  have h4 : ((Double.fin (-1)).lt 0 || (Double.fin 3).lt (Double.fin (-1))) = true := by decide!
  refine ⟨?_, ?_, ?_, ?_⟩
  · show (if ((Double.fin (1 / 2)).lt 0 || (Double.fin 3).lt (Double.fin (1 / 2))) = true
        then some Color.black
        else [c0, c1, c2].get? (lowerBound [Double.fin 1, Double.fin 2, Double.fin 3]
          (Double.fin (1 / 2)))) = some c0
    rw [h1, hlb1]
    rfl
  · show (if ((Double.fin (5 / 2)).lt 0 || (Double.fin 3).lt (Double.fin (5 / 2))) = true
        then some Color.black
        else [c0, c1, c2].get? (lowerBound [Double.fin 1, Double.fin 2, Double.fin 3]
          (Double.fin (5 / 2)))) = some c2
    rw [h2, hlb2]
    rfl
  · show (if ((Double.fin 4).lt 0 || (Double.fin 3).lt (Double.fin 4)) = true
        then some Color.black
        else [c0, c1, c2].get? (lowerBound [Double.fin 1, Double.fin 2, Double.fin 3]
          (Double.fin 4))) = some Color.black
    rw [h3]
    rfl
  · show (if ((Double.fin (-1)).lt 0 || (Double.fin 3).lt (Double.fin (-1))) = true
        then some Color.black
        else [c0, c1, c2].get? (lowerBound [Double.fin 1, Double.fin 2, Double.fin 3]
          (Double.fin (-1)))) = some Color.black
    rw [h4]
    rfl


/-- The example profile at 2.5, together with the four evaluations of the example. -/
theorem DiscreteBSSRDF.eval_spec_witness :
    ((((Double.fin (5 / 2)).lt 0 = true ∨
          Double.lt (sampleProfile.distances.getD (sampleProfile.distances.length - 1) default)
            (Double.fin (5 / 2)) = true) →
        sampleProfile.eval (Double.fin (5 / 2)) = some Color.black) ∧
      (((Double.fin (5 / 2)).lt 0 = false ∧
          Double.lt (sampleProfile.distances.getD (sampleProfile.distances.length - 1) default)
            (Double.fin (5 / 2)) = false) →
        ∃ i, i < sampleProfile.distances.length ∧ i < sampleProfile.colors.length ∧
          Double.le (Double.fin (5 / 2)) (sampleProfile.distances.getD i default) = true ∧
          (∀ j, j < i →
            Double.le (Double.fin (5 / 2)) (sampleProfile.distances.getD j default) = false) ∧
          sampleProfile.eval (Double.fin (5 / 2)) =
            some (sampleProfile.colors.getD i default))) ∧
      sampleProfile.eval (Double.fin (1 / 2)) = some ⟨1, 0, 0⟩ ∧
      sampleProfile.eval (Double.fin (5 / 2)) = some ⟨0, 0, 1⟩ ∧
      sampleProfile.eval (Double.fin 4) = some Color.black ∧
      sampleProfile.eval (Double.fin (-1)) = some Color.black :=
  ⟨DiscreteBSSRDF.eval_spec sampleProfile (Double.fin (5 / 2)) (by decide) rfl
    (by
      intro i j hij hj
      have hj3 : j < 3 := hj
      have hi3 : i < 3 := by omega
      interval_cases i <;> interval_cases j <;> decide!)
    rfl, DiscreteBSSRDF.eval_example _ _ _⟩

/-- C10, the claim as stated fails at a NaN argument: for the example profile (distances
1, 2, 3, ascending, three colours) the argument NaN is neither below 0 nor above the last
distance, no index `i` has `distances[i] >= NaN`, and the evaluation returns `colors[0]`
and not black. -/
theorem DiscreteBSSRDF.eval_nan_counterexample :
    0 < sampleProfile.distances.length
    ∧ sampleProfile.colors.length = sampleProfile.distances.length
    ∧ (∀ i j, i ≤ j → j < sampleProfile.distances.length →
        Double.le (sampleProfile.distances.getD i default)
          (sampleProfile.distances.getD j default) = true)
    ∧ Double.lt Double.nan 0 = false
    ∧ Double.lt (sampleProfile.distances.getD (sampleProfile.distances.length - 1) default)
        Double.nan = false
    ∧ (¬ ∃ i, i < sampleProfile.distances.length ∧
        Double.le Double.nan (sampleProfile.distances.getD i default) = true)
    ∧ sampleProfile.eval Double.nan = some ⟨1, 0, 0⟩
    ∧ sampleProfile.eval Double.nan ≠ some Color.black := by
  refine ⟨by decide, rfl, ?_, rfl, rfl, ?_, by decide!, by decide!⟩
  · intro i j hij hj
    have hj3 : j < 3 := hj
    have hi3 : i < 3 := by omega
    interval_cases i <;> interval_cases j <;> decide!
  · rintro ⟨i, hi, hle⟩
    cases h : sampleProfile.distances.getD i default <;> rw [h] at hle <;>
      simp [Double.le] at hle


/-! ## Witness for the target pixels -/

/-- Two samples are produced for pixel (1, 1) of the 2 x 2 image of the example
camera, both inside the image. -/
theorem executeBPT_samples_in_image_witness :
    (executeBPT unitLib unitScene unitCamera (fun _ => 0) 1 1 1).length = 2 ∧
    (∀ s ∈ executeBPT unitLib unitScene unitCamera (fun _ => 0) 1 1 1,
        (0 ≤ s.imageX ∧ s.imageX < 2 ∧ 0 ≤ s.imageY ∧ s.imageY < 2) ∧
        ∀ buffer : Image, buffer.width = 2 → buffer.height = 2 →
          (accumulateSample unitLib 2 2 buffer s).isSome = true) ∧
      (∀ v : Int, 0 ≤ v → v < 2 → clampPixel v 2 = v) ∧
      ∀ v : Int, 0 ≤ v → v < 2 → clampPixel v 2 = v :=
  ⟨by decide!, executeBPT_samples_in_image unitLib unitScene unitCamera (fun _ => 0) 1 1 1
    (by decide) (by decide) (by decide) (by decide) (by decide) (by decide)⟩

/-! ## Construction of a discrete profile -/

theorem msg_assert_true (message : String) : msg_assert true message = Outcome.ok () := rfl

theorem msg_assert_false (message : String) :
    msg_assert false message = Outcome.assertionFailed message := rfl

theorem DiscreteBSSRDF.construct_eq (eta : Double) (distances : List Double)
    (colors : List Color) (h : distances.length = colors.length) :
    DiscreteBSSRDF.construct eta distances colors
      = Outcome.ok (Profile.discrete eta ⟨distances, colors⟩) := by
  have hb : (distances.length == colors.length) = true := by simpa using h
  unfold DiscreteBSSRDF.construct
  rw [hb, msg_assert_true]
  rfl

theorem DiscreteBSSRDF.construct_ne (eta : Double) (distances : List Double)
    (colors : List Color) (h : distances.length ≠ colors.length) :
    DiscreteBSSRDF.construct eta distances colors
      = Outcome.assertionFailed "Arrays for distances and colors must have the same length!!" := by
  have hb : (distances.length == colors.length) = false := by simpa using h
  unfold DiscreteBSSRDF.construct
  rw [hb, msg_assert_false]
  rfl

/-- Claim C11: the constructor of `DiscreteBSSRDF` returns a profile if and only if the
two arrays have the same length; with different lengths it ends in the assertion with
the message on the array lengths, and so does the factory, which then allocates no
handle; every profile that a construction returns holds the two arrays it was given,
of equal length. -/
theorem DiscreteBSSRDF.construct_succeeds_iff (h : Heap) (eta : Double)
    (distances : List Double) (colors : List Color) :
    ((∃ p, DiscreteBSSRDF.construct eta distances colors = Outcome.ok p)
        ↔ distances.length = colors.length)
    ∧ (distances.length ≠ colors.length →
        DiscreteBSSRDF.construct eta distances colors
            = Outcome.assertionFailed
                "Arrays for distances and colors must have the same length!!"
          ∧ DiscreteBSSRDF.factory h eta distances colors
            = Outcome.assertionFailed
                "Arrays for distances and colors must have the same length!!")
    ∧ (∀ p, DiscreteBSSRDF.construct eta distances colors = Outcome.ok p →
        p = Profile.discrete eta ⟨distances, colors⟩
          ∧ distances.length = colors.length) := by
  refine ⟨⟨?_, ?_⟩, ?_, ?_⟩
  · rintro ⟨p, hp⟩
    by_contra hne
    rw [DiscreteBSSRDF.construct_ne eta distances colors hne] at hp
    cases hp
  · intro hlen
    exact ⟨_, DiscreteBSSRDF.construct_eq eta distances colors hlen⟩
  · intro hne
    refine ⟨DiscreteBSSRDF.construct_ne eta distances colors hne, ?_⟩
    unfold DiscreteBSSRDF.factory
    rw [DiscreteBSSRDF.construct_ne eta distances colors hne]
    rfl
  · intro p hp
    by_cases hlen : distances.length = colors.length
    · rw [DiscreteBSSRDF.construct_eq eta distances colors hlen] at hp
      cases hp
      exact ⟨rfl, hlen⟩
    · rw [DiscreteBSSRDF.construct_ne eta distances colors hlen] at hp
      cases hp

/-- Witness for claim C11: two distances with one colour are refused, two distances with
two colours are accepted. -/
theorem DiscreteBSSRDF.construct_succeeds_iff_witness :
    (DiscreteBSSRDF.construct 1 [Double.fin 1, Double.fin 2] [Color.black]
        = Outcome.assertionFailed
            "Arrays for distances and colors must have the same length!!"
      ∧ DiscreteBSSRDF.factory Heap.empty 1 [Double.fin 1, Double.fin 2] [Color.black]
        = Outcome.assertionFailed
            "Arrays for distances and colors must have the same length!!")
    ∧ ∃ p, DiscreteBSSRDF.construct 1 [Double.fin 1, Double.fin 2] [Color.black, Color.black]
        = Outcome.ok p :=
  ⟨(DiscreteBSSRDF.construct_succeeds_iff Heap.empty 1 [Double.fin 1, Double.fin 2]
      [Color.black]).2.1 (by decide),
   (DiscreteBSSRDF.construct_succeeds_iff Heap.empty 1 [Double.fin 1, Double.fin 2]
      [Color.black, Color.black]).1.2 rfl⟩

/-! ## The handle `BSSRDF` -/

theorem BSSRDF.release_null (h : Heap) : BSSRDF.release h BSSRDF.null = Outcome.ok (h, BSSRDF.null) :=
  rfl

theorem BSSRDF.release_nonzero (h : Heap) (b : BSSRDF) (p c : Int)
    (hp : b.numCopies = some p) (hc : h.counters p = some c) (hne : c ≠ 0) :
    BSSRDF.release h b = Outcome.ok (h, ⟨some (p - 1), b.ptr⟩) := by
  unfold BSSRDF.release
  rw [hp]
  simp only [hc, if_neg hne]

theorem BSSRDF.release_zero (h : Heap) (b : BSSRDF) (p a : Int) (obj : Profile)
    (hp : b.numCopies = some p) (hc : h.counters p = some 0) (hptr : b.ptr = some a)
    (hobj : h.profiles a = some obj) :
    BSSRDF.release h b
      = Outcome.ok ({ h with counters := Function.update h.counters p none,
                             profiles := Function.update h.profiles a none,
                             freed := h.freed ++ [a] }, BSSRDF.null) := by
  unfold BSSRDF.release
  rw [hp]
  simp only [hc, if_true, hptr, Heap.deleteProfile, hobj]
  rfl

theorem BSSRDF.assign_of_release (h h1 : Heap) (this t1 source : BSSRDF) (p c : Int)
    (hrel : BSSRDF.release h this = Outcome.ok (h1, t1))
    (hsrc : source.numCopies = some p) (hc : h1.counters p = some c)
    (h0 : 0 ≤ c) (hmax : c + 1 < 2 ^ 31) :
    BSSRDF.assign h this source
      = Outcome.ok ({ h1 with counters := Function.update h1.counters p (some (c + 1)) },
          source) := by
  unfold BSSRDF.assign
  rw [hrel]
  simp only [Outcome.bind, hsrc, hc]
  rw [wrapInt_of_range (c + 1) (by omega) (by omega)]
  cases source
  simp only at hsrc
  subst hsrc
  rfl

theorem BSSRDF.assign_null (h h1 : Heap) (this t1 : BSSRDF)
    (hrel : BSSRDF.release h this = Outcome.ok (h1, t1)) :
    BSSRDF.assign h this BSSRDF.null = Outcome.ok (h1, BSSRDF.null) := by
  unfold BSSRDF.assign
  rw [hrel]
  rfl

/-- Claim C12: when the old value of the destination is released without error and the
counter of a non-null source is live with a count `c` below the largest `int`, the
assignment and the copy construction return a handle equal to the source, with the same
counter and the same profile pointer, and the only change they make to the heap after
the release is to set that counter to `c + 1`; assigning or copying a null handle gives
a null handle and leaves every counter as it was after the release. -/
theorem BSSRDF.copy_assign_shares (h h1 : Heap) (this t1 source : BSSRDF) (p c c1 : Int)
    (hrel : BSSRDF.release h this = Outcome.ok (h1, t1))
    (hsrc : source.numCopies = some p)
    (hc : h.counters p = some c) (h0 : 0 ≤ c) (hmax : c + 1 < 2 ^ 31)
    (hc1 : h1.counters p = some c1) (h01 : 0 ≤ c1) (hmax1 : c1 + 1 < 2 ^ 31) :
    BSSRDF.copy h source
        = Outcome.ok ({ h with counters := Function.update h.counters p (some (c + 1)) },
            source)
    ∧ BSSRDF.assign h this source
        = Outcome.ok ({ h1 with counters := Function.update h1.counters p (some (c1 + 1)) },
            source)
    ∧ BSSRDF.copy h BSSRDF.null = Outcome.ok (h, BSSRDF.null)
    ∧ BSSRDF.assign h this BSSRDF.null = Outcome.ok (h1, BSSRDF.null) :=
  ⟨BSSRDF.assign_of_release h h BSSRDF.null BSSRDF.null source p c (BSSRDF.release_null h)
      hsrc hc h0 hmax,
   BSSRDF.assign_of_release h h1 this t1 source p c1 hrel hsrc hc1 h01 hmax1,
   BSSRDF.assign_null h h BSSRDF.null BSSRDF.null (BSSRDF.release_null h),
   BSSRDF.assign_null h h1 this t1 hrel⟩

/-- Witness for claim C12: in a heap with two handles of count 0, the handle of the
second profile is assigned from the handle of the first; its old profile is freed by the
release, and the count of the first counter goes from 0 to 1. -/
theorem BSSRDF.copy_assign_shares_witness :
    BSSRDF.copy twoHeap ⟨some 0, some 0⟩
        = Outcome.ok ({ twoHeap with
            counters := Function.update twoHeap.counters 0 (some (0 + 1)) }, ⟨some 0, some 0⟩)
    ∧ BSSRDF.assign twoHeap ⟨some 1, some 1⟩ ⟨some 0, some 0⟩
        = Outcome.ok ({ twoHeap with
            counters := Function.update (Function.update twoHeap.counters 1 none) 0
              (some (0 + 1))
            profiles := Function.update twoHeap.profiles 1 none
            freed := twoHeap.freed ++ [1] }, ⟨some 0, some 0⟩)
    ∧ BSSRDF.copy twoHeap BSSRDF.null = Outcome.ok (twoHeap, BSSRDF.null)
    ∧ BSSRDF.assign twoHeap ⟨some 1, some 1⟩ BSSRDF.null
        = Outcome.ok ({ twoHeap with
            counters := Function.update twoHeap.counters 1 none
            profiles := Function.update twoHeap.profiles 1 none
            freed := twoHeap.freed ++ [1] }, BSSRDF.null) :=
  BSSRDF.copy_assign_shares twoHeap
    { twoHeap with
        counters := Function.update twoHeap.counters 1 none
        profiles := Function.update twoHeap.profiles 1 none
        freed := twoHeap.freed ++ [1] }
    ⟨some 1, some 1⟩ BSSRDF.null ⟨some 0, some 0⟩ 0 0 0
    (BSSRDF.release_zero twoHeap ⟨some 1, some 1⟩ 1 1 (Profile.discrete 1 sampleProfile)
      rfl rfl rfl rfl)
    rfl rfl (by decide) (by decide) rfl (by decide) (by decide)

/-- Claim C13, the failing input: a handle is created from a raw profile object and
copied once, then both handles are destroyed. No profile object has been freed at the
end, the profile object is still alive and the counter still holds 1: the release of a
handle with a non-zero count does not decrement the count. -/
theorem handleLifecycle_one_copy_frees_nothing :
    (handleLifecycle (Profile.discrete 1 sampleProfile) 1).value?.map Heap.observe
      = some ([], some 1, true) := by
  decide

/-- Without a copy the single handle has count 0 and its destruction frees the profile
object and the counter. -/
theorem handleLifecycle_no_copy :
    (handleLifecycle (Profile.discrete 1 sampleProfile) 0).value?.map Heap.observe
      = some ([0], none, false) := by
  decide

/-- Claim C14: on a default-constructed handle `Ft` and `Fdr` end in the assertion of
`nullCheck`, whereas `operator()` has no null check and goes through the null profile
pointer. -/
theorem BSSRDF.null_handle_entry_points (v : Vector3Lib) (m : Numerics Double) (h : Heap)
    (normal incoming : Vector3D) (dr : Double) :
    BSSRDF.Ft v m h BSSRDF.null normal incoming
        = Outcome.assertionFailed "BSSRDF does not have instance!!"
    ∧ BSSRDF.Fdr m h BSSRDF.null = Outcome.assertionFailed "BSSRDF does not have instance!!"
    ∧ BSSRDF.eval m h BSSRDF.null dr = Outcome.invalidAccess :=
  ⟨rfl, rfl, rfl⟩

/-! ## Russian roulette in the two generators -/

/-- Claim C15, the failing input: a non-emitting surface with reflectance 0 in all
channels (survival probability 0) and the draw 0. `lightTrace` stops at the hit and
records the light vertex only, whereas `pathTrace`, whose test is `rands[0] > q`, goes
on and records the surface vertex with the cumulative density multiplied by 0. -/
theorem pathTrace_records_at_zero_survival :
    rouletteProb unitLib blackScene 0 = Double.fin 0
    ∧ ((lightTrace unitLib blackScene unitCamera (fun _ => 0) [] 1).2.vertices.map
        fun v => (v.objtype, v.totalPdfA)) = [(ObjectType.OBJECT_TYPE_LIGHT, Double.fin 1)]
    ∧ ((pathTrace unitLib blackScene unitCamera 0 0 (fun _ => 0) [] 1).2.vertices.map
        fun v => (v.objtype, v.totalPdfA))
        = [(ObjectType.OBJECT_TYPE_LENS, Double.fin 1),
           (ObjectType.OBJECT_TYPE_DIFFUSE, Double.fin 0)] := by
  decide!

/-! ## The refractive branch -/

theorem vertexAt_append_last (l : List Vertex) (v : Vertex) :
    vertexAt (l ++ [v]) l.length = v := by
  simp [vertexAt, List.getD_eq_getElem?_getD]

theorem refractiveBranchProbability_half (lib : Lib)
    (hk : lib.kReflectProbability = Double.fin (1 / 2)) (rands1 : Double) :
    refractiveBranchProbability lib rands1 = Double.fin (1 / 2) := by
  unfold refractiveBranchProbability
  rw [hk]
  have h1 : Double.fin (1 / 4) + Double.fin (1 / 2) * Double.fin (1 / 2) = Double.fin (1 / 2) := by
    decide!
  have h2 : (1 : Double) - Double.fin (1 / 2) = Double.fin (1 / 2) := by decide!
  simp only [h1, h2, ite_self]

theorem refractiveDirectionPdf_half (cosOut : Double) :
    refractiveDirectionPdf cosOut = Double.fin (1 / 2) := by
  unfold refractiveDirectionPdf
  have h2 : (1 : Double) - Double.fin (1 / 2) = Double.fin (1 / 2) := by decide!
  simp only [h2, ite_self]

theorem lightTraceScatter_refractive (lib : Lib) (scene : Scene) (st : TraceState)
    (isect : Intersection) (rands1 rands2 : Double)
    (hgen : (scene.getBsdf isect.objectID).type = BsdfType.Reflactive) :
    let orientNormal :=
      if (lib.dot isect.normal st.ray.direction).lt 0 then isect.normal
      else lib.neg isect.normal
    let tr := lib.checkTotalReflection (Double.lt 0 (lib.dot isect.normal orientNormal))
      st.ray.direction isect.normal orientNormal
    let next := lightTraceScatter lib scene st isect rands1 rands2
    let recorded := (vertexAt next.vertices st.vertices.length).totalPdfA
    (tr.totalReflection = true → next.totalPdfA = recorded)
    ∧ (tr.totalReflection = false →
        next.totalPdfA = recorded * refractiveBranchProbability lib rands1) := by
  intro orientNormal tr next recorded
  constructor
  · intro htr
    simp only [recorded, next, lightTraceScatter, hgen]
    rw [if_pos htr]
    simp only [vertexAt_append_last]
  · intro htr
    have htr2 : ¬ tr.totalReflection = true := by rw [htr]; decide
    simp only [recorded, next, lightTraceScatter, hgen, refractiveBranchProbability]
    rw [if_neg htr2]
    split <;> simp only [vertexAt_append_last]

theorem pathTraceScatter_refractive (lib : Lib) (scene : Scene) (camera : DoFCamera)
    (camSample : CameraSample) (bounce : Nat) (st : TraceState)
    (isect : Intersection) (rands1 rands2 : Double)
    (hgen : (scene.getBsdf isect.objectID).type = BsdfType.Reflactive) :
    let orientNormal :=
      if (lib.dot isect.normal st.ray.direction).lt 0 then isect.normal
      else lib.neg isect.normal
    let tr := lib.checkTotalReflection (Double.lt 0 (lib.dot isect.normal orientNormal))
      st.ray.direction isect.normal orientNormal
    let next := pathTraceScatter lib scene camera camSample bounce st isect rands1 rands2
    let recorded := (vertexAt next.vertices st.vertices.length).totalPdfA
    (tr.totalReflection = true → next.totalPdfA = recorded)
    ∧ (tr.totalReflection = false →
        next.totalPdfA = recorded * refractiveBranchProbability lib rands1) := by
  intro orientNormal tr next recorded
  constructor
  · intro htr
    simp only [recorded, next, pathTraceScatter, hgen]
    rw [if_pos htr]
    simp only [vertexAt_append_last]
  · intro htr
    have htr2 : ¬ tr.totalReflection = true := by rw [htr]; decide
    simp only [recorded, next, pathTraceScatter, hgen, refractiveBranchProbability]
    rw [if_neg htr2]
    split <;> simp only [vertexAt_append_last]


theorem calcPdfA_refractive (lib : Lib) (scene : Scene) (camera : DoFCamera)
    (verts : List Vertex) (prevFromIdx : Int) (fromIdx nextIdx : Nat)
    (hfrom : (vertexAt verts fromIdx).objtype = ObjectType.OBJECT_TYPE_SPECULAR)
    (hbsdf : (scene.getBsdf (vertexAt verts fromIdx).objectId).type = BsdfType.Reflactive)
    (hprev : 0 ≤ prevFromIdx ∧ prevFromIdx < (verts.length : Int)) :
    let fromVert := vertexAt verts fromIdx
    let nextVert := vertexAt verts nextIdx
    let prevVert := vertexAt verts prevFromIdx.toNat
    let toVec := lib.sub nextVert.position fromVert.position
    let normalizedTo := lib.normalized toVec
    let nextNewOrientNormal :=
      if (lib.dot toVec nextVert.objectNormal).lt 0 then nextVert.objectNormal
      else lib.neg nextVert.objectNormal
    let intoFromVertexDir := lib.normalized (lib.sub fromVert.position prevVert.position)
    let isIncoming := (lib.dot intoFromVertexDir fromVert.objectNormal).lt 0
    let fromNewOrientNormal :=
      if isIncoming then fromVert.objectNormal else lib.neg fromVert.objectNormal
    let tr := lib.checkTotalReflection isIncoming intoFromVertexDir
      fromVert.objectNormal fromNewOrientNormal
    (tr.totalReflection = true →
      calcPdfA lib scene camera verts prevFromIdx fromIdx nextIdx
        = 1 * lib.dot (lib.smul (Double.fin (-1)) normalizedTo) nextNewOrientNormal
            / lib.dot toVec toVec)
    ∧ (tr.totalReflection = false →
      calcPdfA lib scene camera verts prevFromIdx fromIdx nextIdx
        = refractiveDirectionPdf (lib.dot fromNewOrientNormal normalizedTo)
            * lib.dot (lib.smul (Double.fin (-1)) normalizedTo) nextNewOrientNormal
            / lib.dot toVec toVec) := by
  intro fromVert nextVert prevVert toVec normalizedTo nextNewOrientNormal intoFromVertexDir
    isIncoming fromNewOrientNormal tr
  constructor
  · intro htr
    simp only [calcPdfA, hfrom, hbsdf, if_pos hprev, if_true]
    rw [if_pos htr]
  · intro htr
    have htr2 : ¬ tr.totalReflection = true := by rw [htr]; decide
    simp only [calcPdfA, hfrom, hbsdf, if_pos hprev, if_true, refractiveDirectionPdf]
    rw [if_neg htr2]
    by_cases hc : Double.lt 0 (lib.dot fromNewOrientNormal normalizedTo) = true
    · rw [if_pos hc, if_pos hc]
    · rw [if_neg hc, if_neg hc]

theorem refractiveBranchProbability_eq_half_iff (lib : Lib) (r : ℚ)
    (hk : lib.kReflectProbability = Double.fin r) :
    (∀ rands1 cosOut, refractiveDirectionPdf cosOut = refractiveBranchProbability lib rands1)
      ↔ r = 1 / 2 := by
  constructor
  · intro h
    have h1 := h Double.ninf 0
    rw [refractiveDirectionPdf_half] at h1
    unfold refractiveBranchProbability at h1
    rw [hk, Double.fin_mul_fin, Double.fin_add_fin] at h1
    simp only [Double.lt, if_true] at h1
    injection h1 with h2
    linarith
  · intro hr rands1 cosOut
    subst hr
    rw [refractiveDirectionPdf_half, refractiveBranchProbability_half lib hk]


/-- The refractive branch at the example glass surface, in the helper library whose
`kReflectProbability` is 0.5: the generator multiplies the density of the recorded
vertex by 0.5 and `calcPdfA` gives the refractive vertex the density 0.5. -/
theorem refractive_example :
    (lightTraceScatter unitLib glassScene unitState unitHit 0 0).totalPdfA
      = (vertexAt (lightTraceScatter unitLib glassScene unitState unitHit 0 0).vertices
          0).totalPdfA * refractiveBranchProbability unitLib 0
    ∧ (pathTraceScatter unitLib glassScene unitCamera unitCamSample 0 unitState unitHit 0
          0).totalPdfA
      = (vertexAt (pathTraceScatter unitLib glassScene unitCamera unitCamSample 0 unitState
          unitHit 0 0).vertices 0).totalPdfA * refractiveBranchProbability unitLib 0
    ∧ refractiveBranchProbability unitLib 0 = Double.fin (1 / 2)
    ∧ calcPdfA unitLib glassScene unitCamera glassChain 0 1 2 = Double.fin (1 / 2) := by
  decide!

/-! ## The diffuse direction density -/

theorem sample_hemisphere_pdf_omega_eq (lib : Lib) (normal direction : Vector3D) :
    sample_hemisphere_pdf_omega lib normal direction
      = hemispherePdf Double.max (lib.dot normal direction) lib.INV_PI := rfl

theorem Double.max_fin_zero (c : ℚ) : Double.max (Double.fin c) 0 = Double.fin (Max.max c 0) := by
  unfold Double.max
  by_cases h : c < 0
  · have : Double.lt (Double.fin c) 0 = true := by
      simp [Double.lt, Double.zero_def, h]
    rw [this, if_pos rfl, max_eq_right (le_of_lt h)]
    rfl
  · have : Double.lt (Double.fin c) 0 = false := by
      simp [Double.lt, Double.zero_def, h]
    rw [this, max_eq_left (not_lt.mp h)]
    rfl

theorem hemispherePdf_real_of_nonneg (θ : ℝ) (h0 : 0 ≤ θ) (h1 : θ ≤ Real.pi / 2) :
    hemispherePdf max (Real.cos θ) (1 / Real.pi) = Real.cos θ / Real.pi := by
  have hc : 0 ≤ Real.cos θ := Real.cos_nonneg_of_neg_pi_div_two_le_of_le (by linarith [Real.pi_pos]) h1
  unfold hemispherePdf
  rw [max_eq_left hc]
  ring

theorem hemispherePdf_inner_integral :
    ∫ θ in (0 : ℝ)..(Real.pi / 2), hemispherePdf max (Real.cos θ) (1 / Real.pi) * Real.sin θ
      = 1 / (2 * Real.pi) := by
  have hcongr : ∫ θ in (0 : ℝ)..(Real.pi / 2),
      hemispherePdf max (Real.cos θ) (1 / Real.pi) * Real.sin θ
        = ∫ θ in (0 : ℝ)..(Real.pi / 2), (1 / Real.pi) * (Real.sin θ * Real.cos θ) := by
    apply intervalIntegral.integral_congr
    intro θ hθ
    have hpos : (0 : ℝ) ≤ Real.pi / 2 := by linarith [Real.pi_pos]
    rw [Set.uIcc_of_le hpos] at hθ
    show hemispherePdf max (Real.cos θ) (1 / Real.pi) * Real.sin θ
      = (1 / Real.pi) * (Real.sin θ * Real.cos θ)
    rw [hemispherePdf_real_of_nonneg θ hθ.1 hθ.2]
    ring
  rw [hcongr, intervalIntegral.integral_const_mul, integral_sin_mul_cos₁]
  simp only [Real.sin_pi_div_two, Real.sin_zero]
  have := Real.pi_pos
  field_simp
  ring

theorem hemispherePdf_integral :
    ∫ _φ in (0 : ℝ)..(2 * Real.pi),
      ∫ θ in (0 : ℝ)..(Real.pi / 2), hemispherePdf max (Real.cos θ) (1 / Real.pi) * Real.sin θ
      = 1 := by
  rw [hemispherePdf_inner_integral, intervalIntegral.integral_const]
  have := Real.pi_pos
  simp only [sub_zero, smul_eq_mul]
  field_simp

/-- Claim C17: for a finite cosine `c` between the normal and the direction and a finite
non-negative `INV_PI`, the density `sample_hemisphere_pdf_omega` is the finite number
`max(c, 0) * INV_PI`, which is not negative and equals `c * INV_PI` on the hemisphere
around the normal (`c >= 0`); read over the real numbers with `INV_PI = 1 / pi`, the same
expression is `cos(theta) / pi` for `theta` in `[0, pi / 2]` and its integral against
`sin(theta)` over `phi` in `[0, 2 pi]` and `theta` in `[0, pi / 2]` is 1. -/
theorem sample_hemisphere_pdf_omega_normalized (lib : Lib) (normal direction : Vector3D)
    (c p : ℚ) (hdot : lib.dot normal direction = Double.fin c)
    (hpi : lib.INV_PI = Double.fin p) (hp : 0 ≤ p) :
    sample_hemisphere_pdf_omega lib normal direction
        = hemispherePdf Double.max (lib.dot normal direction) lib.INV_PI
    ∧ sample_hemisphere_pdf_omega lib normal direction = Double.fin (max c 0 * p)
    ∧ 0 ≤ max c 0 * p
    ∧ Double.le 0 (sample_hemisphere_pdf_omega lib normal direction) = true
    ∧ (0 ≤ c → sample_hemisphere_pdf_omega lib normal direction = Double.fin (c * p))
    ∧ (∀ θ : ℝ, 0 ≤ θ → θ ≤ Real.pi / 2 →
        hemispherePdf max (Real.cos θ) (1 / Real.pi) = Real.cos θ / Real.pi)
    ∧ ∫ _φ in (0 : ℝ)..(2 * Real.pi),
        ∫ θ in (0 : ℝ)..(Real.pi / 2),
          hemispherePdf max (Real.cos θ) (1 / Real.pi) * Real.sin θ = 1 := by
  have hval : sample_hemisphere_pdf_omega lib normal direction = Double.fin (max c 0 * p) := by
    unfold sample_hemisphere_pdf_omega
    rw [hdot, hpi, Double.max_fin_zero, Double.fin_mul_fin]
  have hnn : 0 ≤ max c 0 * p := mul_nonneg (le_max_right c 0) hp
  refine ⟨rfl, hval, hnn, ?_, ?_, hemispherePdf_real_of_nonneg, hemispherePdf_integral⟩
  · rw [hval]
    simp [Double.le, Double.zero_def, hnn]
  · intro hc
    rw [hval, max_eq_left hc]

/-- Witness for claim C17: the cosine 1/2 with `INV_PI` read as 1/3. -/
theorem sample_hemisphere_pdf_omega_normalized_witness :
    sample_hemisphere_pdf_omega
        { unitLib with dot := fun _ _ => Double.fin (1 / 2), INV_PI := Double.fin (1 / 3) }
        default default = Double.fin (max (1 / 2) 0 * (1 / 3)) :=
  (sample_hemisphere_pdf_omega_normalized
    { unitLib with dot := fun _ _ => Double.fin (1 / 2), INV_PI := Double.fin (1 / 3) }
    default default (1 / 2) (1 / 3) rfl rfl (by norm_num)).2.1

/-! ## A newly constructed image -/

/-- Claim C20: for a positive width and height the image `Image(width, height)` has that
width and that height, every pixel inside it can be read and is black, with red, green
and blue equal to 0, and each per-worker framebuffer of the render loop is such an
image. -/
theorem Image.create_black (width height : Int) (hw : 0 < width) (hh : 0 < height) :
    (Image.create width height).width = width
    ∧ (Image.create width height).height = height
    ∧ (∀ x y : Int, 0 ≤ x → x < width → 0 ≤ y → y < height →
        ∃ c, (Image.create width height).at? x y = some c
          ∧ c.red = 0 ∧ c.green = 0 ∧ c.blue = 0)
    ∧ (Image.create width height).inRange 0 0 = true
    ∧ ∀ (kNumThreads : Nat) (b : Image), b ∈ initialBuffers kNumThreads width height →
        b = Image.create width height := by
  refine ⟨rfl, rfl, ?_, ?_, ?_⟩
  · intro x y hx0 hx1 hy0 hy1
    refine ⟨Color.black, ?_, rfl, rfl, rfl⟩
    have hin : (Image.create width height).inRange x y = true :=
      Image.inRange_of (Image.create width height) x y hx0 hx1 hy0 hy1
    rw [Image.at?_eq _ x y hin]
    rfl
  · exact Image.inRange_of (Image.create width height) 0 0 le_rfl hw le_rfl hh
  · intro k b hb
    exact List.eq_of_mem_replicate hb

/-- Witness for claim C20: the image `Image(320, 240)` of the test, read at its last
pixel. -/
theorem Image.create_black_witness :
    (Image.create 320 240).width = 320 ∧ (Image.create 320 240).height = 240
    ∧ ∃ c, (Image.create 320 240).at? 319 239 = some c
        ∧ c.red = 0 ∧ c.green = 0 ∧ c.blue = 0 :=
  ⟨(Image.create_black 320 240 (by decide) (by decide)).1,
   (Image.create_black 320 240 (by decide) (by decide)).2.1,
   (Image.create_black 320 240 (by decide) (by decide)).2.2.1 319 239 (by decide) (by decide)
     (by decide) (by decide)⟩

/-! ## The diffusion profile -/

theorem BSSRDFBase.Fdr_double_ge (m : Numerics Double) (hof : m.ofRat = Double.fin)
    (hle : m.le = Double.le) (eta : Double) (h : Double.le 1 eta = true) :
    BSSRDFBase.Fdr m eta
      = Double.fin (-14399 / 10000) / (eta * eta) + Double.fin (7099 / 10000) / eta
          + Double.fin (6681 / 10000) + Double.fin (636 / 10000) * eta := by
  unfold BSSRDFBase.Fdr
  rw [hof, hle]
  have h1 : Double.le (Double.fin 1) eta = true := h
  rw [if_pos h1]

theorem BSSRDFBase.Fdr_double_lt (m : Numerics Double) (hof : m.ofRat = Double.fin)
    (hle : m.le = Double.le) (eta : Double) (h : Double.le 1 eta = false) :
    BSSRDFBase.Fdr m eta
      = Double.fin (-4399 / 10000) + Double.fin (7099 / 10000) / eta
          - Double.fin (3319 / 10000) / (eta * eta)
          + Double.fin (636 / 10000) / (eta * eta * eta) := by
  unfold BSSRDFBase.Fdr
  rw [hof, hle]
  have h1 : ¬ Double.le (Double.fin 1) eta = true := by
    intro h2
    have h3 : Double.le 1 eta = true := h2
    rw [h] at h3
    cases h3
  rw [if_neg h1]

theorem BSSRDFBase.Fdr_real_ge (sqrt exp : ℝ → ℝ) (pow : ℝ → ℝ → ℝ) (PI : ℝ) (eta : ℝ)
    (h : 1 ≤ eta) :
    BSSRDFBase.Fdr (Numerics.ofField sqrt exp pow PI) eta
      = -1.4399 / eta ^ 2 + 0.7099 / eta + 0.6681 + 0.0636 * eta := by
  unfold BSSRDFBase.Fdr Numerics.ofField
  have h1 : (((1 : ℚ) : ℝ)) ≤ eta := by exact_mod_cast h
  simp only [decide_eq_true h1, if_true]
  push_cast
  norm_num
  ring

theorem BSSRDFBase.Fdr_real_lt (sqrt exp : ℝ → ℝ) (pow : ℝ → ℝ → ℝ) (PI : ℝ) (eta : ℝ)
    (h : eta < 1) :
    BSSRDFBase.Fdr (Numerics.ofField sqrt exp pow PI) eta
      = -0.4399 + 0.7099 / eta - 0.3319 / eta ^ 2 + 0.0636 / eta ^ 3 := by
  unfold BSSRDFBase.Fdr Numerics.ofField
  have h1 : ¬ (((1 : ℚ) : ℝ)) ≤ eta := by
    push_cast
    exact not_le.mpr h
  simp only [decide_eq_false h1]
  push_cast
  norm_num
  ring

/-- Claim C18: the constructor of `DiffusionBSSRDF` stores `sigmap_t = sigma_a +
sigmap_s`, `sigma_tr = sqrt(3 sigma_a sigmap_t)`, `alphap = sigmap_s / sigmap_t`,
`zpos = 1 / sigmap_t`, `A = (1 + Fdr) / (1 - Fdr)` and `zneg = zpos (1 + (4/3) A)`, and
`Fdr` is the first polynomial when `eta >= 1` holds and the second one otherwise; this is
stated for doubles, where `eta >= 1` is the comparison of doubles, and for the reading
over the real numbers, where `(4/3) A` is `4 A / 3` and the products of `eta` are powers. -/
theorem DiffusionBSSRDF.create_fields (sqrtD expD : Double → Double)
    (powD : Double → Double → Double) (PID sigma_a sigmap_s eta : Double) (sa ss et : ℝ) :
    let m := Double.numerics sqrtD expD powD PID
    let b := DiffusionBSSRDF.create m sigma_a sigmap_s eta
    let mr := Numerics.ofField Real.sqrt Real.exp (fun x y : ℝ => x ^ y) Real.pi
    let r := DiffusionBSSRDF.create mr sa ss et
    (b.eta = eta ∧ b.sigmap_t = sigma_a + sigmap_s
      ∧ b.sigma_tr = sqrtD (Double.fin 3 * sigma_a * b.sigmap_t)
      ∧ b.alphap = sigmap_s / b.sigmap_t ∧ b.zpos = 1 / b.sigmap_t
      ∧ b.A = (1 + BSSRDFBase.Fdr m eta) / (1 - BSSRDFBase.Fdr m eta)
      ∧ b.zneg = b.zpos * (1 + Double.fin 4 / Double.fin 3 * b.A))
    ∧ (Double.le 1 eta = true →
        BSSRDFBase.Fdr m eta
          = Double.fin (-14399 / 10000) / (eta * eta) + Double.fin (7099 / 10000) / eta
              + Double.fin (6681 / 10000) + Double.fin (636 / 10000) * eta)
    ∧ (Double.le 1 eta = false →
        BSSRDFBase.Fdr m eta
          = Double.fin (-4399 / 10000) + Double.fin (7099 / 10000) / eta
              - Double.fin (3319 / 10000) / (eta * eta)
              + Double.fin (636 / 10000) / (eta * eta * eta))
    ∧ (r.eta = et ∧ r.sigmap_t = sa + ss ∧ r.sigma_tr = Real.sqrt (3 * sa * r.sigmap_t)
      ∧ r.alphap = ss / r.sigmap_t ∧ r.zpos = 1 / r.sigmap_t
      ∧ r.A = (1 + BSSRDFBase.Fdr mr et) / (1 - BSSRDFBase.Fdr mr et)
      ∧ r.zneg = r.zpos * (1 + 4 * r.A / 3))
    ∧ (1 ≤ et →
        BSSRDFBase.Fdr mr et = -1.4399 / et ^ 2 + 0.7099 / et + 0.6681 + 0.0636 * et)
    ∧ (et < 1 →
        BSSRDFBase.Fdr mr et = -0.4399 + 0.7099 / et - 0.3319 / et ^ 2 + 0.0636 / et ^ 3) := by
  intro m b mr r
  refine ⟨⟨rfl, rfl, rfl, rfl, rfl, rfl, rfl⟩,
    BSSRDFBase.Fdr_double_ge m rfl rfl eta, BSSRDFBase.Fdr_double_lt m rfl rfl eta,
    ⟨rfl, rfl, ?_, rfl, ?_, ?_, ?_⟩,
    BSSRDFBase.Fdr_real_ge Real.sqrt Real.exp _ Real.pi et,
    BSSRDFBase.Fdr_real_lt Real.sqrt Real.exp _ Real.pi et⟩
  · show Real.sqrt (((3 : ℚ) : ℝ) * sa * (sa + ss)) = Real.sqrt (3 * sa * (sa + ss))
    norm_num
  · show ((1 : ℚ) : ℝ) / (sa + ss) = 1 / (sa + ss)
    norm_num
  · show (((1 : ℚ) : ℝ) + BSSRDFBase.Fdr mr et) / (((1 : ℚ) : ℝ) - BSSRDFBase.Fdr mr et)
      = (1 + BSSRDFBase.Fdr mr et) / (1 - BSSRDFBase.Fdr mr et)
    norm_num
  · show r.zpos * (((1 : ℚ) : ℝ) + ((4 : ℚ) : ℝ) / ((3 : ℚ) : ℝ) * r.A)
      = r.zpos * (1 + 4 * r.A / 3)
    push_cast
    ring

/-! ## The plane integral of the diffusion profile -/

theorem dipole_distance_pos (z : ℝ) (hz : 0 < z) (r : ℝ) : 0 < Real.sqrt (r ^ 2 + z * z) :=
  Real.sqrt_pos.mpr (by positivity)

theorem dipole_distance_hasDerivAt (z : ℝ) (hz : 0 < z) (r : ℝ) :
    HasDerivAt (fun x : ℝ => Real.sqrt (x ^ 2 + z * z)) (r / Real.sqrt (r ^ 2 + z * z)) r := by
  have h1 : HasDerivAt (fun x : ℝ => x ^ 2 + z * z) (2 * r) r := by
    have := (hasDerivAt_pow 2 r).add_const (z * z)
    simpa using this
  have hne : r ^ 2 + z * z ≠ 0 := by positivity
  have h2 := h1.sqrt hne
  refine h2.congr_deriv ?_
  have hd := dipole_distance_pos z hz r
  field_simp
  ring

theorem dipole_term_hasDerivAt (sigma z : ℝ) (hz : 0 < z) (r : ℝ) :
    HasDerivAt
      (fun x : ℝ => -(z * Real.exp (-sigma * Real.sqrt (x ^ 2 + z * z))
        / Real.sqrt (x ^ 2 + z * z)))
      (r * (z * (Real.sqrt (r ^ 2 + z * z) * sigma + 1)
        * Real.exp (-sigma * Real.sqrt (r ^ 2 + z * z))
        / (Real.sqrt (r ^ 2 + z * z) * Real.sqrt (r ^ 2 + z * z)
            * Real.sqrt (r ^ 2 + z * z)))) r := by
  have hd := dipole_distance_hasDerivAt z hz r
  have hpos := dipole_distance_pos z hz r
  have he : HasDerivAt (fun x : ℝ => Real.exp (-sigma * Real.sqrt (x ^ 2 + z * z)))
      (Real.exp (-sigma * Real.sqrt (r ^ 2 + z * z))
        * (-sigma * (r / Real.sqrt (r ^ 2 + z * z)))) r :=
    (hd.const_mul (-sigma)).exp
  have hq := ((he.const_mul z).div hd (ne_of_gt hpos)).neg
  refine hq.congr_deriv ?_
  generalize Real.sqrt (r ^ 2 + z * z) = d at hpos
  generalize Real.exp (-sigma * d) = e
  field_simp
  ring

theorem dipole_distance_tendsto (z : ℝ) :
    Filter.Tendsto (fun x : ℝ => Real.sqrt (x ^ 2 + z * z)) Filter.atTop Filter.atTop := by
  refine Filter.tendsto_atTop_mono (fun x => ?_) Filter.tendsto_id
  show x ≤ Real.sqrt (x ^ 2 + z * z)
  apply Real.le_sqrt_of_sq_le
  nlinarith [mul_self_nonneg z]

theorem dipole_term_tendsto (sigma z : ℝ) (hs : 0 < sigma) :
    Filter.Tendsto
      (fun x : ℝ => -(z * Real.exp (-sigma * Real.sqrt (x ^ 2 + z * z))
        / Real.sqrt (x ^ 2 + z * z))) Filter.atTop (nhds 0) := by
  have hd := dipole_distance_tendsto z
  have h1 : Filter.Tendsto (fun x : ℝ => Real.exp (-(sigma * Real.sqrt (x ^ 2 + z * z))))
      Filter.atTop (nhds 0) :=
    Real.tendsto_exp_neg_atTop_nhds_zero.comp (hd.const_mul_atTop hs)
  have h2 : Filter.Tendsto (fun x : ℝ => (Real.sqrt (x ^ 2 + z * z))⁻¹) Filter.atTop (nhds 0) :=
    tendsto_inv_atTop_zero.comp hd
  have h3 := ((h1.mul h2).const_mul z).neg
  simp only [mul_zero, neg_zero] at h3
  refine h3.congr (fun x => ?_)
  rw [neg_mul, div_eq_mul_inv, mul_assoc]

theorem DiffusionBSSRDF.Rd_primitive (b : DiffusionBSSRDF ℝ) (hp : 0 < b.zpos)
    (hn : 0 < b.zneg) (r : ℝ) :
    HasDerivAt
      (fun x : ℝ => 2 * Real.pi * (b.alphap / (4 * Real.pi * b.sigma_tr))
        * (-(b.zpos * Real.exp (-b.sigma_tr * Real.sqrt (x ^ 2 + b.zpos * b.zpos))
              / Real.sqrt (x ^ 2 + b.zpos * b.zpos))
          + -(b.zneg * Real.exp (-b.sigma_tr * Real.sqrt (x ^ 2 + b.zneg * b.zneg))
              / Real.sqrt (x ^ 2 + b.zneg * b.zneg))))
      (2 * Real.pi * r * DiffusionBSSRDF.Rd
        (Numerics.ofField Real.sqrt Real.exp (fun x y : ℝ => x ^ y) Real.pi) b (r ^ 2)) r := by
  have h := ((dipole_term_hasDerivAt b.sigma_tr b.zpos hp r).add
    (dipole_term_hasDerivAt b.sigma_tr b.zneg hn r)).const_mul
      (2 * Real.pi * (b.alphap / (4 * Real.pi * b.sigma_tr)))
  refine h.congr_deriv ?_
  simp only [DiffusionBSSRDF.Rd, Numerics.ofField]
  push_cast
  ring

theorem DiffusionBSSRDF.Rd_nonneg (b : DiffusionBSSRDF ℝ) (hs : 0 < b.sigma_tr)
    (hp : 0 < b.zpos) (hn : 0 < b.zneg) (ha : 0 ≤ b.alphap) (r : ℝ) :
    0 ≤ DiffusionBSSRDF.Rd
      (Numerics.ofField Real.sqrt Real.exp (fun x y : ℝ => x ^ y) Real.pi) b (r ^ 2) := by
  have h1 := dipole_distance_pos b.zpos hp r
  have h2 := dipole_distance_pos b.zneg hn r
  have hpi := Real.pi_pos
  simp only [DiffusionBSSRDF.Rd, Numerics.ofField]
  push_cast
  positivity

theorem DiffusionBSSRDF.Rd_plane_integral (b : DiffusionBSSRDF ℝ) (hs : 0 < b.sigma_tr)
    (hp : 0 < b.zpos) (hn : 0 < b.zneg) (ha : 0 ≤ b.alphap) :
    MeasureTheory.IntegrableOn
        (fun r : ℝ => 2 * Real.pi * r * DiffusionBSSRDF.Rd
          (Numerics.ofField Real.sqrt Real.exp (fun x y : ℝ => x ^ y) Real.pi) b (r ^ 2))
        (Set.Ioi 0)
    ∧ ∫ r in Set.Ioi (0 : ℝ), 2 * Real.pi * r * DiffusionBSSRDF.Rd
          (Numerics.ofField Real.sqrt Real.exp (fun x y : ℝ => x ^ y) Real.pi) b (r ^ 2)
        = b.alphap * (Real.exp (-b.sigma_tr * b.zpos) + Real.exp (-b.sigma_tr * b.zneg))
            / (2 * b.sigma_tr) := by
  have hderiv : ∀ x ∈ Set.Ici (0 : ℝ), HasDerivAt
      (fun x : ℝ => 2 * Real.pi * (b.alphap / (4 * Real.pi * b.sigma_tr))
        * (-(b.zpos * Real.exp (-b.sigma_tr * Real.sqrt (x ^ 2 + b.zpos * b.zpos))
              / Real.sqrt (x ^ 2 + b.zpos * b.zpos))
          + -(b.zneg * Real.exp (-b.sigma_tr * Real.sqrt (x ^ 2 + b.zneg * b.zneg))
              / Real.sqrt (x ^ 2 + b.zneg * b.zneg))))
      ((fun r : ℝ => 2 * Real.pi * r * DiffusionBSSRDF.Rd
        (Numerics.ofField Real.sqrt Real.exp (fun x y : ℝ => x ^ y) Real.pi) b (r ^ 2)) x) x :=
    fun x _ => DiffusionBSSRDF.Rd_primitive b hp hn x
  have hpos : ∀ x ∈ Set.Ioi (0 : ℝ), 0 ≤ (fun r : ℝ => 2 * Real.pi * r * DiffusionBSSRDF.Rd
        (Numerics.ofField Real.sqrt Real.exp (fun x y : ℝ => x ^ y) Real.pi) b (r ^ 2)) x := by
    intro x hx
    have hx0 : (0 : ℝ) < x := hx
    have hR := DiffusionBSSRDF.Rd_nonneg b hs hp hn ha x
    have hpi := Real.pi_pos
    show 0 ≤ 2 * Real.pi * x * _
    positivity
  have hlim : Filter.Tendsto
      (fun x : ℝ => 2 * Real.pi * (b.alphap / (4 * Real.pi * b.sigma_tr))
        * (-(b.zpos * Real.exp (-b.sigma_tr * Real.sqrt (x ^ 2 + b.zpos * b.zpos))
              / Real.sqrt (x ^ 2 + b.zpos * b.zpos))
          + -(b.zneg * Real.exp (-b.sigma_tr * Real.sqrt (x ^ 2 + b.zneg * b.zneg))
              / Real.sqrt (x ^ 2 + b.zneg * b.zneg)))) Filter.atTop (nhds 0) := by
    have h := ((dipole_term_tendsto b.sigma_tr b.zpos hs).add
      (dipole_term_tendsto b.sigma_tr b.zneg hs)).const_mul
        (2 * Real.pi * (b.alphap / (4 * Real.pi * b.sigma_tr)))
    simpa using h
  refine ⟨MeasureTheory.integrableOn_Ioi_deriv_of_nonneg' hderiv hpos hlim, ?_⟩
  rw [MeasureTheory.integral_Ioi_of_hasDerivAt_of_nonneg' hderiv hpos hlim]
  have e1 : Real.sqrt ((0 : ℝ) ^ 2 + b.zpos * b.zpos) = b.zpos := by
    rw [zero_pow (by norm_num), zero_add, Real.sqrt_mul_self hp.le]
  have e2 : Real.sqrt ((0 : ℝ) ^ 2 + b.zneg * b.zneg) = b.zneg := by
    rw [zero_pow (by norm_num), zero_add, Real.sqrt_mul_self hn.le]
  simp only [e1, e2]
  have hpi := Real.pi_pos
  field_simp
  ring

theorem DiffusionBSSRDF.create_real_fields (sa ss et : ℝ) (ha : 0 < sa) (hs : 0 < ss) :
    let b := DiffusionBSSRDF.create
      (Numerics.ofField Real.sqrt Real.exp (fun x y : ℝ => x ^ y) Real.pi) sa ss et
    0 < b.sigma_tr ∧ 0 < b.zpos ∧ 0 ≤ b.alphap ∧ b.alphap = ss / (sa + ss)
      ∧ b.zpos = 1 / (sa + ss) ∧ b.sigma_tr = Real.sqrt (3 * sa * (sa + ss)) := by
  intro b
  have h3 : b.sigma_tr = Real.sqrt (3 * sa * (sa + ss)) := by
    show Real.sqrt (((3 : ℚ) : ℝ) * sa * (sa + ss)) = Real.sqrt (3 * sa * (sa + ss))
    norm_num
  have h4 : b.zpos = 1 / (sa + ss) := by
    show ((1 : ℚ) : ℝ) / (sa + ss) = 1 / (sa + ss)
    norm_num
  have h5 : b.alphap = ss / (sa + ss) := rfl
  refine ⟨?_, ?_, ?_, h5, h4, h3⟩
  · rw [h3]
    exact Real.sqrt_pos.mpr (by positivity)
  · rw [h4]
    positivity
  · rw [h5]
    positivity

theorem DiffusionBSSRDF.create_one_two_one :
    let b := DiffusionBSSRDF.create
      (Numerics.ofField Real.sqrt Real.exp (fun x y : ℝ => x ^ y) Real.pi) 1 2 1
    b.sigma_tr = 3 ∧ b.zpos = 1 / 3 ∧ b.alphap = 2 / 3 ∧ 0 < b.zneg := by
  intro b
  obtain ⟨_, _, _, h5, h4, h3⟩ := DiffusionBSSRDF.create_real_fields 1 2 1 one_pos two_pos
  have hF : BSSRDFBase.Fdr
      (Numerics.ofField Real.sqrt Real.exp (fun x y : ℝ => x ^ y) Real.pi) 1 = 17 / 10000 := by
    rw [BSSRDFBase.Fdr_real_ge Real.sqrt Real.exp _ Real.pi 1 le_rfl]
    norm_num
  refine ⟨?_, ?_, ?_, ?_⟩
  · show b.sigma_tr = 3
    rw [h3, show (3 : ℝ) * 1 * (1 + 2) = 3 ^ 2 by norm_num, Real.sqrt_sq (by norm_num)]
  · show b.zpos = 1 / 3
    rw [h4]
    norm_num
  · show b.alphap = 2 / 3
    rw [h5]
    norm_num
  · show 0 < b.zpos * (((1 : ℚ) : ℝ) + ((4 : ℚ) : ℝ) / ((3 : ℚ) : ℝ)
      * ((((1 : ℚ) : ℝ) + BSSRDFBase.Fdr
          (Numerics.ofField Real.sqrt Real.exp (fun x y : ℝ => x ^ y) Real.pi) 1)
        / (((1 : ℚ) : ℝ) - BSSRDFBase.Fdr
          (Numerics.ofField Real.sqrt Real.exp (fun x y : ℝ => x ^ y) Real.pi) 1)))
    rw [hF, h4]
    norm_num

theorem DiffusionBSSRDF.plane_integral_one_two_one :
    ∫ r in Set.Ioi (0 : ℝ), 2 * Real.pi * r * DiffusionBSSRDF.Rd
        (Numerics.ofField Real.sqrt Real.exp (fun x y : ℝ => x ^ y) Real.pi)
        (DiffusionBSSRDF.create
          (Numerics.ofField Real.sqrt Real.exp (fun x y : ℝ => x ^ y) Real.pi) 1 2 1) (r ^ 2)
      ≤ 2 / 9 := by
  obtain ⟨h1, h2, h3, h4⟩ := DiffusionBSSRDF.create_one_two_one
  have hint := (DiffusionBSSRDF.Rd_plane_integral _ (by rw [h1]; norm_num)
    (by rw [h2]; norm_num) h4 (by rw [h3]; norm_num)).2
  rw [hint, h1, h3]
  have e1 : Real.exp (-3 * (DiffusionBSSRDF.create
      (Numerics.ofField Real.sqrt Real.exp (fun x y : ℝ => x ^ y) Real.pi) 1 2 1).zpos) ≤ 1 := by
    rw [Real.exp_le_one_iff, h2]
    norm_num
  have e2 : Real.exp (-3 * (DiffusionBSSRDF.create
      (Numerics.ofField Real.sqrt Real.exp (fun x y : ℝ => x ^ y) Real.pi) 1 2 1).zneg) ≤ 1 := by
    rw [Real.exp_le_one_iff]
    linarith
  linarith

/-- Claim C19, counterexample: for `sigma_a = 1`, `sigmap_s = 2` and `eta = 1` the
integral over the plane of the value of `DiffusionBSSRDF::operator()` differs from the
reduced albedo `alphap = 2 / (1 + 2)` by more than 5 percent of it. -/
theorem DiffusionBSSRDF.plane_integral_not_albedo :
    ¬ |(∫ r in Set.Ioi (0 : ℝ), 2 * Real.pi * r * DiffusionBSSRDF.Rd
          (Numerics.ofField Real.sqrt Real.exp (fun x y : ℝ => x ^ y) Real.pi)
          (DiffusionBSSRDF.create
            (Numerics.ofField Real.sqrt Real.exp (fun x y : ℝ => x ^ y) Real.pi) 1 2 1)
          (r ^ 2)) - 2 / (1 + 2)| ≤ 0.05 * (2 / (1 + 2)) := by
  have h := DiffusionBSSRDF.plane_integral_one_two_one
  intro habs
  have h2 := (abs_le.mp habs).1
  norm_num at h2
  linarith

/-- Claim C19, amended: for positive `sigma_a` and `sigmap_s` and an index `eta` that
gives a positive depth `zneg`, the function `r ↦ 2 pi r R(r^2)`, `R` being the value of
`DiffusionBSSRDF::operator()` in each channel, is integrable over `(0, ∞)` and its
integral is `alphap (exp(-sigma_tr zpos) + exp(-sigma_tr zneg)) / (2 sigma_tr)`, where
`alphap = sigmap_s / (sigma_a + sigmap_s)`. -/
theorem DiffusionBSSRDF.plane_integral_closed_form (sa ss et : ℝ) (ha : 0 < sa) (hs : 0 < ss)
    (hz : 0 < (DiffusionBSSRDF.create
      (Numerics.ofField Real.sqrt Real.exp (fun x y : ℝ => x ^ y) Real.pi) sa ss et).zneg) :
    let b := DiffusionBSSRDF.create
      (Numerics.ofField Real.sqrt Real.exp (fun x y : ℝ => x ^ y) Real.pi) sa ss et
    MeasureTheory.IntegrableOn
        (fun r : ℝ => 2 * Real.pi * r * DiffusionBSSRDF.Rd
          (Numerics.ofField Real.sqrt Real.exp (fun x y : ℝ => x ^ y) Real.pi) b (r ^ 2))
        (Set.Ioi 0)
    ∧ ∫ r in Set.Ioi (0 : ℝ), 2 * Real.pi * r * DiffusionBSSRDF.Rd
          (Numerics.ofField Real.sqrt Real.exp (fun x y : ℝ => x ^ y) Real.pi) b (r ^ 2)
        = b.alphap * (Real.exp (-b.sigma_tr * b.zpos) + Real.exp (-b.sigma_tr * b.zneg))
            / (2 * b.sigma_tr)
    ∧ b.alphap = ss / (sa + ss) := by
  intro b
  obtain ⟨h1, h2, h3, h4, _, _⟩ := DiffusionBSSRDF.create_real_fields sa ss et ha hs
  exact ⟨(DiffusionBSSRDF.Rd_plane_integral b h1 h2 hz h3).1,
    (DiffusionBSSRDF.Rd_plane_integral b h1 h2 hz h3).2, h4⟩

/-- Witness for claim C19: the closed form at `sigma_a = 1`, `sigmap_s = 2`, `eta = 1`,
where `alphap` is `2 / (1 + 2)`. -/
theorem DiffusionBSSRDF.plane_integral_closed_form_witness :
    (∫ r in Set.Ioi (0 : ℝ), 2 * Real.pi * r * DiffusionBSSRDF.Rd
        (Numerics.ofField Real.sqrt Real.exp (fun x y : ℝ => x ^ y) Real.pi)
        (DiffusionBSSRDF.create
          (Numerics.ofField Real.sqrt Real.exp (fun x y : ℝ => x ^ y) Real.pi) 1 2 1) (r ^ 2)
      = (DiffusionBSSRDF.create
          (Numerics.ofField Real.sqrt Real.exp (fun x y : ℝ => x ^ y) Real.pi) 1 2 1).alphap
        * (Real.exp (-(DiffusionBSSRDF.create
              (Numerics.ofField Real.sqrt Real.exp (fun x y : ℝ => x ^ y) Real.pi)
              1 2 1).sigma_tr
            * (DiffusionBSSRDF.create
              (Numerics.ofField Real.sqrt Real.exp (fun x y : ℝ => x ^ y) Real.pi) 1 2 1).zpos)
          + Real.exp (-(DiffusionBSSRDF.create
              (Numerics.ofField Real.sqrt Real.exp (fun x y : ℝ => x ^ y) Real.pi)
              1 2 1).sigma_tr
            * (DiffusionBSSRDF.create
              (Numerics.ofField Real.sqrt Real.exp (fun x y : ℝ => x ^ y) Real.pi)
              1 2 1).zneg))
        / (2 * (DiffusionBSSRDF.create
            (Numerics.ofField Real.sqrt Real.exp (fun x y : ℝ => x ^ y) Real.pi)
            1 2 1).sigma_tr))
    ∧ (DiffusionBSSRDF.create
        (Numerics.ofField Real.sqrt Real.exp (fun x y : ℝ => x ^ y) Real.pi) 1 2 1).alphap
      = 2 / (1 + 2) :=
  (DiffusionBSSRDF.plane_integral_closed_form 1 2 1 one_pos two_pos
    DiffusionBSSRDF.create_one_two_one.2.2.2).2

/-! ## Shape of the traced subpaths -/

theorem Stack.pop_three (s : Stack) : ((s.pop.2).pop.2).pop.2 = s.drop 3 := rfl

theorem Stack.drop_drop (s : Stack) (a b : Nat) : (s.drop a).drop b = s.drop (b + a) := by
  funext i
  simp only [Stack.drop]
  rw [Nat.add_assoc]

theorem Stack.drop_zero (s : Stack) : s.drop 0 = s := rfl

theorem surfaceType_isSurface (bsdf : BSDF) (v : Vertex) (h : v.objtype = surfaceType bsdf) :
    v.isSurface = true := by
  unfold Vertex.isSurface
  unfold surfaceType at h
  split at h <;> simp [h]

theorem lightTraceScatter_shape (lib : Lib) (scene : Scene) (st : TraceState)
    (isect : Intersection) (rands1 rands2 : Double) :
    ∃ v, (lightTraceScatter lib scene st isect rands1 rands2).vertices = st.vertices ++ [v]
      ∧ v.isSurface = true
      ∧ (lightTraceScatter lib scene st isect rands1 rands2).rstk = st.rstk := by
  unfold lightTraceScatter
  simp only []
  repeat' split
  all_goals exact ⟨_, rfl, surfaceType_isSurface _ _ rfl, rfl⟩

theorem pathTraceScatter_shape (lib : Lib) (scene : Scene) (camera : DoFCamera)
    (camSample : CameraSample) (bounce : Nat) (st : TraceState)
    (isect : Intersection) (rands1 rands2 : Double) :
    ∃ v, (pathTraceScatter lib scene camera camSample bounce st isect rands1 rands2).vertices
        = st.vertices ++ [v]
      ∧ v.isSurface = true
      ∧ (pathTraceScatter lib scene camera camSample bounce st isect rands1 rands2).rstk
        = st.rstk := by
  unfold pathTraceScatter
  simp only []
  repeat' split
  all_goals exact ⟨_, rfl, surfaceType_isSurface _ _ rfl, rfl⟩

theorem lightTraceBounce_shape (lib : Lib) (scene : Scene) (camera : DoFCamera)
    (st : TraceState) :
    (∀ r st1, lightTraceBounce lib scene camera st = BounceOutcome.returned r st1 →
      r.hitObjType = HitObjectType.HIT_ON_LENS
        ∧ (∃ v, st1.vertices = st.vertices ++ [v] ∧ v.objtype = ObjectType.OBJECT_TYPE_LENS)
        ∧ st1.rstk = st.rstk.drop 3)
    ∧ (∀ st1, lightTraceBounce lib scene camera st = BounceOutcome.stopped st1 →
      st1.vertices = st.vertices ∧ st1.rstk = st.rstk.drop 3)
    ∧ (∀ st1, lightTraceBounce lib scene camera st = BounceOutcome.continued st1 →
      (∃ v, st1.vertices = st.vertices ++ [v] ∧ v.isSurface = true)
        ∧ st1.rstk = st.rstk.drop 3) := by
  refine ⟨?_, ?_, ?_⟩
  · intro r st1 h
    unfold lightTraceBounce at h
    simp only [] at h
    split at h
    · injection h with h1 h2
      subst h1 h2
      exact ⟨rfl, ⟨_, rfl, rfl⟩, rfl⟩
    · split at h
      · cases h
      · split at h <;> cases h
  · intro st1 h
    unfold lightTraceBounce at h
    simp only [] at h
    split at h
    · cases h
    · split at h
      · injection h with h1
        subst h1
        exact ⟨rfl, rfl⟩
      · split at h
        · injection h with h1
          subst h1
          exact ⟨rfl, rfl⟩
        · cases h
  · intro st1 h
    unfold lightTraceBounce at h
    simp only [] at h
    split at h
    · cases h
    · split at h
      · cases h
      · split at h
        · cases h
        · injection h with h1
          subst h1
          obtain ⟨v, hv, hs, hr⟩ := lightTraceScatter_shape lib scene
            { st with rstk := st.rstk.drop 3 } (scene.intersect st.ray).2
            (st.rstk.pop.2.pop.1) (st.rstk.pop.2.pop.2.pop.1)
          exact ⟨⟨v, hv, hs⟩, hr⟩

theorem pathTraceBounce_shape (lib : Lib) (scene : Scene) (camera : DoFCamera) (x y : Int)
    (camSample : CameraSample) (bounce : Nat) (st : TraceState) :
    (∀ r st1, pathTraceBounce lib scene camera x y camSample bounce st
        = BounceOutcome.returned r st1 →
      r.hitObjType = HitObjectType.HIT_ON_LIGHT
        ∧ (∃ v, st1.vertices = st.vertices ++ [v] ∧ v.objtype = ObjectType.OBJECT_TYPE_LIGHT)
        ∧ st1.rstk = st.rstk.drop 3)
    ∧ (∀ st1, pathTraceBounce lib scene camera x y camSample bounce st
        = BounceOutcome.stopped st1 →
      st1.vertices = st.vertices ∧ st1.rstk = st.rstk.drop 3)
    ∧ (∀ st1, pathTraceBounce lib scene camera x y camSample bounce st
        = BounceOutcome.continued st1 →
      (∃ v, st1.vertices = st.vertices ++ [v] ∧ v.isSurface = true)
        ∧ st1.rstk = st.rstk.drop 3) := by
  refine ⟨?_, ?_, ?_⟩
  · intro r st1 h
    unfold pathTraceBounce at h
    simp only [] at h
    split at h
    · cases h
    · split at h
      · cases h
      · split at h
        · injection h with h1 h2
          subst h1 h2
          exact ⟨rfl, ⟨_, rfl, rfl⟩, rfl⟩
        · cases h
  · intro st1 h
    unfold pathTraceBounce at h
    simp only [] at h
    split at h
    · injection h with h1
      subst h1
      exact ⟨rfl, rfl⟩
    · split at h
      · injection h with h1
        subst h1
        exact ⟨rfl, rfl⟩
      · split at h <;> cases h
  · intro st1 h
    unfold pathTraceBounce at h
    simp only [] at h
    split at h
    · cases h
    · split at h
      · cases h
      · split at h
        · cases h
        · injection h with h1
          subst h1
          obtain ⟨v, hv, hs, hr⟩ := pathTraceScatter_shape lib scene camera camSample bounce
            { st with rstk := st.rstk.drop 3 } (scene.intersect st.ray).2
            (st.rstk.pop.2.pop.1) (st.rstk.pop.2.pop.2.pop.1)
          exact ⟨⟨v, hv, hs⟩, hr⟩

theorem WalkShape.zero (terminal : ObjectType) (hit : HitObjectType) (st : TraceState) :
    WalkShape terminal hit 0 st ⟨Color.black, 0, 0, HitObjectType.HIT_ON_OBJECT⟩ st :=
  ⟨0, [], le_rfl, le_rfl, (List.append_nil _).symm, rfl,
    Or.inr ⟨rfl, fun u hu => absurd hu (List.not_mem_nil u)⟩⟩

theorem WalkShape.returned (terminal : ObjectType) (hit : HitObjectType) (n : Nat)
    (st st1 : TraceState) (r : TraceResult) (v : Vertex) (hr : r.hitObjType = hit)
    (hv : st1.vertices = st.vertices ++ [v]) (ht : v.objtype = terminal)
    (hs : st1.rstk = st.rstk.drop 3) : WalkShape terminal hit (n + 1) st r st1 :=
  ⟨1, [v], by omega, le_rfl, hv, hs,
    Or.inl ⟨hr, [], v, rfl, ht, fun u hu => absurd hu (List.not_mem_nil u)⟩⟩

theorem WalkShape.stopped (terminal : ObjectType) (hit : HitObjectType) (n : Nat)
    (st st1 : TraceState) (hv : st1.vertices = st.vertices) (hs : st1.rstk = st.rstk.drop 3) :
    WalkShape terminal hit (n + 1) st ⟨Color.black, 0, 0, HitObjectType.HIT_ON_OBJECT⟩ st1 :=
  ⟨1, [], by omega, Nat.zero_le 1, by rw [hv, List.append_nil], hs,
    Or.inr ⟨rfl, fun u hu => absurd hu (List.not_mem_nil u)⟩⟩

theorem WalkShape.continued (terminal : ObjectType) (hit : HitObjectType) (n : Nat)
    (st st1 st2 : TraceState) (r : TraceResult) (v : Vertex)
    (hv : st1.vertices = st.vertices ++ [v]) (hsurf : v.isSurface = true)
    (hs : st1.rstk = st.rstk.drop 3) (h : WalkShape terminal hit n st1 r st2) :
    WalkShape terminal hit (n + 1) st r st2 := by
  obtain ⟨j, new, hj, hlen, hverts, hrstk, hcase⟩ := h
  refine ⟨j + 1, v :: new, by omega, by simp only [List.length_cons]; omega, ?_, ?_, ?_⟩
  · rw [hverts, hv, List.append_assoc, List.singleton_append]
  · rw [hrstk, hs, Stack.drop_drop, Nat.mul_succ]
  · rcases hcase with ⟨hr, init, w, hnew, hw, hinit⟩ | ⟨hr, hall⟩
    · refine Or.inl ⟨hr, v :: init, w, by rw [hnew]; rfl, hw, ?_⟩
      intro u hu
      rcases List.mem_cons.mp hu with h1 | h1
      · rw [h1]; exact hsurf
      · exact hinit u h1
    · refine Or.inr ⟨hr, ?_⟩
      intro u hu
      rcases List.mem_cons.mp hu with h1 | h1
      · rw [h1]; exact hsurf
      · exact hall u h1

theorem lightTraceLoop_shape (lib : Lib) (scene : Scene) (camera : DoFCamera) :
    ∀ (n : Nat) (st : TraceState),
      WalkShape ObjectType.OBJECT_TYPE_LENS HitObjectType.HIT_ON_LENS n st
        (lightTraceLoop lib scene camera n st).1 (lightTraceLoop lib scene camera n st).2 := by
  intro n
  induction n with
  | zero => intro st; exact WalkShape.zero _ _ st
  | succ n ih =>
      intro st
      have hb := lightTraceBounce_shape lib scene camera st
      unfold lightTraceLoop
      cases hc : lightTraceBounce lib scene camera st with
      | returned r st1 =>
          obtain ⟨hr, ⟨v, hv, ht⟩, hs⟩ := hb.1 r st1 hc
          exact WalkShape.returned _ _ n st st1 r v hr hv ht hs
      | stopped st1 =>
          obtain ⟨hv, hs⟩ := hb.2.1 st1 hc
          exact WalkShape.stopped _ _ n st st1 hv hs
      | continued st1 =>
          obtain ⟨⟨v, hv, hsurf⟩, hs⟩ := hb.2.2 st1 hc
          exact WalkShape.continued _ _ n st st1 _ _ v hv hsurf hs (ih st1)

theorem pathTraceLoop_shape (lib : Lib) (scene : Scene) (camera : DoFCamera) (x y : Int)
    (camSample : CameraSample) :
    ∀ (n bounce : Nat) (st : TraceState),
      WalkShape ObjectType.OBJECT_TYPE_LIGHT HitObjectType.HIT_ON_LIGHT n st
        (pathTraceLoop lib scene camera x y camSample n bounce st).1
        (pathTraceLoop lib scene camera x y camSample n bounce st).2 := by
  intro n
  induction n with
  | zero => intro bounce st; exact WalkShape.zero _ _ st
  | succ n ih =>
      intro bounce st
      have hb := pathTraceBounce_shape lib scene camera x y camSample bounce st
      unfold pathTraceLoop
      cases hc : pathTraceBounce lib scene camera x y camSample bounce st with
      | returned r st1 =>
          obtain ⟨hr, ⟨v, hv, ht⟩, hs⟩ := hb.1 r st1 hc
          exact WalkShape.returned _ _ n st st1 r v hr hv ht hs
      | stopped st1 =>
          obtain ⟨hv, hs⟩ := hb.2.1 st1 hc
          exact WalkShape.stopped _ _ n st st1 hv hs
      | continued st1 =>
          obtain ⟨⟨v, hv, hsurf⟩, hs⟩ := hb.2.2 st1 hc
          exact WalkShape.continued _ _ n st st1 _ _ v hv hsurf hs (ih (bounce + 1) st1)

theorem Vertex.isSurface_ne (u : Vertex) (h : u.isSurface = true) :
    u.objtype ≠ ObjectType.OBJECT_TYPE_LIGHT ∧ u.objtype ≠ ObjectType.OBJECT_TYPE_LENS := by
  unfold Vertex.isSurface at h
  rw [Bool.or_eq_true, decide_eq_true_eq, decide_eq_true_eq] at h
  rcases h with h | h <;> rw [h] <;> exact ⟨by decide, by decide⟩

theorem lightTrace_walk (lib : Lib) (scene : Scene) (camera : DoFCamera) (rstk : Stack)
    (vertices : List Vertex) (bounceLimit : Nat) :
    ∃ (v0 : Vertex) (j : Nat) (new : List Vertex),
      v0.objtype = ObjectType.OBJECT_TYPE_LIGHT ∧ v0.totalPdfA = 1 / scene.lightArea
      ∧ j ≤ bounceLimit ∧ new.length ≤ j
      ∧ (lightTrace lib scene camera rstk vertices bounceLimit).2.vertices
          = vertices ++ v0 :: new
      ∧ (lightTrace lib scene camera rstk vertices bounceLimit).2.rstk
          = ((scene.sampleLight rstk).2.drop 2).drop (3 * j)
      ∧ (((lightTrace lib scene camera rstk vertices bounceLimit).1.hitObjType
            = HitObjectType.HIT_ON_LENS
          ∧ ∃ (init : List Vertex) (v : Vertex), new = init ++ [v]
              ∧ v.objtype = ObjectType.OBJECT_TYPE_LENS ∧ ∀ u ∈ init, u.isSurface = true)
        ∨ ((lightTrace lib scene camera rstk vertices bounceLimit).1
            = ⟨Color.black, 0, 0, HitObjectType.HIT_ON_OBJECT⟩
          ∧ ∀ u ∈ new, u.isSurface = true)) := by
  unfold lightTrace
  simp only []
  obtain ⟨j, new, hj, hlen, hverts, hrstk, hcase⟩ := lightTraceLoop_shape lib scene camera
    bounceLimit
    { totalPdfA := 1 / scene.lightArea, throughput := (scene.sampleLight rstk).1.Le,
      ray := ⟨(scene.sampleLight rstk).1.position,
        lib.onHemisphere (scene.sampleLight rstk).1.normal
          (scene.sampleLight rstk).2.pop.1 (scene.sampleLight rstk).2.pop.2.pop.1⟩,
      pdfOmega := sample_hemisphere_pdf_omega lib (scene.sampleLight rstk).1.normal
        (lib.onHemisphere (scene.sampleLight rstk).1.normal
          (scene.sampleLight rstk).2.pop.1 (scene.sampleLight rstk).2.pop.2.pop.1),
      prevNormal := (scene.sampleLight rstk).1.normal,
      rstk := (scene.sampleLight rstk).2.pop.2.pop.2,
      vertices := vertices ++ [⟨1 / scene.lightArea, Color.black,
        (scene.sampleLight rstk).1.position, -1, (scene.sampleLight rstk).1.Le,
        (scene.sampleLight rstk).1.normal, (scene.sampleLight rstk).1.normal,
        ObjectType.OBJECT_TYPE_LIGHT⟩] }
  refine ⟨⟨1 / scene.lightArea, Color.black,
    (scene.sampleLight rstk).1.position, -1, (scene.sampleLight rstk).1.Le,
    (scene.sampleLight rstk).1.normal, (scene.sampleLight rstk).1.normal,
    ObjectType.OBJECT_TYPE_LIGHT⟩, j, new, rfl, rfl, hj, hlen, ?_, hrstk, hcase⟩
  rw [hverts, List.append_assoc, List.singleton_append]

theorem pathTrace_walk (lib : Lib) (scene : Scene) (camera : DoFCamera) (x y : Int)
    (rstk : Stack) (vertices : List Vertex) (bounceLimit : Nat) :
    ∃ (v0 : Vertex) (j : Nat) (new : List Vertex),
      v0.objtype = ObjectType.OBJECT_TYPE_LENS ∧ v0.totalPdfA = 1 / camera.lensArea
      ∧ j ≤ bounceLimit ∧ new.length ≤ j
      ∧ (pathTrace lib scene camera x y rstk vertices bounceLimit).2.vertices
          = vertices ++ v0 :: new
      ∧ (pathTrace lib scene camera x y rstk vertices bounceLimit).2.rstk
          = (camera.sample x y rstk).2.drop (3 * j)
      ∧ (((pathTrace lib scene camera x y rstk vertices bounceLimit).1.hitObjType
            = HitObjectType.HIT_ON_LIGHT
          ∧ ∃ (init : List Vertex) (v : Vertex), new = init ++ [v]
              ∧ v.objtype = ObjectType.OBJECT_TYPE_LIGHT ∧ ∀ u ∈ init, u.isSurface = true)
        ∨ ((pathTrace lib scene camera x y rstk vertices bounceLimit).1
            = ⟨Color.black, 0, 0, HitObjectType.HIT_ON_OBJECT⟩
          ∧ ∀ u ∈ new, u.isSurface = true)) := by
  unfold pathTrace
  simp only []
  obtain ⟨j, new, hj, hlen, hverts, hrstk, hcase⟩ := pathTraceLoop_shape lib scene camera x y
    (camera.sample x y rstk).1 bounceLimit 0
    { totalPdfA := 1 / camera.lensArea, throughput := ⟨1, 1, 1⟩,
      ray := (camera.sample x y rstk).1.ray, pdfOmega := 1, prevNormal := camera.lensNormal,
      rstk := (camera.sample x y rstk).2,
      vertices := vertices ++ [⟨1 / camera.lensArea, ⟨1, 1, 1⟩,
        (camera.sample x y rstk).1.posLens, -1, Color.black, camera.lensNormal,
        camera.lensNormal, ObjectType.OBJECT_TYPE_LENS⟩] }
  refine ⟨⟨1 / camera.lensArea, ⟨1, 1, 1⟩,
    (camera.sample x y rstk).1.posLens, -1, Color.black, camera.lensNormal,
    camera.lensNormal, ObjectType.OBJECT_TYPE_LENS⟩, j, new, rfl, rfl, hj, hlen, ?_, hrstk,
    hcase⟩
  rw [hverts, List.append_assoc, List.singleton_append]

theorem subpath_classification (first terminal : ObjectType) (hit : HitObjectType)
    (r : TraceResult) (v0 : Vertex) (new : List Vertex) (hv0 : v0.objtype = first)
    (hft : first ≠ terminal) (hhit : hit ≠ HitObjectType.HIT_ON_OBJECT)
    (hsurf : ∀ u : Vertex, u.isSurface = true → u.objtype ≠ first ∧ u.objtype ≠ terminal)
    (hcase : (r.hitObjType = hit ∧ ∃ (init : List Vertex) (v : Vertex),
          new = init ++ [v] ∧ v.objtype = terminal ∧ ∀ u ∈ init, u.isSurface = true)
      ∨ (r = ⟨Color.black, 0, 0, HitObjectType.HIT_ON_OBJECT⟩
          ∧ ∀ u ∈ new, u.isSurface = true)) :
    (∀ u ∈ new, u.objtype ≠ first)
    ∧ (∀ u ∈ (v0 :: new).dropLast, u.objtype ≠ terminal)
    ∧ ((∃ v, (v0 :: new).getLast? = some v ∧ v.objtype = terminal) ↔ r.hitObjType = hit)
    ∧ (r.hitObjType = hit → 2 ≤ (v0 :: new).length)
    ∧ (r.hitObjType ≠ hit → r = ⟨Color.black, 0, 0, HitObjectType.HIT_ON_OBJECT⟩) := by
  rcases hcase with ⟨hr, init, v, hnew, hv, hinit⟩ | ⟨hr, hall⟩
  · subst hnew
    have hdrop : (v0 :: (init ++ [v])).dropLast = v0 :: init := by
      rw [← List.cons_append, List.dropLast_concat]
    have hlast : (v0 :: (init ++ [v])).getLast? = some v := by
      rw [← List.cons_append, List.getLast?_concat]
    refine ⟨?_, ?_, ?_, ?_, ?_⟩
    · intro u hu
      rcases List.mem_append.mp hu with h1 | h1
      · exact (hsurf u (hinit u h1)).1
      · rw [List.mem_singleton] at h1
        rw [h1, hv]
        exact fun h => hft h.symm
    · intro u hu
      rw [hdrop] at hu
      rcases List.mem_cons.mp hu with h1 | h1
      · rw [h1, hv0]; exact hft
      · exact (hsurf u (hinit u h1)).2
    · exact ⟨fun _ => hr, fun _ => ⟨v, hlast, hv⟩⟩
    · intro _
      simp only [List.length_cons, List.length_append, List.length_nil]
      omega
    · intro h
      exact absurd hr h
  · have hne : r.hitObjType ≠ hit := by
      rw [hr]
      exact fun h => hhit h.symm
    have hmem : ∀ u ∈ v0 :: new, u.objtype ≠ terminal := by
      intro u hu
      rcases List.mem_cons.mp hu with h1 | h1
      · rw [h1, hv0]; exact hft
      · exact (hsurf u (hall u h1)).2
    refine ⟨fun u hu => (hsurf u (hall u hu)).1,
      fun u hu => hmem u (List.dropLast_subset _ hu), ?_, fun h => absurd h hne, fun _ => hr⟩
    constructor
    · rintro ⟨v, hv1, hv2⟩
      exact absurd hv2 (hmem v (List.mem_of_getLast?_eq_some hv1))
    · intro h
      exact absurd h hne

/-- Claim C21: for every bounce limit `B`, scene, camera, random stack and initial vertex
list, `pathTrace` and `lightTrace` run `j <= B` iterations of their loop, each popping
three random numbers and intersecting the scene once, and their final vertex list is the
initial list followed by between 1 and `j + 1` new vertices. -/
theorem trace_bounded (lib : Lib) (scene : Scene) (camera : DoFCamera) (x y : Int)
    (rstk : Stack) (vertices : List Vertex) (bounceLimit : Nat) :
    (∃ (j : Nat) (new : List Vertex), j ≤ bounceLimit ∧ 1 ≤ new.length ∧ new.length ≤ j + 1
      ∧ (pathTrace lib scene camera x y rstk vertices bounceLimit).2.vertices = vertices ++ new
      ∧ (pathTrace lib scene camera x y rstk vertices bounceLimit).2.rstk
          = (camera.sample x y rstk).2.drop (3 * j))
    ∧ ∃ (j : Nat) (new : List Vertex), j ≤ bounceLimit ∧ 1 ≤ new.length ∧ new.length ≤ j + 1
      ∧ (lightTrace lib scene camera rstk vertices bounceLimit).2.vertices = vertices ++ new
      ∧ (lightTrace lib scene camera rstk vertices bounceLimit).2.rstk
          = ((scene.sampleLight rstk).2.drop 2).drop (3 * j) := by
  obtain ⟨v0, j, new, _, _, hj, hlen, hverts, hrstk, _⟩ :=
    pathTrace_walk lib scene camera x y rstk vertices bounceLimit
  obtain ⟨w0, i, new2, _, _, hi, hlen2, hverts2, hrstk2, _⟩ :=
    lightTrace_walk lib scene camera rstk vertices bounceLimit
  refine ⟨⟨j, v0 :: new, hj, ?_, ?_, hverts, hrstk⟩, ⟨i, w0 :: new2, hi, ?_, ?_, hverts2, hrstk2⟩⟩
  all_goals simp only [List.length_cons]; omega

/-- Claim C22: in the eye subpath that `pathTrace` builds from the empty list the first
vertex is a Lens vertex of density `1 / lensArea` and no later vertex is a Lens vertex;
no vertex before the last is a Light vertex, the last vertex is a Light vertex exactly
when the result is `HIT_ON_LIGHT`, and then the subpath has at least 2 vertices; in
every other case the result is `HIT_ON_OBJECT` with value zero. The same holds for the
light subpath of `lightTrace` with Light and Lens exchanged, density `1 / lightArea` and
the result `HIT_ON_LENS`. -/
theorem terminal_classification (lib : Lib) (scene : Scene) (camera : DoFCamera) (x y : Int)
    (rstk : Stack) (bounceLimit : Nat) :
    (∃ (v0 : Vertex) (rest : List Vertex),
      (pathTrace lib scene camera x y rstk [] bounceLimit).2.vertices = v0 :: rest
      ∧ v0.objtype = ObjectType.OBJECT_TYPE_LENS ∧ v0.totalPdfA = 1 / camera.lensArea
      ∧ (∀ u ∈ rest, u.objtype ≠ ObjectType.OBJECT_TYPE_LENS)
      ∧ (∀ u ∈ (v0 :: rest).dropLast, u.objtype ≠ ObjectType.OBJECT_TYPE_LIGHT)
      ∧ ((∃ v, (v0 :: rest).getLast? = some v ∧ v.objtype = ObjectType.OBJECT_TYPE_LIGHT)
          ↔ (pathTrace lib scene camera x y rstk [] bounceLimit).1.hitObjType
              = HitObjectType.HIT_ON_LIGHT)
      ∧ ((pathTrace lib scene camera x y rstk [] bounceLimit).1.hitObjType
            = HitObjectType.HIT_ON_LIGHT → 2 ≤ (v0 :: rest).length)
      ∧ ((pathTrace lib scene camera x y rstk [] bounceLimit).1.hitObjType
            ≠ HitObjectType.HIT_ON_LIGHT →
          (pathTrace lib scene camera x y rstk [] bounceLimit).1
            = ⟨Color.black, 0, 0, HitObjectType.HIT_ON_OBJECT⟩))
    ∧ ∃ (v0 : Vertex) (rest : List Vertex),
      (lightTrace lib scene camera rstk [] bounceLimit).2.vertices = v0 :: rest
      ∧ v0.objtype = ObjectType.OBJECT_TYPE_LIGHT ∧ v0.totalPdfA = 1 / scene.lightArea
      ∧ (∀ u ∈ rest, u.objtype ≠ ObjectType.OBJECT_TYPE_LIGHT)
      ∧ (∀ u ∈ (v0 :: rest).dropLast, u.objtype ≠ ObjectType.OBJECT_TYPE_LENS)
      ∧ ((∃ v, (v0 :: rest).getLast? = some v ∧ v.objtype = ObjectType.OBJECT_TYPE_LENS)
          ↔ (lightTrace lib scene camera rstk [] bounceLimit).1.hitObjType
              = HitObjectType.HIT_ON_LENS)
      ∧ ((lightTrace lib scene camera rstk [] bounceLimit).1.hitObjType
            = HitObjectType.HIT_ON_LENS → 2 ≤ (v0 :: rest).length)
      ∧ ((lightTrace lib scene camera rstk [] bounceLimit).1.hitObjType
            ≠ HitObjectType.HIT_ON_LENS →
          (lightTrace lib scene camera rstk [] bounceLimit).1
            = ⟨Color.black, 0, 0, HitObjectType.HIT_ON_OBJECT⟩) := by
  obtain ⟨v0, j, new, hv0, hpdf, _, _, hverts, _, hcase⟩ :=
    pathTrace_walk lib scene camera x y rstk [] bounceLimit
  obtain ⟨w0, i, new2, hw0, hpdf2, _, _, hverts2, _, hcase2⟩ :=
    lightTrace_walk lib scene camera rstk [] bounceLimit
  have h1 := subpath_classification ObjectType.OBJECT_TYPE_LENS ObjectType.OBJECT_TYPE_LIGHT
    HitObjectType.HIT_ON_LIGHT _ v0 new hv0 (by decide) (by decide)
    (fun u hu => ⟨(Vertex.isSurface_ne u hu).2, (Vertex.isSurface_ne u hu).1⟩) hcase
  have h2 := subpath_classification ObjectType.OBJECT_TYPE_LIGHT ObjectType.OBJECT_TYPE_LENS
    HitObjectType.HIT_ON_LENS _ w0 new2 hw0 (by decide) (by decide)
    (fun u hu => Vertex.isSurface_ne u hu) hcase2
  exact ⟨⟨v0, new, by rw [hverts]; rfl, hv0, hpdf, h1⟩,
    ⟨w0, new2, by rw [hverts2]; rfl, hw0, hpdf2, h2⟩⟩

/-! ## The backward recurrence of the lens estimator -/

theorem misBackward_succ (pi1pi p : Nat → Double) (m : Nat) :
    misBackward pi1pi (m + 1) p
      = misBackward pi1pi m (Function.update p m (p (m + 1) / pi1pi m)) := by
  unfold misBackward
  rw [List.range_succ, List.reverse_append]
  rfl

theorem calcMISWeight_backward_zero_divisor (lib : Lib) (scene : Scene) (camera : DoFCamera)
    (eyeVerts lightVerts : List Vertex) (m : Nat) (p : Nat → Double) :
    misRatios lib scene camera (misChain eyeVerts lightVerts 0 (m + 1)) m = 0
    ∧ misBackward (misRatios lib scene camera (misChain eyeVerts lightVerts 0 (m + 1))) (m + 1) p
      = misBackward (misRatios lib scene camera (misChain eyeVerts lightVerts 0 (m + 1))) m
          (Function.update p m (p (m + 1) / 0)) := by
  have h0 : misRatios lib scene camera (misChain eyeVerts lightVerts 0 (m + 1)) m = 0 := by
    have h := misRatios_last lib scene camera (misChain eyeVerts lightVerts 0 (m + 1))
    rw [misChain_length] at h
    simpa using h
  refine ⟨h0, ?_⟩
  rw [misBackward_succ, h0]

/-- Claim C23, the failing input: the call `calcMISWeight(scene, camera, 1.0, eyeVerts,
lightVerts, 0, 2)` of the lens estimator for a light subpath of a light vertex and a lens
vertex, with light area, lens area, roulette probability and the value of `calcPdfA` all
equal to 1. The ratio `pi1pi[1]` is the constant 0 stored at index `k`, the backward
recurrence computes `p[1] = p[2] / pi1pi[1]` with this divisor, the density becomes
infinite and the returned weight is 0. -/
theorem calcMISWeight_lens_estimator_zero_divisor :
    Double.lt 0 unitScene.lightArea = true ∧ Double.lt 0 unitCamera.lensArea = true
    ∧ Double.lt 0 (misRoulette unitLib unitScene
        (misChain [] [sampleVertex ObjectType.OBJECT_TYPE_LIGHT 1,
          sampleVertex ObjectType.OBJECT_TYPE_LENS 1] 0 2)) = true
    ∧ Double.lt 0 (calcPdfA unitLib unitScene unitCamera
        (misChain [] [sampleVertex ObjectType.OBJECT_TYPE_LIGHT 1,
          sampleVertex ObjectType.OBJECT_TYPE_LENS 1] 0 2) 2 1 0) = true
    ∧ misRatios unitLib unitScene unitCamera
        (misChain [] [sampleVertex ObjectType.OBJECT_TYPE_LIGHT 1,
          sampleVertex ObjectType.OBJECT_TYPE_LENS 1] 0 2) 1 = 0
    ∧ misDensities (misRatios unitLib unitScene unitCamera
          (misChain [] [sampleVertex ObjectType.OBJECT_TYPE_LIGHT 1,
            sampleVertex ObjectType.OBJECT_TYPE_LENS 1] 0 2))
        (misChain [] [sampleVertex ObjectType.OBJECT_TYPE_LIGHT 1,
          sampleVertex ObjectType.OBJECT_TYPE_LENS 1] 0 2) 1 2 1 = Double.pinf
    ∧ calcMISWeight unitLib unitScene unitCamera 1 []
        [sampleVertex ObjectType.OBJECT_TYPE_LIGHT 1,
          sampleVertex ObjectType.OBJECT_TYPE_LENS 1] 0 2 = 0 := by
  decide!

/-! ## Bounds of the weight -/

theorem foldl_misBackwardStep_not_mem (pi1pi : Nat → Double) (j : Nat) (l : List Nat)
    (hj : j ∉ l) : ∀ p : Nat → Double, l.foldl (misBackwardStep pi1pi) p j = p j := by
  induction l with
  | nil => intro p; rfl
  | cons a t ih =>
      intro p
      rw [List.foldl_cons, ih (fun h => hj (List.mem_cons_of_mem a h))]
      unfold misBackwardStep
      exact Function.update_noteq (fun h => hj (by rw [h]; exact List.mem_cons_self a t)) _ _

theorem foldl_misForwardStep_not_succ (pi1pi : Nat → Double) (j : Nat) (l : List Nat)
    (hj : ∀ i ∈ l, i + 1 ≠ j) : ∀ p : Nat → Double, l.foldl (misForwardStep pi1pi) p j = p j := by
  induction l with
  | nil => intro p; rfl
  | cons a t ih =>
      intro p
      rw [List.foldl_cons, ih (fun i hi => hj i (List.mem_cons_of_mem a hi))]
      unfold misForwardStep
      exact Function.update_noteq (fun h => hj a (List.mem_cons_self a t) h.symm) _ _

theorem misDensities_at_split (pi1pi : Nat → Double) (verts : List Vertex)
    (totalPdfA : Double) (s : Nat)
    (hspec : ∀ i, i < verts.length → (i = s ∨ i + 1 = s) →
      (vertexAt verts i).objtype ≠ ObjectType.OBJECT_TYPE_SPECULAR) :
    misDensities pi1pi verts totalPdfA s s = totalPdfA := by
  unfold misDensities misSpecular
  rw [foldl_misSpecularStep_keep verts s (List.range verts.length)]
  · unfold misBackward
    rw [foldl_misBackwardStep_not_mem pi1pi s _ (by simp)]
    unfold misForward
    rw [foldl_misForwardStep_not_succ pi1pi s _
      (by intro i hi; rw [List.mem_range'_1] at hi; omega)]
    exact Function.update_same _ _ _
  · intro i hi hs
    have hlt := List.mem_range.mp hi
    constructor
    · intro h
      exact hspec i hlt (Or.inl h.symm) hs
    · intro h
      exact hspec i hlt (Or.inr h.symm) hs

theorem powerHeuristic_bounds (p : Nat → Double) (size s : Nat) (q : Nat → ℚ)
    (hs : s < size) (hq : q s ≠ 0) (hfin : ∀ i, i < size → p i = Double.fin (q i)) :
    ∃ w : ℚ, powerHeuristic p size s = Double.fin w ∧ 0 < w ∧ w ≤ 1
      ∧ (w = 1 ↔ ∀ i, i < size → i ≠ s → q i = 0) := by
  have hsum : (List.range size).foldl (fun acc i => acc + p i * p i) 0
      = Double.fin (∑ i in Finset.range size, q i * q i) :=
    foldl_add_fin (fun i => p i * p i) (fun i => q i * q i) size
      (fun i hi => by show p i * p i = _; rw [hfin i hi, Double.fin_mul_fin])
  have hmem : s ∈ Finset.range size := Finset.mem_range.mpr hs
  have hsplit : ∑ i in Finset.range size, q i * q i
      = q s * q s + ∑ i in (Finset.range size).erase s, q i * q i :=
    (Finset.add_sum_erase _ _ hmem).symm
  have hrest : 0 ≤ ∑ i in (Finset.range size).erase s, q i * q i :=
    Finset.sum_nonneg (fun i _ => mul_self_nonneg (q i))
  have hpos : 0 < q s * q s := mul_self_pos.mpr hq
  have hT : 0 < ∑ i in Finset.range size, q i * q i := by rw [hsplit]; linarith
  refine ⟨q s * q s / ∑ i in Finset.range size, q i * q i, ?_, div_pos hpos hT, ?_, ?_⟩
  · unfold powerHeuristic
    rw [hsum, hfin s hs, Double.fin_mul_fin, Double.fin_div_fin _ (ne_of_gt hT)]
  · rw [div_le_one hT, hsplit]
    linarith
  · rw [div_eq_one_iff_eq (ne_of_gt hT), hsplit]
    constructor
    · intro h i hi hne
      have hz : ∑ i in (Finset.range size).erase s, q i * q i = 0 := by linarith
      have hi2 : i ∈ (Finset.range size).erase s :=
        Finset.mem_erase.mpr ⟨hne, Finset.mem_range.mpr hi⟩
      have := (Finset.sum_eq_zero_iff_of_nonneg (fun j _ => mul_self_nonneg (q j))).mp hz i hi2
      exact mul_self_eq_zero.mp this
    · intro h
      have hz : ∑ i in (Finset.range size).erase s, q i * q i = 0 := by
        apply Finset.sum_eq_zero
        intro i hi
        have h1 := Finset.mem_erase.mp hi
        rw [h i (Finset.mem_range.mp h1.2) h1.1, mul_zero]
      rw [hz, add_zero]

/-- Claim C24: when the density `totalPdfA` of the strategy used is a non-zero number,
neither chain vertex `nLightVerts - 1` nor chain vertex `nLightVerts` is Specular and all
`nEyeVerts + nLightVerts + 1` strategy densities `p[i]` are numbers `q i`, the weight
returned by `calcMISWeight` is a number `w` with `0 < w <= 1`, and `w = 1` exactly when
every other strategy density is 0. -/
theorem calcMISWeight_bounds (lib : Lib) (scene : Scene) (camera : DoFCamera)
    (totalPdfA : Double) (eyeVerts lightVerts : List Vertex) (nEyeVerts nLightVerts : Nat)
    (t : ℚ) (q : Nat → ℚ) (ht : totalPdfA = Double.fin t) (ht0 : t ≠ 0)
    (hspec : ∀ i, i < nEyeVerts + nLightVerts → (i = nLightVerts ∨ i + 1 = nLightVerts) →
      (vertexAt (misChain eyeVerts lightVerts nEyeVerts nLightVerts) i).objtype
        ≠ ObjectType.OBJECT_TYPE_SPECULAR)
    (hfin : ∀ i, i < nEyeVerts + nLightVerts + 1 →
      misDensities (misRatios lib scene camera
          (misChain eyeVerts lightVerts nEyeVerts nLightVerts))
        (misChain eyeVerts lightVerts nEyeVerts nLightVerts) totalPdfA nLightVerts i
        = Double.fin (q i)) :
    ∃ w : ℚ,
      calcMISWeight lib scene camera totalPdfA eyeVerts lightVerts nEyeVerts nLightVerts
        = Double.fin w
      ∧ 0 < w ∧ w ≤ 1
      ∧ (w = 1 ↔ ∀ i, i < nEyeVerts + nLightVerts + 1 → i ≠ nLightVerts → q i = 0) := by
  have hs : nLightVerts < nEyeVerts + nLightVerts + 1 := by omega
  have hsplit := misDensities_at_split
    (misRatios lib scene camera (misChain eyeVerts lightVerts nEyeVerts nLightVerts))
    (misChain eyeVerts lightVerts nEyeVerts nLightVerts) totalPdfA nLightVerts
    (by rw [misChain_length]; exact hspec)
  have hq : q nLightVerts = t := by
    have h := hfin nLightVerts hs
    rw [hsplit, ht] at h
    injection h with h
    exact h.symm
  have hw : calcMISWeight lib scene camera totalPdfA eyeVerts lightVerts nEyeVerts nLightVerts
      = powerHeuristic
        (misDensities (misRatios lib scene camera
            (misChain eyeVerts lightVerts nEyeVerts nLightVerts))
          (misChain eyeVerts lightVerts nEyeVerts nLightVerts) totalPdfA nLightVerts)
        (nEyeVerts + nLightVerts + 1) nLightVerts := by
    unfold calcMISWeight
    exact one_div_misPowerSum _ _ _ (by rw [hsplit, ht]) ht0
  rw [hw]
  exact powerHeuristic_bounds _ _ _ q hs (by rw [hq]; exact ht0) hfin

/-- Witness for claim C24: a diffuse eye vertex connected to the light vertex; the
densities are 1, 1 and 0. -/
theorem calcMISWeight_bounds_witness :
    ∃ w : ℚ,
      calcMISWeight unitLib unitScene unitCamera 1
          [sampleVertex ObjectType.OBJECT_TYPE_DIFFUSE 1]
          [sampleVertex ObjectType.OBJECT_TYPE_LIGHT 1] 1 1 = Double.fin w
      ∧ 0 < w ∧ w ≤ 1
      ∧ (w = 1 ↔ ∀ i, i < 1 + 1 + 1 → i ≠ 1 → (fun i : Nat => if i < 2 then (1 : ℚ) else 0) i = 0) :=
  calcMISWeight_bounds unitLib unitScene unitCamera 1
    [sampleVertex ObjectType.OBJECT_TYPE_DIFFUSE 1]
    [sampleVertex ObjectType.OBJECT_TYPE_LIGHT 1] 1 1 1 (fun i => if i < 2 then 1 else 0)
    rfl (by norm_num) (by decide) (by decide!)

/-! ## Index safety of `calcMISWeight` -/

theorem foldlM_eq_some_foldl {α β : Type} (f : β → α → Option β) (g : β → α → β)
    (l : List α) (h : ∀ a ∈ l, ∀ b, f b a = some (g b a)) :
    ∀ b, l.foldlM f b = some (l.foldl g b) := by
  induction l with
  | nil => intro b; rfl
  | cons a t ih =>
      intro b
      rw [List.foldlM_cons, h a (List.mem_cons_self a t) b]
      exact ih (fun a1 h1 => h a1 (List.mem_cons_of_mem a h1)) (g b a)

theorem writeAt_eq (size : Nat) (a : Nat → Double) (i : Nat) (v : Double) (h : i < size) :
    writeAt size a i v = some (Function.update a i v) := by
  unfold writeAt
  rw [if_pos h]

theorem calcPdfAChecked_eq (lib : Lib) (scene : Scene) (camera : DoFCamera)
    (verts : List Vertex) (prevFromIdx : Int) (fromIdx nextIdx : Nat)
    (h1 : fromIdx < verts.length) (h2 : nextIdx < verts.length) :
    calcPdfAChecked lib scene camera verts prevFromIdx fromIdx nextIdx
      = some (calcPdfA lib scene camera verts prevFromIdx fromIdx nextIdx) := by
  unfold calcPdfAChecked
  rw [if_pos ⟨h1, h2⟩]

theorem misChainChecked_eq (eyeVerts lightVerts : List Vertex) (nEyeVerts nLightVerts : Nat)
    (he : nEyeVerts ≤ eyeVerts.length) (hl : nLightVerts ≤ lightVerts.length) :
    misChainChecked eyeVerts lightVerts nEyeVerts nLightVerts
      = some (misChain eyeVerts lightVerts nEyeVerts nLightVerts) := by
  unfold misChainChecked
  rw [if_pos]
  rw [Bool.and_eq_true, List.all_eq_true, List.all_eq_true]
  constructor
  · intro i hi
    have := List.mem_range.mp hi
    rw [Bool.and_eq_true, decide_eq_true_eq, decide_eq_true_eq]
    omega
  · intro i hi
    have := List.mem_range.mp hi
    rw [Bool.and_eq_true, decide_eq_true_eq, decide_eq_true_eq]
    omega

theorem misRatiosChecked_eq (lib : Lib) (scene : Scene) (camera : DoFCamera)
    (verts : List Vertex) (hn : 2 ≤ verts.length) :
    misRatiosChecked lib scene camera verts = some (misRatios lib scene camera verts) := by
  unfold misRatiosChecked misRouletteChecked
  rw [if_pos (by omega), Option.some_bind,
    calcPdfAChecked_eq lib scene camera verts 2 1 0 (by omega) (by omega), Option.some_bind,
    writeAt_eq _ _ _ _ (by omega), Option.some_bind]
  rw [foldlM_eq_some_foldl (misRatioStepChecked lib scene camera verts)
    (fun (pi1pi : Nat → Double) (i : Nat) =>
      Function.update pi1pi i
        (calcPdfA lib scene camera verts ((i : Int) - 2) (i - 1) i
          / calcPdfA lib scene camera verts ((i : Int) + 2) (i + 1) i))]
  · rw [Option.some_bind, writeAt_eq _ _ _ _ (by omega)]
    rfl
  · intro i hi b
    rw [List.mem_range'_1] at hi
    unfold misRatioStepChecked
    rw [calcPdfAChecked_eq lib scene camera verts _ _ _ (by omega) (by omega), Option.some_bind,
      calcPdfAChecked_eq lib scene camera verts _ _ _ (by omega) (by omega), Option.some_bind,
      writeAt_eq _ _ _ _ (by omega)]

theorem misDensitiesChecked_eq (pi1pi : Nat → Double) (verts : List Vertex)
    (totalPdfA : Double) (nLightVerts : Nat) (hl : nLightVerts ≤ verts.length) :
    ((writeAt (verts.length + 1) (fun _ => 0) nLightVerts totalPdfA).bind fun p0 =>
      ((List.range' nLightVerts (verts.length - nLightVerts)).foldlM
        (misForwardStepChecked verts.length pi1pi) p0).bind fun p1 =>
        ((List.range nLightVerts).reverse.foldlM
          (misBackwardStepChecked verts.length pi1pi) p1).bind fun p2 =>
          (List.range verts.length).foldlM (misSpecularStepChecked verts) p2)
      = some (misDensities pi1pi verts totalPdfA nLightVerts) := by
  rw [writeAt_eq _ _ _ _ (by omega), Option.some_bind]
  rw [foldlM_eq_some_foldl (misForwardStepChecked verts.length pi1pi) (misForwardStep pi1pi),
    Option.some_bind]
  · rw [foldlM_eq_some_foldl (misBackwardStepChecked verts.length pi1pi)
      (misBackwardStep pi1pi), Option.some_bind]
    · rw [foldlM_eq_some_foldl (misSpecularStepChecked verts) (misSpecularStep verts)]
      · rfl
      · intro i hi b
        have := List.mem_range.mp hi
        unfold misSpecularStepChecked
        rw [if_pos ⟨by omega, fun _ => ⟨by omega, by omega⟩⟩]
    · intro i hi b
      have := List.mem_range.mp (List.mem_reverse.mp hi)
      unfold misBackwardStepChecked
      rw [if_pos ⟨by omega, by omega, by omega⟩]
  · intro i hi b
    rw [List.mem_range'_1] at hi
    unfold misForwardStepChecked
    rw [if_pos ⟨by omega, by omega, by omega⟩]

theorem misPowerSumChecked_eq (p : Nat → Double) (size nLightVerts : Nat)
    (hs : nLightVerts < size) :
    (List.range size).foldlM (misPowerStepChecked p size nLightVerts) 0
      = some (misPowerSum p size nLightVerts) := by
  unfold misPowerSum
  apply foldlM_eq_some_foldl
  intro i hi b
  have := List.mem_range.mp hi
  unfold misPowerStepChecked
  rw [if_pos ⟨by omega, hs⟩]

theorem calcMISWeightChecked_eq (lib : Lib) (scene : Scene) (camera : DoFCamera)
    (totalPdfA : Double) (eyeVerts lightVerts : List Vertex) (nEyeVerts nLightVerts : Nat)
    (he : nEyeVerts ≤ eyeVerts.length) (hl : nLightVerts ≤ lightVerts.length)
    (hn : 2 ≤ nEyeVerts + nLightVerts) :
    calcMISWeightChecked lib scene camera totalPdfA eyeVerts lightVerts nEyeVerts nLightVerts
      = some (calcMISWeight lib scene camera totalPdfA eyeVerts lightVerts nEyeVerts
          nLightVerts) := by
  have hlen := misChain_length eyeVerts lightVerts nEyeVerts nLightVerts
  have hd := misDensitiesChecked_eq
    (misRatios lib scene camera (misChain eyeVerts lightVerts nEyeVerts nLightVerts))
    (misChain eyeVerts lightVerts nEyeVerts nLightVerts) totalPdfA nLightVerts
    (by rw [hlen]; omega)
  unfold calcMISWeightChecked
  rw [misChainChecked_eq eyeVerts lightVerts nEyeVerts nLightVerts he hl, Option.some_bind,
    misRatiosChecked_eq lib scene camera _ (by rw [hlen]; exact hn), Option.some_bind]
  cases hw : writeAt ((misChain eyeVerts lightVerts nEyeVerts nLightVerts).length + 1)
      (fun _ => 0) nLightVerts totalPdfA with
  | none => rw [hw] at hd; cases hd
  | some p0 =>
    rw [hw, Option.some_bind] at hd
    rw [Option.some_bind]
    cases h1 : (List.range' nLightVerts
        ((misChain eyeVerts lightVerts nEyeVerts nLightVerts).length - nLightVerts)).foldlM
        (misForwardStepChecked (misChain eyeVerts lightVerts nEyeVerts nLightVerts).length
          (misRatios lib scene camera (misChain eyeVerts lightVerts nEyeVerts nLightVerts)))
        p0 with
    | none => rw [h1] at hd; cases hd
    | some p1 =>
      rw [h1, Option.some_bind] at hd
      rw [Option.some_bind]
      cases h2 : (List.range nLightVerts).reverse.foldlM
          (misBackwardStepChecked (misChain eyeVerts lightVerts nEyeVerts nLightVerts).length
            (misRatios lib scene camera (misChain eyeVerts lightVerts nEyeVerts nLightVerts)))
          p1 with
      | none => rw [h2] at hd; cases hd
      | some p2 =>
        rw [h2, Option.some_bind] at hd
        rw [Option.some_bind, hd, Option.some_bind,
          misPowerSumChecked_eq _ _ _ (by omega), Option.some_bind]
        rfl

theorem calcPdfA_prev_out_of_range (lib : Lib) (scene : Scene) (camera : DoFCamera)
    (verts : List Vertex) (prevFromIdx : Int) (fromIdx nextIdx : Nat)
    (h : ¬ (0 ≤ prevFromIdx ∧ prevFromIdx < (verts.length : Int))) :
    calcPdfA lib scene camera verts prevFromIdx fromIdx nextIdx
      = calcPdfA lib scene camera verts (-1) fromIdx nextIdx := by
  have h1 : ¬ (0 ≤ (-1 : Int) ∧ (-1 : Int) < (verts.length : Int)) := by omega
  unfold calcPdfA
  simp only [if_neg h, if_neg h1]

theorem pathTrace_hit_light_length (lib : Lib) (scene : Scene) (camera : DoFCamera)
    (x y : Int) (rstk : Stack) (bounceLimit : Nat)
    (h : (pathTrace lib scene camera x y rstk [] bounceLimit).1.hitObjType
      = HitObjectType.HIT_ON_LIGHT) :
    2 ≤ (pathTrace lib scene camera x y rstk [] bounceLimit).2.vertices.length := by
  obtain ⟨v0, j, new, hv0, _, _, _, hverts, _, hcase⟩ :=
    pathTrace_walk lib scene camera x y rstk [] bounceLimit
  have h1 := subpath_classification ObjectType.OBJECT_TYPE_LENS ObjectType.OBJECT_TYPE_LIGHT
    HitObjectType.HIT_ON_LIGHT _ v0 new hv0 (by decide) (by decide)
    (fun u hu => ⟨(Vertex.isSurface_ne u hu).2, (Vertex.isSurface_ne u hu).1⟩) hcase
  rw [hverts]
  exact h1.2.2.2.1 h

theorem lightTrace_hit_lens_length (lib : Lib) (scene : Scene) (camera : DoFCamera)
    (rstk : Stack) (bounceLimit : Nat)
    (h : (lightTrace lib scene camera rstk [] bounceLimit).1.hitObjType
      = HitObjectType.HIT_ON_LENS) :
    2 ≤ (lightTrace lib scene camera rstk [] bounceLimit).2.vertices.length := by
  obtain ⟨v0, j, new, hv0, _, _, _, hverts, _, hcase⟩ :=
    lightTrace_walk lib scene camera rstk [] bounceLimit
  have h1 := subpath_classification ObjectType.OBJECT_TYPE_LIGHT ObjectType.OBJECT_TYPE_LENS
    HitObjectType.HIT_ON_LENS _ v0 new hv0 (by decide) (by decide)
    (fun u hu => Vertex.isSurface_ne u hu) hcase
  rw [hverts]
  exact h1.2.2.2.1 h

/-- Claim C25: the three calls of `calcMISWeight` in `executeBPT` (after a hit on the
light with all eye vertices and no light vertex, after a hit on the lens with all light
vertices and no eye vertex, and in the connection loop with `1 <= eyeVertId <=
|eyeVerts|` and `1 <= lightVertId <= |lightVerts|`) have `nEyeVerts <= |eyeVerts|`,
`nLightVerts <= |lightVerts|` and `nEyeVerts + nLightVerts >= 2`; under these three
conditions the function with every array access checked returns the value of
`calcMISWeight`, so no index is out of range; and `calcPdfA` with a `prevFromIdx`
outside the chain computes what it computes without a previous vertex. -/
theorem calcMISWeight_indices_in_range (lib : Lib) (scene : Scene) (camera : DoFCamera)
    (rstk : Stack) (x y : Int) (bounceLimit : Nat) :
    let pt := pathTrace lib scene camera x y rstk [] bounceLimit
    let lt := lightTrace lib scene camera pt.2.rstk [] bounceLimit
    (pt.1.hitObjType = HitObjectType.HIT_ON_LIGHT →
      2 ≤ pt.2.vertices.length
      ∧ ∀ totalPdfA, calcMISWeightChecked lib scene camera totalPdfA pt.2.vertices
            lt.2.vertices pt.2.vertices.length 0
          = some (calcMISWeight lib scene camera totalPdfA pt.2.vertices lt.2.vertices
              pt.2.vertices.length 0))
    ∧ (lt.1.hitObjType = HitObjectType.HIT_ON_LENS →
      2 ≤ lt.2.vertices.length
      ∧ ∀ totalPdfA, calcMISWeightChecked lib scene camera totalPdfA pt.2.vertices
            lt.2.vertices 0 lt.2.vertices.length
          = some (calcMISWeight lib scene camera totalPdfA pt.2.vertices lt.2.vertices 0
              lt.2.vertices.length))
    ∧ (∀ eyeVertId ∈ List.range' 1 pt.2.vertices.length,
        ∀ lightVertId ∈ List.range' 1 lt.2.vertices.length,
          eyeVertId ≤ pt.2.vertices.length ∧ lightVertId ≤ lt.2.vertices.length
          ∧ 2 ≤ eyeVertId + lightVertId
          ∧ ∀ totalPdfA, calcMISWeightChecked lib scene camera totalPdfA pt.2.vertices
                lt.2.vertices eyeVertId lightVertId
              = some (calcMISWeight lib scene camera totalPdfA pt.2.vertices lt.2.vertices
                  eyeVertId lightVertId))
    ∧ (∀ (totalPdfA : Double) (eyeVerts lightVerts : List Vertex) (nEyeVerts nLightVerts : Nat),
        nEyeVerts ≤ eyeVerts.length → nLightVerts ≤ lightVerts.length →
        2 ≤ nEyeVerts + nLightVerts →
        calcMISWeightChecked lib scene camera totalPdfA eyeVerts lightVerts nEyeVerts
            nLightVerts
          = some (calcMISWeight lib scene camera totalPdfA eyeVerts lightVerts nEyeVerts
              nLightVerts))
    ∧ ∀ (verts : List Vertex) (prevFromIdx : Int) (fromIdx nextIdx : Nat),
        ¬ (0 ≤ prevFromIdx ∧ prevFromIdx < (verts.length : Int)) →
        calcPdfA lib scene camera verts prevFromIdx fromIdx nextIdx
          = calcPdfA lib scene camera verts (-1) fromIdx nextIdx := by
  intro pt lt
  refine ⟨?_, ?_, ?_, ?_, ?_⟩
  · intro h
    have h2 := pathTrace_hit_light_length lib scene camera x y rstk bounceLimit h
    exact ⟨h2, fun totalPdfA => calcMISWeightChecked_eq lib scene camera totalPdfA _ _ _ _
      le_rfl (Nat.zero_le _) (Nat.le_trans h2 (Nat.le_add_right _ _))⟩
  · intro h
    have h2 := lightTrace_hit_lens_length lib scene camera pt.2.rstk bounceLimit h
    exact ⟨h2, fun totalPdfA => calcMISWeightChecked_eq lib scene camera totalPdfA _ _ _ _
      (Nat.zero_le _) le_rfl (Nat.le_trans h2 (Nat.le_add_left _ _))⟩
  · intro e he l hl
    rw [List.mem_range'_1] at he hl
    exact ⟨by omega, by omega, by omega,
      fun totalPdfA => calcMISWeightChecked_eq lib scene camera totalPdfA _ _ _ _
        (by omega) (by omega) (by omega)⟩
  · intro totalPdfA eyeVerts lightVerts nE nL he hl hn
    exact calcMISWeightChecked_eq lib scene camera totalPdfA eyeVerts lightVerts nE nL he hl hn
  · intro verts prev fromIdx nextIdx h
    exact calcPdfA_prev_out_of_range lib scene camera verts prev fromIdx nextIdx h

/-- An example for claim C25: with fewer than two chain vertices the checked function
fails at `verts[1]`, and for the chain of one light and one eye vertex it returns the
weight. -/
theorem calcMISWeightChecked_example :
    calcMISWeightChecked unitLib unitScene unitCamera 1
        [sampleVertex ObjectType.OBJECT_TYPE_DIFFUSE 1] [] 1 0 = none
    ∧ calcMISWeightChecked unitLib unitScene unitCamera 1
        [sampleVertex ObjectType.OBJECT_TYPE_DIFFUSE 1]
        [sampleVertex ObjectType.OBJECT_TYPE_LIGHT 1] 1 1 = some (Double.fin (1 / 2)) := by
  decide!

/-! ## Range of the diffuse Fresnel reflectance -/

theorem ParamMap.get_empty {V : Type} (kind name : String) :
    (ParamMap.empty : ParamMap V).get kind name
      = Outcome.assertionFailed (kind ++ " not found: name = " ++ name) := rfl

theorem ParamMap.getOr_empty {V : Type} (name : String) (value : V) :
    (ParamMap.empty : ParamMap V).getOr name value = value := rfl

theorem ParamMap.get_insert {V : Type} (m : ParamMap V) (kind name : String) (value : V) :
    (m.insert name value).get kind name = Outcome.ok value := by
  unfold ParamMap.get ParamMap.insert
  simp only [if_true]

/-- Claim C27, the failing inputs: a value of type `Bounds2d`, `Bounds3d` or `Transform`
that was added before `clear()` is still returned by its getter afterwards, because
`clear` does not clear the maps `bounds2ds`, `bounds3ds` and `transforms`; for the other
eleven maps every getter without a default fails with its assertion after `clear()` and
every getter with a default returns the default. -/
theorem RenderParams.clear_keeps_three_maps (T : ParamTypes) (p : RenderParams T)
    (name : String) (b2 : T.Bounds2d) (b3 : T.Bounds3d) (t : T.Transform) :
    ((p.addBounds2d name b2).clear.getBounds2d name = Outcome.ok b2
      ∧ (p.addBounds3d name b3).clear.getBounds3d name = Outcome.ok b3
      ∧ (p.addTransform name t).clear.getTransform name = Outcome.ok t)
    ∧ (p.clear.getBool name = Outcome.assertionFailed ("Bool not found: name = " ++ name)
      ∧ p.clear.getInt name = Outcome.assertionFailed ("Int not found: name = " ++ name)
      ∧ p.clear.getDouble name
          = Outcome.assertionFailed ("Double not found: name = " ++ name)
      ∧ p.clear.getString name
          = Outcome.assertionFailed ("String not found: name = " ++ name)
      ∧ p.clear.getPoint2d name
          = Outcome.assertionFailed ("Point2d not found: name = " ++ name)
      ∧ p.clear.getVector2d name
          = Outcome.assertionFailed ("Vector2d not found: name = " ++ name)
      ∧ p.clear.getPoint3d name
          = Outcome.assertionFailed ("Point3d not found: name = " ++ name)
      ∧ p.clear.getVector3d name
          = Outcome.assertionFailed ("Vector3d not found: name = " ++ name)
      ∧ p.clear.getNormal3d name
          = Outcome.assertionFailed ("Normal not found: name = " ++ name)
      ∧ p.clear.getSpectrum name
          = Outcome.assertionFailed ("Spectrum not found: name = " ++ name)
      ∧ p.clear.getObject name
          = Outcome.assertionFailed ("Object not found: name = " ++ name))
    ∧ (∀ (vb : Bool) (vi : Int) (vd : Double) (vs : String),
        p.clear.getBoolOr name vb = vb ∧ p.clear.getIntOr name vi = vi
        ∧ p.clear.getDoubleOr name vd = vd ∧ p.clear.getStringOr name vs = vs) :=
  ⟨⟨ParamMap.get_insert _ _ _ _, ParamMap.get_insert _ _ _ _, ParamMap.get_insert _ _ _ _⟩,
   ⟨rfl, rfl, rfl, rfl, rfl, rfl, rfl, rfl, rfl, rfl, rfl⟩,
   fun _ _ _ _ => ⟨rfl, rfl, rfl, rfl⟩⟩

/-- Claim C28, the failing inputs: a value of type `Bounds2d`, `Vector3d`, `Bounds3d` or
`Transform` added to `b` is not found in a new bag `a` after `a = std::move(b)`, because
the move assignment does not assign the maps `bounds2ds`, `vector3ds`, `bounds3ds` and
`transforms`; the values of the other ten types are returned by the getters of `a`. -/
theorem RenderParams.moveAssign_drops_four_maps (T : ParamTypes) (a b : RenderParams T)
    (name : String) (vBool : Bool) (vInt : Int) (vDouble : Double) (vString : String)
    (p2 : T.Point2d) (v2 : T.Vector2d) (b2 : T.Bounds2d) (p3 : T.Point3d) (v3 : T.Vector3d)
    (b3 : T.Bounds3d) (n3 : T.Normal3d) (sp : T.Spectrum) (tr : T.Transform) (ob : T.Object) :
    ((RenderParams.new.moveAssign (b.addBounds2d name b2)).getBounds2d name
        = Outcome.assertionFailed ("Bounds2d not found: name = " ++ name)
      ∧ (RenderParams.new.moveAssign (b.addVector3d name v3)).getVector3d name
        = Outcome.assertionFailed ("Vector3d not found: name = " ++ name)
      ∧ (RenderParams.new.moveAssign (b.addBounds3d name b3)).getBounds3d name
        = Outcome.assertionFailed ("Bounds3d not found: name = " ++ name)
      ∧ (RenderParams.new.moveAssign (b.addTransform name tr)).getTransform name
        = Outcome.assertionFailed ("Transform not found: name = " ++ name))
    ∧ ((a.moveAssign (b.addBounds2d name b2)).getBounds2d name = a.getBounds2d name
      ∧ (a.moveAssign (b.addVector3d name v3)).getVector3d name = a.getVector3d name
      ∧ (a.moveAssign (b.addBounds3d name b3)).getBounds3d name = a.getBounds3d name
      ∧ (a.moveAssign (b.addTransform name tr)).getTransform name = a.getTransform name)
    ∧ ((a.moveAssign (b.addBool name vBool)).getBool name = Outcome.ok vBool
      ∧ (a.moveAssign (b.addInt name vInt)).getInt name = Outcome.ok vInt
      ∧ (a.moveAssign (b.addDouble name vDouble)).getDouble name = Outcome.ok vDouble
      ∧ (a.moveAssign (b.addString name vString)).getString name = Outcome.ok vString
      ∧ (a.moveAssign (b.addPoint2d name p2)).getPoint2d name = Outcome.ok p2
      ∧ (a.moveAssign (b.addVector2d name v2)).getVector2d name = Outcome.ok v2
      ∧ (a.moveAssign (b.addPoint3d name p3)).getPoint3d name = Outcome.ok p3
      ∧ (a.moveAssign (b.addNormal3d name n3)).getNormal3d name = Outcome.ok n3
      ∧ (a.moveAssign (b.addSpectrum name sp)).getSpectrum name = Outcome.ok sp
      ∧ (a.moveAssign (b.addObject name ob)).getObject name = Outcome.ok ob) :=
  ⟨⟨rfl, rfl, rfl, rfl⟩, ⟨rfl, rfl, rfl, rfl⟩,
   ⟨ParamMap.get_insert _ _ _ _, ParamMap.get_insert _ _ _ _, ParamMap.get_insert _ _ _ _,
    ParamMap.get_insert _ _ _ _, ParamMap.get_insert _ _ _ _, ParamMap.get_insert _ _ _ _,
    ParamMap.get_insert _ _ _ _, ParamMap.get_insert _ _ _ _, ParamMap.get_insert _ _ _ _,
    ParamMap.get_insert _ _ _ _⟩⟩

/-! ## The invariant of the vertex buffer -/

theorem VBO.addVertex_bounded (b : VBO) (v normal : Vector3D) (color : Color)
    (h : b.Bounded) :
    (b.addVertex v normal color).Bounded
      ∧ (b.addVertex v normal color).vertices.length = b.vertices.length + 3
      ∧ (b.addVertex v normal color).indices = b.indices := by
  obtain ⟨h1, h2, h3, h4⟩ := h
  refine ⟨⟨?_, ?_, ?_, ?_⟩, ?_, rfl⟩
  · simp only [VBO.addVertex, List.length_append, List.length_cons, List.length_nil, h1]
  · simp only [VBO.addVertex, List.length_append, List.length_cons, List.length_nil, h2]
  · simp only [VBO.addVertex, List.length_append, List.length_cons, List.length_nil]
    omega
  · intro i hi
    have := h4 i hi
    simp only [VBO.addVertex, List.length_append, List.length_cons, List.length_nil]
    omega
  · simp only [VBO.addVertex, List.length_append, List.length_cons, List.length_nil]

theorem VBO.pushIndex_bounded (b : VBO) (i : Nat) (h : b.Bounded)
    (hi : i < b.vertices.length / 3) :
    (b.pushIndex i).Bounded ∧ (b.pushIndex i).vertices.length = b.vertices.length
      ∧ (b.pushIndex i).indices.length = b.indices.length + 1 := by
  obtain ⟨h1, h2, h3, h4⟩ := h
  refine ⟨⟨h1, h2, h3, ?_⟩, rfl, ?_⟩
  · intro k hk
    simp only [VBO.pushIndex, List.mem_append, List.mem_singleton] at hk
    rcases hk with hk | hk
    · exact h4 k hk
    · rw [hk]
      exact lt_of_le_of_lt (Nat.mod_le _ _) hi
  · simp only [VBO.pushIndex, List.length_append, List.length_cons, List.length_nil]

theorem VBO.nextIndex_le (b : VBO) : b.nextIndex ≤ b.vertices.length / 3 := by
  unfold VBO.nextIndex
  exact Nat.div_le_div_right (Nat.mod_le _ _)

/-- Three vertices followed by three indices `idx + c` with `c <= 2`. -/
theorem VBO.add_three (b : VBO) (idx : Nat) (hidx : idx ≤ b.vertices.length / 3)
    (v0 v1 v2 n0 n1 n2 : Vector3D) (color : Color) (c0 c1 c2 : Nat) (h0 : c0 ≤ 2) (h1 : c1 ≤ 2)
    (h2 : c2 ≤ 2) (h : b.Valid) :
    ((((((b.addVertex v0 n0 color).addVertex v1 n1 color).addVertex v2 n2 color).pushIndex
      (idx + c0)).pushIndex (idx + c1)).pushIndex (idx + c2)).Valid := by
  obtain ⟨hb, hd⟩ := h
  obtain ⟨a1, l1, _⟩ := VBO.addVertex_bounded b v0 n0 color hb
  obtain ⟨a2, l2, _⟩ := VBO.addVertex_bounded _ v1 n1 color a1
  obtain ⟨a3, l3, _⟩ := VBO.addVertex_bounded _ v2 n2 color a2
  obtain ⟨a4, l4, k4⟩ := VBO.pushIndex_bounded _ (idx + c0) a3 (by rw [l3, l2, l1]; omega)
  obtain ⟨a5, l5, k5⟩ := VBO.pushIndex_bounded _ (idx + c1) a4 (by rw [l4, l3, l2, l1]; omega)
  obtain ⟨a6, _, k6⟩ := VBO.pushIndex_bounded _ (idx + c2) a5
    (by rw [l5, l4, l3, l2, l1]; omega)
  refine ⟨a6, ?_⟩
  rw [k6, k5, k4]
  have : ((b.addVertex v0 n0 color).addVertex v1 n1 color |>.addVertex v2 n2 color).indices
      = b.indices := rfl
  rw [this]
  omega

/-- Four vertices followed by six indices `idx + c` with `c <= 3`. -/
theorem VBO.add_four (b : VBO) (idx : Nat) (hidx : idx ≤ b.vertices.length / 3)
    (v0 v1 v2 v3 n0 n1 n2 n3 : Vector3D) (color : Color) (c0 c1 c2 c3 c4 c5 : Nat)
    (h0 : c0 ≤ 3) (h1 : c1 ≤ 3) (h2 : c2 ≤ 3) (h3 : c3 ≤ 3) (h4 : c4 ≤ 3) (h5 : c5 ≤ 3)
    (h : b.Valid) :
    ((((((((((b.addVertex v0 n0 color).addVertex v1 n1 color).addVertex v2 n2 color).addVertex
      v3 n3 color).pushIndex (idx + c0)).pushIndex (idx + c1)).pushIndex (idx + c2)).pushIndex
      (idx + c3)).pushIndex (idx + c4)).pushIndex (idx + c5)).Valid := by
  obtain ⟨hb, hd⟩ := h
  obtain ⟨a1, l1, _⟩ := VBO.addVertex_bounded b v0 n0 color hb
  obtain ⟨a2, l2, _⟩ := VBO.addVertex_bounded _ v1 n1 color a1
  obtain ⟨a3, l3, _⟩ := VBO.addVertex_bounded _ v2 n2 color a2
  obtain ⟨a4, l4, _⟩ := VBO.addVertex_bounded _ v3 n3 color a3
  obtain ⟨p1, m1, k1⟩ := VBO.pushIndex_bounded _ (idx + c0) a4 (by rw [l4, l3, l2, l1]; omega)
  obtain ⟨p2, m2, k2⟩ := VBO.pushIndex_bounded _ (idx + c1) p1
    (by rw [m1, l4, l3, l2, l1]; omega)
  obtain ⟨p3, m3, k3⟩ := VBO.pushIndex_bounded _ (idx + c2) p2
    (by rw [m2, m1, l4, l3, l2, l1]; omega)
  obtain ⟨p4, m4, k4⟩ := VBO.pushIndex_bounded _ (idx + c3) p3
    (by rw [m3, m2, m1, l4, l3, l2, l1]; omega)
  obtain ⟨p5, m5, k5⟩ := VBO.pushIndex_bounded _ (idx + c4) p4
    (by rw [m4, m3, m2, m1, l4, l3, l2, l1]; omega)
  obtain ⟨p6, _, k6⟩ := VBO.pushIndex_bounded _ (idx + c5) p5
    (by rw [m5, m4, m3, m2, m1, l4, l3, l2, l1]; omega)
  refine ⟨p6, ?_⟩
  rw [k6, k5, k4, k3, k2, k1]
  have : (((b.addVertex v0 n0 color).addVertex v1 n1 color |>.addVertex v2 n2 color).addVertex
      v3 n3 color).indices = b.indices := rfl
  rw [this]
  omega

theorem VBO.addTriangle_valid (b : VBO) (tri : Triangle) (color : Color) (h : b.Valid) :
    (b.addTriangle tri color).Valid :=
  VBO.add_three b b.nextIndex b.nextIndex_le _ _ _ _ _ _ color 0 1 2 (by omega) (by omega)
    (by omega) h

theorem VBO.addQuad_valid (b : VBO) (quad : Quad) (color : Color) (h : b.Valid) :
    (b.addQuad quad color).Valid :=
  VBO.add_four b b.nextIndex b.nextIndex_le _ _ _ _ _ _ _ _ color 0 1 2 2 3 0 (by omega)
    (by omega) (by omega) (by omega) (by omega) (by omega) h

theorem foldl_valid {α : Type} (f : VBO → α → VBO) (hf : ∀ b a, b.Valid → (f b a).Valid)
    (l : List α) : ∀ b : VBO, b.Valid → (l.foldl f b).Valid := by
  induction l with
  | nil => intro b h; exact h
  | cons a t ih => intro b h; exact ih _ (hf b a h)

theorem VBO.addSpherePatch_valid (lib : GeomLib) (sphere : Sphere) (color : Color) (i : Nat)
    (b : VBO) (j : Nat) (h : b.Valid) : (VBO.addSpherePatch lib sphere color i b j).Valid := by
  unfold VBO.addSpherePatch
  simp only []
  split
  · exact VBO.add_three b b.nextIndex b.nextIndex_le _ _ _ _ _ _ color 0 1 2 (by omega)
      (by omega) (by omega) h
  · split
    · exact VBO.add_three b b.nextIndex b.nextIndex_le _ _ _ _ _ _ color 0 1 2 (by omega)
        (by omega) (by omega) h
    · exact VBO.add_four b b.nextIndex b.nextIndex_le _ _ _ _ _ _ _ _ color 0 1 2 0 2 3
        (by omega) (by omega) (by omega) (by omega) (by omega) (by omega) h

theorem VBO.addSpherePatchViewer_valid (lib : GeomLib) (sphere : Sphere) (color : Color)
    (i : Nat) (b : VBO) (j : Nat) (h : b.Valid) :
    (VBO.addSpherePatchViewer lib sphere color i b j).Valid := by
  unfold VBO.addSpherePatchViewer
  simp only []
  split
  · exact VBO.addTriangle_valid b _ color h
  · split
    · exact VBO.addTriangle_valid b _ color h
    · exact VBO.addQuad_valid b _ color h

theorem VBO.call_valid (lib : GeomLib) (b : VBO) (c : VboCall) (h : b.Valid) :
    (b.call lib c).Valid := by
  cases c with
  | triangle tri color => exact VBO.addTriangle_valid b tri color h
  | quad quad color => exact VBO.addQuad_valid b quad color h
  | sphere sphere color =>
      exact foldl_valid _ (fun b1 i h1 => foldl_valid _
        (fun b2 j h2 => VBO.addSpherePatch_valid lib sphere color i b2 j h2) _ b1 h1) _ b h
  | sphereViewer sphere color =>
      exact foldl_valid _ (fun b1 i h1 => foldl_valid _
        (fun b2 j h2 => VBO.addSpherePatchViewer_valid lib sphere color i b2 j h2) _ b1 h1) _ b h
  | disk disk color =>
      exact foldl_valid _ (fun b1 i h1 => VBO.addTriangle_valid b1 _ color h1) _ b h
  | trimesh trimesh color =>
      exact foldl_valid _ (fun b1 i h1 => VBO.addTriangle_valid b1 _ color h1) _ b h

theorem VBO.empty_valid : VBO.empty.Valid :=
  ⟨⟨rfl, rfl, ⟨0, rfl⟩, fun i hi => absurd hi (List.not_mem_nil i)⟩, ⟨0, rfl⟩⟩

/-- Claim C29: after any sequence of calls of `add` for triangles, quads, spheres (either
version), disks and coloured meshes on an empty `VBO`, the vertex, normal and colour
arrays have the same length, a multiple of 3, the number of indices is a multiple of 3,
and every index is smaller than the number of vertices; for every buffer `b`,
`add(Triangle)` appends the 3 corners (9 coordinates) and the 3 indices `idx`, `idx + 1`,
`idx + 2`, and `add(Quad)` appends the 4 corners (12 coordinates) and the 6 indices
`idx`, `idx + 1`, `idx + 2`, `idx + 2`, `idx + 3`, `idx`. -/
theorem VBO.run_valid (lib : GeomLib) (calls : List VboCall) (b : VBO) (tri : Triangle)
    (quad : Quad) (color : Color) :
    ((VBO.run lib calls).normals.length = (VBO.run lib calls).vertices.length
      ∧ (VBO.run lib calls).colors.length = (VBO.run lib calls).vertices.length
      ∧ 3 ∣ (VBO.run lib calls).vertices.length
      ∧ 3 ∣ (VBO.run lib calls).indices.length
      ∧ ∀ i ∈ (VBO.run lib calls).indices, i < (VBO.run lib calls).vertices.length / 3)
    ∧ ((b.addTriangle tri color).vertices
        = b.vertices ++ [tri.p0.x, tri.p0.y, tri.p0.z, tri.p1.x, tri.p1.y, tri.p1.z,
            tri.p2.x, tri.p2.y, tri.p2.z]
      ∧ (b.addTriangle tri color).indices
        = b.indices ++ [b.nextIndex % 2 ^ 32, (b.nextIndex + 1) % 2 ^ 32,
            (b.nextIndex + 2) % 2 ^ 32])
    ∧ ((b.addQuad quad color).vertices
        = b.vertices ++ [quad.p0.x, quad.p0.y, quad.p0.z, quad.p1.x, quad.p1.y, quad.p1.z,
            quad.p2.x, quad.p2.y, quad.p2.z, quad.p3.x, quad.p3.y, quad.p3.z]
      ∧ (b.addQuad quad color).indices
        = b.indices ++ [b.nextIndex % 2 ^ 32, (b.nextIndex + 1) % 2 ^ 32,
            (b.nextIndex + 2) % 2 ^ 32, (b.nextIndex + 2) % 2 ^ 32,
            (b.nextIndex + 3) % 2 ^ 32, (b.nextIndex + 0) % 2 ^ 32]) := by
  have h : (VBO.run lib calls).Valid :=
    foldl_valid _ (fun b1 c h1 => VBO.call_valid lib b1 c h1) calls VBO.empty VBO.empty_valid
  obtain ⟨⟨h1, h2, h3, h4⟩, h5⟩ := h
  refine ⟨⟨h1, h2, h3, h5, h4⟩, ⟨?_, ?_⟩, ⟨?_, ?_⟩⟩
  · simp [VBO.addTriangle, VBO.addVertex, VBO.pushIndex]
  · simp [VBO.addTriangle, VBO.addVertex, VBO.pushIndex]
  · simp [VBO.addQuad, VBO.addVertex, VBO.pushIndex]
  · simp [VBO.addQuad, VBO.addVertex, VBO.pushIndex]

/-- An example for claim C29: a triangle followed by a quad. -/
theorem VBO.run_example (lib : GeomLib) (tri : Triangle) (quad : Quad) (color : Color) :
    (VBO.run lib [VboCall.triangle tri color, VboCall.quad quad color]).indices
      = [0, 1, 2, 3, 4, 5, 5, 6, 3]
    ∧ (VBO.run lib [VboCall.triangle tri color, VboCall.quad quad color]).vertices.length
      = 21 := by
  constructor <;>
    simp [VBO.run, VBO.call, VBO.addTriangle, VBO.addQuad, VBO.addVertex, VBO.pushIndex,
      VBO.nextIndex, VBO.empty]

/-! ## The index writes of `VBO::add(const Trimesh&)` -/

theorem resizeIndices_length (l : List Nat) (n : Nat) : (resizeIndices l n).length = n := by
  unfold resizeIndices
  split
  · rw [List.length_take]
    omega
  · rw [List.length_append, List.length_replicate]
    omega

theorem writeIndex_length (l l1 : List Nat) (pos value : Nat)
    (h : writeIndex l pos value = some l1) : l1.length = l.length := by
  unfold writeIndex at h
  split at h
  · injection h with h
    rw [← h, List.length_set]
  · cases h

theorem writeFaceIndex_length (trimesh : Trimesh) (prevSize : Int) (i : Nat)
    (buffer buffer1 : List Nat) (j : Nat)
    (h : writeFaceIndex trimesh prevSize i buffer j = some buffer1) :
    buffer1.length = buffer.length := by
  unfold writeFaceIndex at h
  split at h
  · cases h
  · exact writeIndex_length _ _ _ _ h

theorem foldlM_length {α : Type} (f : List Nat → α → Option (List Nat))
    (hf : ∀ b a b1, f b a = some b1 → b1.length = b.length) (l : List α) :
    ∀ b b1, l.foldlM f b = some b1 → b1.length = b.length := by
  induction l with
  | nil =>
      intro b b1 h
      injection h with h
      rw [h]
  | cons a t ih =>
      intro b b1 h
      rw [List.foldlM_cons] at h
      cases hfa : f b a with
      | none => rw [hfa] at h; cases h
      | some b2 =>
          rw [hfa] at h
          rw [ih b2 b1 h, hf b a b2 hfa]

theorem writeFaceIndex_last (trimesh : Trimesh) (len : Nat) (buffer : List Nat)
    (hF : 1 ≤ trimesh.getIndices.length)
    (hsmall : len + trimesh.getIndices.length < 2 ^ 31)
    (hlen : buffer.length = len + trimesh.getIndices.length) :
    writeFaceIndex trimesh (len : Int) (trimesh.getIndices.length - 1) buffer 2 = none := by
  unfold writeFaceIndex
  split
  · rfl
  · unfold writeIndex
    rw [if_neg]
    rw [hlen]
    have hs : len + trimesh.getIndices.length < 2147483648 := hsmall
    have hm : (((trimesh.getIndices.length - 1 : Nat) : Int) + (len : Int)) * 3 + ((2 : Nat) : Int)
        = (((trimesh.getIndices.length - 1 + len) * 3 + 2 : Nat) : Int) := by
      push_cast
      ring
    rw [hm, Int.emod_eq_of_lt (Int.natCast_nonneg _) (by
      have h64 : (2 : Int) ^ 64 = 18446744073709551616 := by norm_num
      rw [h64]
      omega), Int.toNat_natCast]
    omega

theorem writeFace_last_row (trimesh : Trimesh) (len : Nat) (buffer : List Nat)
    (hF : 1 ≤ trimesh.getIndices.length)
    (hsmall : len + trimesh.getIndices.length < 2 ^ 31)
    (hlen : buffer.length = len + trimesh.getIndices.length) :
    (List.range 3).foldlM
      (writeFaceIndex trimesh (len : Int) (trimesh.getIndices.length - 1)) buffer = none := by
  have hr : List.range 3 = [0, 1, 2] := by decide
  rw [hr, List.foldlM_cons]
  cases h0 : writeFaceIndex trimesh (len : Int) (trimesh.getIndices.length - 1) buffer 0 with
  | none => rfl
  | some b1 =>
      show List.foldlM (writeFaceIndex trimesh (len : Int) (trimesh.getIndices.length - 1))
        b1 [1, 2] = none
      rw [List.foldlM_cons]
      cases h1 : writeFaceIndex trimesh (len : Int) (trimesh.getIndices.length - 1) b1 1 with
      | none => rfl
      | some b2 =>
          show List.foldlM (writeFaceIndex trimesh (len : Int) (trimesh.getIndices.length - 1))
            b2 [2] = none
          rw [List.foldlM_cons]
          have hl1 := writeFaceIndex_length _ _ _ _ _ _ h0
          have hl2 := writeFaceIndex_length _ _ _ _ _ _ h1
          rw [writeFaceIndex_last trimesh len b2 hF hsmall (by rw [hl2, hl1, hlen])]
          rfl

theorem VBO.writeMeshIndices_none (b : VBO) (trimesh : Trimesh)
    (hF : 1 ≤ trimesh.getIndices.length)
    (hsmall : b.indices.length + trimesh.getIndices.length < 2 ^ 31) :
    b.writeMeshIndices trimesh = none := by
  have hw : wrapInt (b.indices.length : Int) = (b.indices.length : Int) :=
    wrapInt_of_range _ (by omega) (by omega)
  have hs : b.indices.length + trimesh.getIndices.length < 2147483648 := hsmall
  have hn : (((b.indices.length : Int) + (trimesh.getIndices.length : Int)) % 2 ^ 64).toNat
      = b.indices.length + trimesh.getIndices.length := by
    rw [← Int.natCast_add, Int.emod_eq_of_lt (Int.natCast_nonneg _) (by
      have h64 : (2 : Int) ^ 64 = 18446744073709551616 := by norm_num
      rw [h64]
      omega), Int.toNat_natCast]
  unfold VBO.writeMeshIndices
  rw [hw, hn]
  have hsplit : List.range trimesh.getIndices.length
      = List.range (trimesh.getIndices.length - 1) ++ [trimesh.getIndices.length - 1] := by
    obtain ⟨k, hk⟩ : ∃ k, trimesh.getIndices.length = k + 1 :=
      ⟨trimesh.getIndices.length - 1, by omega⟩
    rw [hk, Nat.add_sub_cancel, List.range_succ]
  rw [hsplit, List.foldlM_append]
  cases hfirst : (List.range (trimesh.getIndices.length - 1)).foldlM
      (fun buffer i =>
        (List.range 3).foldlM (writeFaceIndex trimesh (b.indices.length : Int) i) buffer)
      (resizeIndices b.indices (b.indices.length + trimesh.getIndices.length)) with
  | none => rfl
  | some buffer =>
      have hlen : buffer.length = b.indices.length + trimesh.getIndices.length := by
        rw [foldlM_length _ (fun b0 i b1 h => foldlM_length _
          (fun b2 j b3 h3 => writeFaceIndex_length _ _ _ _ _ _ h3) _ b0 b1 h) _ _ _ hfirst,
          resizeIndices_length]
      show Option.map _ (List.foldlM (fun buffer i =>
          (List.range 3).foldlM (writeFaceIndex trimesh (b.indices.length : Int) i) buffer)
        buffer [trimesh.getIndices.length - 1]) = none
      rw [List.foldlM_cons,
        writeFace_last_row trimesh b.indices.length buffer hF hsmall hlen]
      rfl

theorem foldl_addVertex_indices {α : Type} (v n : α → Vector3D) (c : α → Color)
    (l : List α) :
    ∀ b : VBO, (l.foldl (fun b1 i => b1.addVertex (v i) (n i) (c i)) b).indices = b.indices := by
  induction l with
  | nil => intro b; rfl
  | cons a t ih =>
      intro b
      rw [List.foldl_cons, ih]
      rfl

theorem VBO.addMeshVertices_indices (lib : GeomLib) (b : VBO) (trimesh : Trimesh)
    (sums : NormalSums) : (VBO.addMeshVertices lib b trimesh sums).indices = b.indices := by
  unfold VBO.addMeshVertices
  exact foldl_addVertex_indices _ _ _ _ b

/-- For every mesh with at least one face and every prior buffer (sizes within the range
of `int`) the function ends in a write outside the index buffer it has just resized. -/
theorem VBO.addTrimesh_none (lib : GeomLib) (b : VBO) (trimesh : Trimesh)
    (hF : 1 ≤ trimesh.getIndices.length)
    (hsmall : b.indices.length + trimesh.getIndices.length < 2 ^ 31) :
    VBO.addTrimesh lib b trimesh = none := by
  unfold VBO.addTrimesh
  cases hs : VBO.meshNormals lib trimesh with
  | none => rfl
  | some sums =>
      rw [Option.some_bind]
      exact VBO.writeMeshIndices_none _ trimesh hF
        (by rw [VBO.addMeshVertices_indices]; exact hsmall)

/-- Claim C30, the failing input: an empty `VBO` and a mesh of one face `(0, 1, 2)` over
three vertices. The vertices are added, the index buffer is resized from 0 to
`prevSize + indices.size() = 1` element, the write of the first index at position 0
succeeds and the write of the second index at position 1 is outside the buffer, so the
call has no defined result. -/
theorem VBO.addTrimesh_writes_outside :
    (VBO.addTrimesh unitGeomLib VBO.empty oneFaceMesh).isNone = true
    ∧ ((VBO.meshNormals unitGeomLib oneFaceMesh).map fun sums =>
        (VBO.addMeshVertices unitGeomLib VBO.empty oneFaceMesh sums).vertices.length) = some 9
    ∧ resizeIndices [] ((wrapInt 0 + 1) % 2 ^ 64).toNat = [0]
    ∧ writeFaceIndex oneFaceMesh (wrapInt 0) 0 [0] 0 = some [0]
    ∧ writeFaceIndex oneFaceMesh (wrapInt 0) 0 [0] 1 = none := by
  decide

end spica
